import Mathlib

/-!
# Event router and webhook delivery (`goat/internal/events/events.go`), backup codes
(`goat/src/main/internal/mfa/mfa.go`), rate limiting (`goat/internal/ratelimit/ratelimit.go`)

A shallow embedding of the event router (`EventRouter.Register`, `EventRouter.Route`)
and of the webhook delivery path (`DefaultWebhookDeliverer.deliver`,
`DefaultWebhookDeliverer.generateSignature`, `DefaultWebhookDeliverer.worker`), together with
the parts of the Go standard library these functions call (`http.Header`, `encoding/hex`,
`crypto/hmac`, `crypto/sha256`). The entry points `Deliver` and `RetryDelivery`, which the
source declares and tests but does not define, are modelled from the specification on top of
`deliver`; so are `NextDelay` and `Match`, of which the source has the configuration structs
only.

The namespace `Mfa` embeds the generator of backup codes (`NewBackupCodeGenerator`,
`BackupCodeGenerator.Generate`) with `encoding/base32`; the namespace `Ratelimit` embeds the
adaptive limiter (`AdaptiveLimiter.AdjustLimit`), the whitelist (`IPWhitelist`) and
`ExtractIP`.

Conventions.
* A Go `map[K]V` is an association list with pairwise distinct keys; reading a missing key
  gives the zero value of `V`.
* A Go `error` is the text of its `Error()` method; `none` is the `nil` error.
* Effects of handlers are made explicit by passing a world state of an arbitrary type `σ`.
-/

namespace Events

/-! ## Go maps -/

/-- A Go map as an association list (at most one entry per key once built with `GoMap.set`). -/
abbrev GoMap (κ : Type) (ν : Type) := List (κ × ν)

namespace GoMap

variable {κ ν : Type} [DecidableEq κ]

/-- The entry stored under `k`, if any (the two-value form `v, ok := m[k]`). -/
def get? (m : GoMap κ ν) (k : κ) : Option ν :=
  match m with
  | [] => none
  | (k', v) :: rest => if k' = k then some v else get? rest k

/-- The assignment `m[k] = v`: replaces the entry of `k` in place, or adds one at the end. -/
def set (m : GoMap κ ν) (k : κ) (v : ν) : GoMap κ ν :=
  match m with
  | [] => [(k, v)]
  | (k', v') :: rest => if k' = k then (k, v) :: rest else (k', v') :: set rest k v

end GoMap

/-! ## Data model -/

/-- The type `EventType` (a Go string). -/
abbrev EventType := String

/-- The type `Priority` (a Go string). -/
abbrev Priority := String

/-- A Go `error`, identified with the text its `Error()` method returns. -/
abbrev GoError := String

/-- The `context.Context` handed through to handlers; only its cancellation flag is visible. -/
structure Context where
  cancelled : Bool
deriving DecidableEq, Repr

/-- The struct `Event`. `Timestamp` is a point in time as a number; the free-form maps `Data` and
`Metadata` hold values of an arbitrary type `δ` (the Go type `interface{}`); the field `Type` is
written `Type_`. -/
structure Event (δ : Type) where
  ID : String
  Type_ : EventType
  Priority : Priority
  Timestamp : Nat
  UserID : String
  SessionID : String
  IP : String
  UserAgent : String
  Resource : String
  Action : String
  Result : String
  Data : GoMap String δ
  Metadata : GoMap String δ

/-- The type `EventHandler`, `func(ctx context.Context, event *Event) error`: a handler reads
the context and the event, may change the world, and returns an error or `nil`.
Handlers are total functions: a `nil` func value and a handler that panics are outside
the model. -/
abbrev EventHandler (δ σ : Type) := Context → Event δ → σ → Option GoError × σ

/-! ## The router -/

/-- The struct `EventRouter` (its mutex is not modelled: every operation below runs alone). -/
structure EventRouter (δ σ : Type) where
  routes : GoMap EventType (List (EventHandler δ σ))

/-- The function `NewEventRouter`: a router with an empty (non-nil) map. -/
def NewEventRouter (δ σ : Type) : EventRouter δ σ := { routes := [] }

/-- The index expression `r.routes[eventType]`: the registered slice, or the nil slice. -/
def EventRouter.handlersFor {δ σ : Type} (r : EventRouter δ σ) (eventType : EventType) :
    List (EventHandler δ σ) :=
  (GoMap.get? r.routes eventType).getD []

/-- The method `EventRouter.Register`:
`r.routes[eventType] = append(r.routes[eventType], handler)`. -/
def EventRouter.Register {δ σ : Type} (r : EventRouter δ σ) (eventType : EventType)
    (handler : EventHandler δ σ) : EventRouter δ σ :=
  { routes := GoMap.set r.routes eventType (r.handlersFor eventType ++ [handler]) }

/-- The state of the loop in `Route`: the errors collected so far (`errs`), the world, and a log
of the handlers called so far (the log is instrumentation, it does not influence the run). -/
structure RouteLoop (δ σ : Type) where
  errs : List GoError
  world : σ
  invoked : List (EventHandler δ σ)

/-- One iteration of the loop in `Route`:
`if err := handler(ctx, event); err != nil { errs = append(errs, err) }`. -/
def routeStep {δ σ : Type} (ctx : Context) (event : Event δ) (st : RouteLoop δ σ)
    (handler : EventHandler δ σ) : RouteLoop δ σ :=
  match handler ctx event st.world with
  | (some err, w) => { errs := st.errs ++ [err], world := w, invoked := st.invoked ++ [handler] }
  | (none, w) => { errs := st.errs, world := w, invoked := st.invoked ++ [handler] }

/-- The loop `for _, handler := range handlers` of `Route`. -/
def routeLoop {δ σ : Type} (ctx : Context) (event : Event δ) (st : RouteLoop δ σ)
    (handlers : List (EventHandler δ σ)) : RouteLoop δ σ :=
  handlers.foldl (routeStep ctx event) st

/-- The formatting of a `[]error` with the verb `%v`: the texts separated by one blank, in
square brackets. -/
def formatErrs (errs : List GoError) : String :=
  "[" ++ " ".intercalate errs ++ "]"

/-- What a call of `Route` leaves behind: the returned error, the world after the handlers, and
the log of the handlers called, in call order. -/
structure RouteResult (δ σ : Type) where
  err : Option GoError
  world : σ
  invoked : List (EventHandler δ σ)

/-- The method `EventRouter.Route`: reads the handler slice of `event.Type`, calls every handler,
and returns `fmt.Errorf("handler errors: %v", errs)` when `len(errs) > 0`, else `nil`. -/
def EventRouter.Route {δ σ : Type} (r : EventRouter δ σ) (ctx : Context) (event : Event δ)
    (w : σ) : RouteResult δ σ :=
  let handlers := r.handlersFor event.Type_
  let st := routeLoop ctx event { errs := [], world := w, invoked := [] } handlers
  if st.errs.length > 0 then
    { err := some ("handler errors: " ++ formatErrs st.errs), world := st.world,
      invoked := st.invoked }
  else
    { err := none, world := st.world, invoked := st.invoked }

/-- What each handler of a list returns when the handlers are called one after the other from
world `w`, each in the world its predecessor left: one entry per handler, in call order. -/
def handlerResults {δ σ : Type} (ctx : Context) (event : Event δ) (w : σ) :
    List (EventHandler δ σ) → List (Option GoError)
  | [] => []
  | h :: rest => (h ctx event w).1 :: handlerResults ctx event (h ctx event w).2 rest

/-- The world after the handlers of a list have been called one after the other from `w`. -/
def worldAfter {δ σ : Type} (ctx : Context) (event : Event δ) (w : σ) :
    List (EventHandler δ σ) → σ
  | [] => w
  | h :: rest => worldAfter ctx event (h ctx event w).2 rest

/-! ## Standard library: `net/http` headers -/

/-- The function `validHeaderFieldByte` of `net/textproto`: the token characters of RFC 7230
(letters, digits and the marks ``!#$%&'*+-.^_`|~``). -/
def validHeaderFieldByte (c : Char) : Bool :=
  c.isAlphanum || "!#$%&*+-.^_|~".data.contains c || c == Char.ofNat 39 || c == Char.ofNat 96

/-- The first loop of `canonicalMIMEHeaderKey`: `none` when a byte is neither a token character
nor a blank (the key is returned unchanged, `ok = false`), else the flag `noCanon`. -/
def canonicalScan : Bool → List Char → Option Bool
  | noCanon, [] => some noCanon
  | noCanon, c :: rest =>
    if validHeaderFieldByte c then canonicalScan noCanon rest
    else if c == ' ' then canonicalScan true rest
    else none

/-- The second loop of `canonicalMIMEHeaderKey`: upper case for the first letter and for a letter
after a dash, lower case for every other letter. -/
def canonicalCase : Bool → List Char → List Char
  | _, [] => []
  | upper, c :: rest =>
    let c' :=
      if upper && decide ('a' ≤ c) && decide (c ≤ 'z') then Char.ofNat (c.toNat - 32)
      else if !upper && decide ('A' ≤ c) && decide (c ≤ 'Z') then Char.ofNat (c.toNat + 32)
      else c
    c' :: canonicalCase (c' == '-') rest

/-- The function `canonicalMIMEHeaderKey` of `net/textproto` (the table of common headers only
interns the result and is left out). -/
def canonicalMIMEHeaderKey (a : List Char) : List Char × Bool :=
  match canonicalScan false a with
  | none => (a, false)
  | some true => (a, true)
  | some false => (canonicalCase true a, true)

/-- The loop of `CanonicalMIMEHeaderKey`, the quick check for a key that is canonical already:
`true` when the key has to go through `canonicalMIMEHeaderKey`, `false` when it is returned
as it is (at an invalid byte, or at the end). -/
def canonicalQuickCheck : Bool → List Char → Bool
  | _, [] => false
  | upper, c :: rest =>
    if !validHeaderFieldByte c then false
    else if upper && decide ('a' ≤ c) && decide (c ≤ 'z') then true
    else if !upper && decide ('A' ≤ c) && decide (c ≤ 'Z') then true
    else canonicalQuickCheck (c == '-') rest

/-- The function `textproto.CanonicalMIMEHeaderKey`. -/
def CanonicalMIMEHeaderKey (s : String) : String :=
  if canonicalQuickCheck true s.data then String.mk (canonicalMIMEHeaderKey s.data).1 else s

/-- The type `http.Header`, `map[string][]string`. -/
abbrev Header := GoMap String (List String)

/-- The method `Header.Set`: `h[CanonicalMIMEHeaderKey(key)] = []string{value}`. -/
def Header.Set (h : Header) (key value : String) : Header :=
  GoMap.set h (CanonicalMIMEHeaderKey key) [value]

/-- The method `Header.Get`: the first value stored under the canonical form of `key`, or the
empty string. -/
def Header.Get (h : Header) (key : String) : String :=
  match (GoMap.get? h (CanonicalMIMEHeaderKey key)).getD [] with
  | [] => ""
  | v :: _ => v

/-- Whether the header map has an entry under the canonical form of `key` (`_, ok := h[...]`). -/
def Header.Has (h : Header) (key : String) : Bool :=
  (GoMap.get? h (CanonicalMIMEHeaderKey key)).isSome

/-! ## Standard library: `crypto/sha256`, `crypto/hmac`, `encoding/hex` -/

/-- The conversion `[]byte(s)` of a Go string: its UTF-8 bytes. -/
def stringBytes (s : String) : List UInt8 :=
  s.data.flatMap String.utf8EncodeChar

/-- Rotation of a 32-bit word to the right (`bits.RotateLeft32(x, -n)`). -/
def rotr32 (x n : Nat) : Nat :=
  ((x >>> n) ||| (x <<< (32 - n))) % 2 ^ 32

/-- The round constants `_K` of SHA-256. -/
def sha256K : List Nat := [
  0x428a2f98, 0x71374491, 0xb5c0fbcf, 0xe9b5dba5, 0x3956c25b, 0x59f111f1, 0x923f82a4, 0xab1c5ed5,
  0xd807aa98, 0x12835b01, 0x243185be, 0x550c7dc3, 0x72be5d74, 0x80deb1fe, 0x9bdc06a7, 0xc19bf174,
  0xe49b69c1, 0xefbe4786, 0x0fc19dc6, 0x240ca1cc, 0x2de92c6f, 0x4a7484aa, 0x5cb0a9dc, 0x76f988da,
  0x983e5152, 0xa831c66d, 0xb00327c8, 0xbf597fc7, 0xc6e00bf3, 0xd5a79147, 0x06ca6351, 0x14292967,
  0x27b70a85, 0x2e1b2138, 0x4d2c6dfc, 0x53380d13, 0x650a7354, 0x766a0abb, 0x81c2c92e, 0x92722c85,
  0xa2bfe8a1, 0xa81a664b, 0xc24b8b70, 0xc76c51a3, 0xd192e819, 0xd6990624, 0xf40e3585, 0x106aa070,
  0x19a4c116, 0x1e376c08, 0x2748774c, 0x34b0bcb5, 0x391c0cb3, 0x4ed8aa4a, 0x5b9cca4f, 0x682e6ff3,
  0x748f82ee, 0x78a5636f, 0x84c87814, 0x8cc70208, 0x90befffa, 0xa4506ceb, 0xbef9a3f7, 0xc67178f2]

/-- The eight 32-bit words of the SHA-256 chaining value (the array `h` of the digest). -/
structure Sha256State where
  a : Nat
  b : Nat
  c : Nat
  d : Nat
  e : Nat
  f : Nat
  g : Nat
  h : Nat
deriving DecidableEq, Repr

/-- The initial chaining value of SHA-256. -/
def sha256Init : Sha256State :=
  ⟨0x6a09e667, 0xbb67ae85, 0x3c6ef372, 0xa54ff53a, 0x510e527f, 0x9b05688c, 0x1f83d9ab, 0x5be0cd19⟩

/-- The message schedule: emits `n` words, each new word computed from the window of the
sixteen words before it (`w[i-16] + σ0(w[i-15]) + w[i-7] + σ1(w[i-2])`). -/
def sha256Schedule : Nat → List Nat → List Nat
  | 0, _ => []
  | n + 1, w =>
    let w0 := w.getD 0 0
    let w1 := w.getD 1 0
    let w9 := w.getD 9 0
    let w14 := w.getD 14 0
    let s0 := rotr32 w1 7 ^^^ rotr32 w1 18 ^^^ (w1 >>> 3)
    let s1 := rotr32 w14 17 ^^^ rotr32 w14 19 ^^^ (w14 >>> 10)
    let next := (w0 + s0 + w9 + s1) % 2 ^ 32
    w0 :: sha256Schedule n (w.drop 1 ++ [next])

/-- One of the 64 rounds of the compression function, on a round constant and a schedule word. -/
def sha256Round (s : Sha256State) (kw : Nat × Nat) : Sha256State :=
  let S1 := rotr32 s.e 6 ^^^ rotr32 s.e 11 ^^^ rotr32 s.e 25
  let ch := (s.e &&& s.f) ^^^ ((s.e ^^^ (2 ^ 32 - 1)) &&& s.g)
  let t1 := (s.h + S1 + ch + kw.1 + kw.2) % 2 ^ 32
  let S0 := rotr32 s.a 2 ^^^ rotr32 s.a 13 ^^^ rotr32 s.a 22
  let maj := (s.a &&& s.b) ^^^ (s.a &&& s.c) ^^^ (s.b &&& s.c)
  let t2 := (S0 + maj) % 2 ^ 32
  ⟨(t1 + t2) % 2 ^ 32, s.a, s.b, s.c, (s.d + t1) % 2 ^ 32, s.e, s.f, s.g⟩

/-- The big-endian words of a block, four bytes each. -/
def blockWords : List UInt8 → List Nat
  | b0 :: b1 :: b2 :: b3 :: rest =>
    (((b0.toNat * 256 + b1.toNat) * 256 + b2.toNat) * 256 + b3.toNat) :: blockWords rest
  | _ => []

/-- The compression of one 64-byte block into the chaining value. -/
def sha256Block (s : Sha256State) (block : List UInt8) : Sha256State :=
  let w := sha256Schedule 64 (blockWords block)
  let t := (sha256K.zip w).foldl sha256Round s
  ⟨(s.a + t.a) % 2 ^ 32, (s.b + t.b) % 2 ^ 32, (s.c + t.c) % 2 ^ 32, (s.d + t.d) % 2 ^ 32,
   (s.e + t.e) % 2 ^ 32, (s.f + t.f) % 2 ^ 32, (s.g + t.g) % 2 ^ 32, (s.h + t.h) % 2 ^ 32⟩

/-- The `k` low bytes of `n`, most significant first. -/
def bigEndian (n : Nat) : Nat → List UInt8
  | 0 => []
  | k + 1 => UInt8.ofNat ((n >>> (8 * k)) % 256) :: bigEndian n k

/-- The padding of SHA-256: the byte `0x80`, zero bytes up to 56 modulo 64, and the length of
the message in bits as a 64-bit big-endian number. -/
def sha256Pad (msg : List UInt8) : List UInt8 :=
  msg ++ [0x80] ++ List.replicate ((119 - msg.length % 64) % 64) 0
    ++ bigEndian (8 * msg.length % 2 ^ 64) 8

/-- The compression of the first `n` blocks of a byte sequence. -/
def sha256Blocks : Nat → Sha256State → List UInt8 → Sha256State
  | 0, s, _ => s
  | n + 1, s, bytes => sha256Blocks n (sha256Block s (bytes.take 64)) (bytes.drop 64)

/-- The SHA-256 digest of a message (FIPS 180-4), 32 bytes; in Go `sha256.Sum256`. -/
def sha256Sum (msg : List UInt8) : List UInt8 :=
  let p := sha256Pad msg
  let s := sha256Blocks (p.length / 64) sha256Init p
  bigEndian s.a 4 ++ bigEndian s.b 4 ++ bigEndian s.c 4 ++ bigEndian s.d 4
    ++ bigEndian s.e 4 ++ bigEndian s.f 4 ++ bigEndian s.g 4 ++ bigEndian s.h 4

/-- The `hash.Hash` that `sha256.New` returns, as the bytes written to it so far. -/
structure Sha256Digest where
  written : List UInt8
deriving DecidableEq, Repr

/-- The function `sha256.New` (also the state after `Reset`). -/
def sha256New : Sha256Digest := ⟨[]⟩

/-- The method `Write` of the SHA-256 hash. -/
def Sha256Digest.Write (d : Sha256Digest) (p : List UInt8) : Sha256Digest :=
  ⟨d.written ++ p⟩

/-- The method `Sum(b)` of the SHA-256 hash: `b` with the digest of the written bytes appended. -/
def Sha256Digest.Sum (d : Sha256Digest) (b : List UInt8) : List UInt8 :=
  b ++ sha256Sum d.written

/-- The method `BlockSize` of the SHA-256 hash. -/
def sha256BlockSize : Nat := 64

/-- The built-in `copy(dst, src)`: the first `min(len(dst), len(src))` bytes of `dst` replaced. -/
def copyBytes (dst src : List UInt8) : List UInt8 :=
  src.take dst.length ++ dst.drop src.length

/-- The struct `hmac` of `crypto/hmac`. -/
structure Hmac where
  opad : List UInt8
  ipad : List UInt8
  outer : Sha256Digest
  inner : Sha256Digest
deriving DecidableEq, Repr

/-- The function `hmac.New(sha256.New, key)`: a key longer than the block size is hashed first,
the pads are the key filled with zero bytes and xor-ed with `0x36` and `0x5c`, and the inner
hash starts with the inner pad. -/
def hmacNew (key : List UInt8) : Hmac :=
  let outer := sha256New
  let inner := sha256New
  let blocksize := sha256BlockSize
  let outer' := if key.length > blocksize then outer.Write key else outer
  let key' := if key.length > blocksize then outer'.Sum [] else key
  let ipad := (copyBytes (List.replicate blocksize 0) key').map (· ^^^ 0x36)
  let opad := (copyBytes (List.replicate blocksize 0) key').map (· ^^^ 0x5c)
  { opad := opad, ipad := ipad, outer := outer', inner := inner.Write ipad }

/-- The method `Write` of `hmac`: `h.inner.Write(p)`. -/
def Hmac.Write (h : Hmac) (p : List UInt8) : Hmac :=
  { h with inner := h.inner.Write p }

/-- The method `Sum(in)` of `hmac`: the inner digest is appended to `in`, the outer hash is
reset, fed the outer pad and the inner digest, and its digest is appended to `in`. -/
def Hmac.Sum (h : Hmac) (b : List UInt8) : List UInt8 :=
  let origLen := b.length
  let b' := h.inner.Sum b
  let outer := (sha256New.Write h.opad).Write (b'.drop origLen)
  outer.Sum (b'.take origLen)

/-- The digit table `hextable` of `encoding/hex`. -/
def hextable : List Char := "0123456789abcdef".data

/-- The function `hex.EncodeToString`: for each byte `v` the two characters
`hextable[v>>4]` and `hextable[v&0x0f]`. -/
def hexEncodeToString (src : List UInt8) : String :=
  String.mk (src.flatMap fun v =>
    [hextable.getD (v >>> 4).toNat '0', hextable.getD (v &&& 0x0f).toNat '0'])

/-! ## Webhook delivery -/

/-- The struct `RetryConfig`; durations are nanoseconds, the multiplier is a rational number. -/
structure RetryConfig where
  MaxRetries : Int
  InitialDelay : Int
  MaxDelay : Int
  Multiplier : Rat
  Timeout : Int

/-- The struct `Filter`. -/
structure Filter (δ : Type) where
  Field : String
  Operator : String
  Value : δ

/-- The struct `Webhook`. The entries of `Headers` stand in the order in which the `range` loop
of `deliver` visits them (the order is not fixed in Go, so every order may occur). -/
structure Webhook (δ : Type) where
  ID : String
  Name : String
  URL : String
  Events : List EventType
  Headers : GoMap String String
  Secret : String
  Active : Bool
  RetryConfig : Option RetryConfig
  Filters : List (Filter δ)
  CreatedAt : Nat
  UpdatedAt : Nat
  LastTriggered : Option Nat
  FailureCount : Int

/-- The struct `Delivery`. `Response` and `Payload` are raw bytes; a nil time pointer is `none`.
The default values are the zero values of the Go fields. -/
structure Delivery where
  ID : String := ""
  WebhookID : String := ""
  EventID : String := ""
  URL : String := ""
  Method : String := ""
  Headers : GoMap String String := []
  Payload : List UInt8 := []
  Response : List UInt8 := []
  StatusCode : Int := 0
  Success : Bool := false
  Error : String := ""
  Attempts : Int := 0
  DeliveredAt : Option Nat := none
  NextRetryAt : Option Nat := none
  CreatedAt : Nat := 0
deriving DecidableEq, Repr

/-- The struct `DeliveryTask`; both pointers are non-nil, `Callback` names the channel, if any. -/
structure DeliveryTask (δ : Type) where
  Webhook : Webhook δ
  Event : Event δ
  Attempt : Int
  Callback : Option Nat

/-- An `http.Request` as `deliver` builds it: method, URL, header map, and the bytes of the
body reader. -/
structure Request where
  Method : String
  URL : String
  Header : Header
  Body : List UInt8
  ctx : Context
deriving DecidableEq, Repr

/-- An `http.Response`: the status code and the bytes the first `Read` of the body has at hand. -/
structure Response where
  StatusCode : Int
  Body : List UInt8
deriving DecidableEq, Repr

/-- The struct `DefaultWebhookDeliverer`. The field `client` is the behaviour of
`client.Do`: for a request and a state `ν` of the network it gives the response or the
error, and the next state. The wait group is left out; `retryDelay` is in nanoseconds. -/
structure DefaultWebhookDeliverer (δ ν : Type) where
  client : Request → ν → Except GoError Response × ν
  maxRetries : Int
  retryDelay : Int
  queue : List (DeliveryTask δ)
  workers : Int

/-- The function `NewDefaultWebhookDeliverer`, for a given behaviour of the HTTP client. -/
def NewDefaultWebhookDeliverer {δ ν : Type} (client : Request → ν → Except GoError Response × ν)
    (workers : Int) : DefaultWebhookDeliverer δ ν :=
  { client := client, maxRetries := 3, retryDelay := 1000000000, queue := [], workers := workers }

/-- The library calls of `deliver` whose results are inputs of the model: `json.Marshal` on an
event, the error of `http.NewRequestWithContext` for a URL (`none` when the URL parses), and
the value of `time.Now()`. -/
structure Runtime (δ : Type) where
  jsonMarshal : Event δ → Except GoError (List UInt8)
  newRequestError : String → Option GoError
  now : Nat

/-- The function `http.NewRequestWithContext(ctx, method, url, bytes.NewReader(body))`: an
error for a URL that does not parse, else a request with an empty header map. -/
def NewRequestWithContext {δ : Type} (rt : Runtime δ) (ctx : Context) (method url : String)
    (body : List UInt8) : Except GoError Request :=
  match rt.newRequestError url with
  | some err => .error err
  | none => .ok { Method := method, URL := url, Header := [], Body := body, ctx := ctx }

/-- The method `generateSignature`:
`h := hmac.New(sha256.New, []byte(secret)); h.Write(payload);`
`return "sha256=" + hex.EncodeToString(h.Sum(nil))`. -/
def generateSignature (payload : List UInt8) (secret : String) : String :=
  let h := hmacNew (stringBytes secret)
  let h := h.Write payload
  "sha256=" ++ hexEncodeToString (h.Sum [])

/-- The loop `for key, value := range task.Webhook.Headers { req.Header.Set(key, value) }`. -/
def setCustomHeaders (h : Header) (headers : GoMap String String) : Header :=
  headers.foldl (fun acc kv => Header.Set acc kv.1 kv.2) h

/-- What a call of `deliver` leaves behind: the returned `Delivery`, the request handed to
`client.Do` (`none` when `deliver` returned before that call), and the state of the network. -/
structure DeliverResult (ν : Type) where
  delivery : Delivery
  sent : Option Request
  net : ν

/-- The method `DefaultWebhookDeliverer.deliver`. -/
def deliver {δ ν : Type} (d : DefaultWebhookDeliverer δ ν) (rt : Runtime δ) (ctx : Context)
    (task : DeliveryTask δ) (net : ν) : DeliverResult ν :=
  match rt.jsonMarshal task.Event with
  | .error err =>
    { delivery := { WebhookID := task.Webhook.ID, EventID := task.Event.ID, Success := false,
                    Error := err },
      sent := none, net := net }
  | .ok payload =>
    match NewRequestWithContext rt ctx "POST" task.Webhook.URL payload with
    | .error err =>
      { delivery := { WebhookID := task.Webhook.ID, EventID := task.Event.ID, Success := false,
                      Error := err },
        sent := none, net := net }
    | .ok req =>
      -- Set headers
      let hdr := Header.Set req.Header "Content-Type" "application/json"
      let hdr := Header.Set hdr "X-Webhook-ID" task.Webhook.ID
      let hdr := Header.Set hdr "X-Event-ID" task.Event.ID
      let hdr := Header.Set hdr "X-Event-Type" task.Event.Type_
      -- Add custom headers
      let hdr := setCustomHeaders hdr task.Webhook.Headers
      -- Add HMAC signature if secret is configured
      let hdr :=
        if task.Webhook.Secret ≠ "" then
          Header.Set hdr "X-Webhook-Signature" (generateSignature payload task.Webhook.Secret)
        else hdr
      let req := { req with Header := hdr }
      -- Send request
      match d.client req net with
      | (.error err, net') =>
        { delivery := { WebhookID := task.Webhook.ID, EventID := task.Event.ID, Success := false,
                        Error := err, Attempts := task.Attempt },
          sent := some req, net := net' }
      | (.ok resp, net') =>
        -- Read response
        let body := resp.Body.take 1024
        { delivery := { WebhookID := task.Webhook.ID, EventID := task.Event.ID,
                        URL := task.Webhook.URL, Method := "POST", Payload := payload,
                        Response := body, StatusCode := resp.StatusCode,
                        Success := decide (resp.StatusCode ≥ 200) && decide (resp.StatusCode < 300),
                        Attempts := task.Attempt, DeliveredAt := some rt.now },
          sent := some req, net := net' }

/-- The header map `deliver` has built when it calls `client.Do`, for the marshalled payload:
the four fixed headers, then the custom headers, then the signature when a secret is set. -/
def requestHeader {δ : Type} (task : DeliveryTask δ) (payload : List UInt8) : Header :=
  let hdr := Header.Set [] "Content-Type" "application/json"
  let hdr := Header.Set hdr "X-Webhook-ID" task.Webhook.ID
  let hdr := Header.Set hdr "X-Event-ID" task.Event.ID
  let hdr := Header.Set hdr "X-Event-Type" task.Event.Type_
  let hdr := setCustomHeaders hdr task.Webhook.Headers
  if task.Webhook.Secret ≠ "" then
    Header.Set hdr "X-Webhook-Signature" (generateSignature payload task.Webhook.Secret)
  else hdr

/-- The request `deliver` hands to `client.Do`, for the marshalled payload. -/
def builtRequest {δ : Type} (ctx : Context) (task : DeliveryTask δ) (payload : List UInt8) :
    Request :=
  { Method := "POST", URL := task.Webhook.URL, Header := requestHeader task payload,
    Body := payload, ctx := ctx }

/-! ## The worker -/

/-- What a worker does that others can see: it starts the attempt for the task at a position
of the queue (the call `d.deliver(ctx, task)`), and it sends a `Delivery` on a callback
channel (`task.Callback <- delivery`). -/
inductive WorkerEvent where
  | started (index : Nat)
  | sent (callback : Nat) (delivery : Delivery)
deriving DecidableEq, Repr

/-- The state of a running worker: the state of the network and the events so far, oldest
first (the log is instrumentation, it does not influence the run). -/
structure WorkerState (ν : Type) where
  net : ν
  trace : List WorkerEvent

/-- The loop of `worker`, `for task := range d.queue { select { ... } }`, on the tasks the
worker receives from the queue, in the order of the queue. `ctx i` is the context as it is
when the worker has received the task at position `i`: if it is cancelled
(`case <-ctx.Done()`) the worker returns, else (`default`) it calls `deliver` and, when the
task has a callback, sends the result there. A send completes: the channel has a receiver or
room in its buffer. -/
def workerLoop {δ ν : Type} (d : DefaultWebhookDeliverer δ ν) (rt : Runtime δ)
    (ctx : Nat → Context) : Nat → List (DeliveryTask δ) → WorkerState ν → WorkerState ν
  | _, [], st => st
  | i, task :: rest, st =>
    if (ctx i).cancelled then st
    else
      let r := deliver d rt (ctx i) task st.net
      let trace := st.trace ++ [WorkerEvent.started i]
      let trace :=
        match task.Callback with
        | some callback => trace ++ [WorkerEvent.sent callback r.delivery]
        | none => trace
      workerLoop d rt ctx (i + 1) rest { net := r.net, trace := trace }

/-- The method `DefaultWebhookDeliverer.worker`, run by one worker on the tasks of the queue. -/
def worker {δ ν : Type} (d : DefaultWebhookDeliverer δ ν) (rt : Runtime δ)
    (ctx : Nat → Context) (net : ν) : WorkerState ν :=
  workerLoop d rt ctx 0 d.queue { net := net, trace := [] }

/-- The outcome of each task of a list when the attempts are made one after the other, each in
the state of the network its predecessor left; the first task has position `i`. -/
def outcomesFrom {δ ν : Type} (d : DefaultWebhookDeliverer δ ν) (rt : Runtime δ)
    (ctx : Nat → Context) : Nat → List (DeliveryTask δ) → ν → List Delivery
  | _, [], _ => []
  | i, task :: rest, net =>
    (deliver d rt (ctx i) task net).delivery ::
      outcomesFrom d rt ctx (i + 1) rest (deliver d rt (ctx i) task net).net

/-- The events of one task at position `i` with the given outcome: the start of its attempt,
followed by one send of the outcome when the task has a callback, by nothing otherwise. -/
def taskEvents {δ : Type} (i : Nat) (task : DeliveryTask δ) (outcome : Delivery) :
    List WorkerEvent :=
  match task.Callback with
  | some callback => [WorkerEvent.started i, WorkerEvent.sent callback outcome]
  | none => [WorkerEvent.started i]

/-- The events of a list of tasks with their outcomes, task after task; the first task has
position `i`. -/
def eventsFrom {δ : Type} : Nat → List (DeliveryTask δ) → List Delivery → List WorkerEvent
  | i, task :: rest, outcome :: outcomes =>
    taskEvents i task outcome ++ eventsFrom (i + 1) rest outcomes
  | _, _, _ => []

/-- The position of the task whose attempt an event starts, if it is a start. -/
def startedIndex : WorkerEvent → Option Nat
  | .started i => some i
  | .sent _ _ => none

/-- The channel and the `Delivery` of an event, if it is a send. -/
def sentOn : WorkerEvent → Option (Nat × Delivery)
  | .started _ => none
  | .sent callback delivery => some (callback, delivery)

/-- The state of the network after the attempts for a list of tasks, made one after the other;
the first task has position `i`. -/
def networkAfter {δ ν : Type} (d : DefaultWebhookDeliverer δ ν) (rt : Runtime δ)
    (ctx : Nat → Context) : Nat → List (DeliveryTask δ) → ν → ν
  | _, [], net => net
  | i, task :: rest, net =>
    networkAfter d rt ctx (i + 1) rest (deliver d rt (ctx i) task net).net

/-! ## Reference definitions, in the words of the specification -/

/-- The key block of HMAC (RFC 2104): a key longer than 64 bytes is replaced by its SHA-256
digest, and the key is filled with zero bytes to 64 bytes. -/
def hmacKeyBlock (key : List UInt8) : List UInt8 :=
  let k := if key.length > 64 then sha256Sum key else key
  k ++ List.replicate (64 - k.length) 0

/-- HMAC-SHA256 as RFC 2104 defines it: `H((K ⊕ opad) ‖ H((K ⊕ ipad) ‖ message))`. -/
def hmacSHA256 (key message : List UInt8) : List UInt8 :=
  let k := hmacKeyBlock key
  sha256Sum (k.map (· ^^^ 0x5c) ++ sha256Sum (k.map (· ^^^ 0x36) ++ message))

/-- Lower-case hexadecimal text of a byte sequence: for each byte the digit of its high half
and the digit of its low half. -/
def lowerHex (bytes : List UInt8) : String :=
  String.mk (bytes.flatMap fun b => [Nat.digitChar (b.toNat / 16), Nat.digitChar (b.toNat % 16)])

/-- Modelled from the spec: the verifier `Verify(payload, secret, signature)`, which the source
does not define. It recomputes the signature of the payload under the secret and compares it
with the given one (the comparison in constant time decides equality). -/
def Verify (payload : List UInt8) (secret signature : String) : Bool :=
  decide (generateSignature payload secret = signature)

/-! ## The synchronous entry points, modelled from the specification -/

/-- Modelled from the spec: the record the engine keeps of one attempt (the persisted
`Delivery`), with the webhook and the event of the attempt, which a retry needs. The source
declares `Deliver` and `RetryDelivery` in the interface `WebhookDeliverer` and tests them,
but defines neither, and it has no store of deliveries. -/
structure AttemptRecord (δ : Type) where
  delivery : Delivery
  webhook : Webhook δ
  event : Event δ

/-- Modelled from the spec: the history of attempts ("preserving history of every attempt"),
oldest first. -/
abbrev DeliveryHistory (δ : Type) := List (AttemptRecord δ)

/-- Modelled from the spec: what a synchronous entry point returns, `(Delivery, error)`, and
leaves behind: the request handed to the client, if any, the history and the state of the
network. -/
structure EntryResult (δ ν : Type) where
  delivery : Option Delivery
  err : Option GoError
  sent : Option Request
  history : DeliveryHistory δ
  net : ν

/-- Modelled from the spec: one recorded attempt with a given attempt number. The attempt
itself is `deliver` of the source. The returned `Delivery` gets a new identifier ("new
identifier per attempt": `idOf` names the attempts in the order they are made) and the attempt
number ("attempts: cumulative, carried forward across retries"); it is appended to the
history; the returned error is non-nil exactly when the `Delivery` is not a success
("also returns a Go-style error value describing the failure"). -/
def recordedAttempt {δ ν : Type} (d : DefaultWebhookDeliverer δ ν) (rt : Runtime δ)
    (ctx : Context) (idOf : Nat → String) (webhook : Webhook δ) (event : Event δ)
    (attempt : Int) (history : DeliveryHistory δ) (net : ν) : EntryResult δ ν :=
  let r := deliver d rt ctx
    { Webhook := webhook, Event := event, Attempt := attempt, Callback := none } net
  let delivery := { r.delivery with ID := idOf history.length, Attempts := attempt }
  { delivery := some delivery,
    err := if delivery.Success then none else some ("webhook delivery failed: " ++ delivery.Error),
    sent := r.sent,
    history := history ++ [{ delivery := delivery, webhook := webhook, event := event }],
    net := r.net }

/-- Modelled from the spec: `Deliver(ctx, webhook, event)`, which the source declares and tests
but does not define. A nil webhook or a nil event (`none`) "is a usage error, not attempted";
otherwise it is a first recorded attempt. -/
def Deliver {δ ν : Type} (d : DefaultWebhookDeliverer δ ν) (rt : Runtime δ) (ctx : Context)
    (idOf : Nat → String) (webhook : Option (Webhook δ)) (event : Option (Event δ))
    (history : DeliveryHistory δ) (net : ν) : EntryResult δ ν :=
  match webhook, event with
  | some w, some e => recordedAttempt d rt ctx idOf w e 1 history net
  | _, _ =>
    { delivery := none, err := some "webhook and event are required", sent := none,
      history := history, net := net }

/-- Modelled from the spec: `RetryDelivery(ctx, deliveryID)`, which the source declares and
tests but does not define: "retrying a failed delivery produces a new Delivery whose attempts
is exactly one greater than the prior attempt, and whose id differs from the original". An
identifier that is not in the history, or that of a successful delivery, is an error and
nothing is attempted. -/
def RetryDelivery {δ ν : Type} (d : DefaultWebhookDeliverer δ ν) (rt : Runtime δ)
    (ctx : Context) (idOf : Nat → String) (deliveryID : String)
    (history : DeliveryHistory δ) (net : ν) : EntryResult δ ν :=
  match history.find? (fun r => decide (r.delivery.ID = deliveryID)) with
  | none =>
    { delivery := none, err := some "delivery not found", sent := none, history := history,
      net := net }
  | some prior =>
    if prior.delivery.Success then
      { delivery := none, err := some "delivery already succeeded", sent := none,
        history := history, net := net }
    else
      recordedAttempt d rt ctx idOf prior.webhook prior.event (prior.delivery.Attempts + 1)
        history net

/-- Modelled from the spec: a history in which the attempt at position `k` has the identifier
`idOf k`, as every history built by `Deliver` and `RetryDelivery` from the empty one has. -/
def HistoryNamed {δ : Type} (idOf : Nat → String) (history : DeliveryHistory δ) : Prop :=
  ∀ k (hk : k < history.length), (history.get ⟨k, hk⟩).delivery.ID = idOf k

/-! ## The retry scheduler and the filter evaluator, modelled from the specification -/

/-- Modelled from the spec: `NextDelay(retryConfig, attempt)`, which the source does not
define (it declares the struct `RetryConfig` only): "`min(initial_delay *
multiplier^(attempt-1), max_delay)`", as an exact number of nanoseconds. -/
def NextDelay (config : RetryConfig) (attempt : Nat) : Rat :=
  min ((config.InitialDelay : Rat) * config.Multiplier ^ (attempt - 1)) (config.MaxDelay : Rat)

/-- Modelled from the spec: a value of an event field or of a filter: a text, a number, or a
set of texts. -/
inductive FilterValue where
  | text (s : String)
  | number (q : Rat)
  | texts (set : List String)
deriving DecidableEq

/-- Modelled from the spec: the value of an event field for a field path: a field of the event
under its JSON name, or a key of `data` or `metadata` after a dot ("dotted-path lookup into
data/metadata permitted"); there is none for an unknown path. -/
def fieldValue (event : Event FilterValue) (path : String) : Option FilterValue :=
  if path = "id" then some (.text event.ID)
  else if path = "type" then some (.text event.Type_)
  else if path = "priority" then some (.text event.Priority)
  else if path = "user_id" then some (.text event.UserID)
  else if path = "session_id" then some (.text event.SessionID)
  else if path = "ip" then some (.text event.IP)
  else if path = "user_agent" then some (.text event.UserAgent)
  else if path = "resource" then some (.text event.Resource)
  else if path = "action" then some (.text event.Action)
  else if path = "result" then some (.text event.Result)
  else if "data.".isPrefixOf path then event.Data.get? (path.drop 5)
  else if "metadata.".isPrefixOf path then event.Metadata.get? (path.drop 9)
  else none

/-- Modelled from the spec: whether a text occurs in a text. -/
def containsText (s sub : String) : Bool :=
  s.data.tails.any fun t => sub.data.isPrefixOf t

/-- Modelled from the spec: one filter evaluated against an event. "Supported operators:
equals, not_equals, contains (substring/set membership), in (value in set), numeric
comparisons (gt, gte, lt, lte) applied only when both operands are numeric, else the filter
evaluates false. Unknown field paths evaluate false." -/
def evalFilter (event : Event FilterValue) (filter : Filter FilterValue) : Bool :=
  match fieldValue event filter.Field with
  | none => false
  | some v =>
    if filter.Operator = "equals" then decide (v = filter.Value)
    else if filter.Operator = "not_equals" then decide (v ≠ filter.Value)
    else if filter.Operator = "contains" then
      match v, filter.Value with
      | .text s, .text sub => containsText s sub
      | .texts set, .text x => set.contains x
      | _, _ => false
    else if filter.Operator = "in" then
      match v, filter.Value with
      | .text x, .texts set => set.contains x
      | _, _ => false
    else if filter.Operator = "gt" then
      match v, filter.Value with
      | .number a, .number b => decide (a > b)
      | _, _ => false
    else if filter.Operator = "gte" then
      match v, filter.Value with
      | .number a, .number b => decide (a ≥ b)
      | _, _ => false
    else if filter.Operator = "lt" then
      match v, filter.Value with
      | .number a, .number b => decide (a < b)
      | _, _ => false
    else if filter.Operator = "lte" then
      match v, filter.Value with
      | .number a, .number b => decide (a ≤ b)
      | _, _ => false
    else false

/-- Modelled from the spec: `Match(event, filters)`, which the source does not define (it
declares the struct `Filter` only): "a webhook matches an event only if every filter in its
list evaluates true against the event's fields"; "empty filter list matches every event". -/
def Match (event : Event FilterValue) (filters : List (Filter FilterValue)) : Bool :=
  filters.all (evalFilter event)

end Events

/-! # Backup codes (`goat/src/main/internal/mfa/mfa.go`) -/

namespace Mfa

/-! ## Standard library: `encoding/base32`, `crypto/rand` -/

/-- The alphabet of `base32.StdEncoding` (RFC 4648). -/
def encodeStd : List Char :=
  "ABCDEFGHIJKLMNOPQRSTUVWXYZ234567".data

/-- The padding character of `base32.StdEncoding`. -/
def StdPadding : Char := '='

/-- The 40 bits of a quantum of at most five bytes, the first byte highest; a byte the source
does not have counts as zero. -/
def quantumBits (src : List UInt8) : Nat :=
  (src.getD 0 0).toNat * 2 ^ 32 + (src.getD 1 0).toNat * 2 ^ 24 + (src.getD 2 0).toNat * 2 ^ 16 +
    (src.getD 3 0).toNat * 2 ^ 8 + (src.getD 4 0).toNat

/-- The eight characters of a quantum of one to five bytes: the groups of five bits, highest
first, each as its letter of the alphabet; the groups that hold no bit of the source are
replaced by the padding character, so that `ceil(8 * len / 5)` letters stand in front. -/
def encodeQuantum (src : List UInt8) : List Char :=
  let letters := (List.range 8).map fun i =>
    encodeStd.getD (quantumBits src / 2 ^ (35 - 5 * i) % 32) StdPadding
  let n := (src.length * 8 + 4) / 5
  letters.take n ++ List.replicate (8 - n) StdPadding

/-- The characters of `base32.StdEncoding.EncodeToString(src)`: quantum after quantum of five
bytes, then the rest of one to four bytes, if any, as a padded quantum. -/
def encodeChars : List UInt8 → List Char
  | [] => []
  | b0 :: b1 :: b2 :: b3 :: b4 :: rest =>
    encodeQuantum [b0, b1, b2, b3, b4] ++ encodeChars rest
  | src => encodeQuantum src

/-- The function `base32.StdEncoding.EncodeToString`. -/
def EncodeToString (src : List UInt8) : String :=
  String.mk (encodeChars src)

/-- The source of `crypto/rand`: either it is broken and `rand.Read` returns its error, or
`rand.Read` fills the whole slice with the bytes of a stream. -/
structure RandSource where
  err : Option Events.GoError
  bytes : Nat → UInt8

/-- The function `rand.Read` on a slice of the given length: the error, or the new content of
the slice. -/
def randRead (rand : RandSource) (len : Nat) : Except Events.GoError (List UInt8) :=
  match rand.err with
  | some err => .error err
  | none => .ok ((List.range len).map rand.bytes)

/-! ## Backup codes -/

/-- How a call ends: it returns, or it panics at run time. -/
inductive Run (α : Type) where
  | returned (a : α)
  | panicked (msg : String)

/-- The struct `BackupCodeGenerator`. -/
structure BackupCodeGenerator where
  length : Int

/-- The function `NewBackupCodeGenerator`. -/
def NewBackupCodeGenerator (length : Int) : BackupCodeGenerator :=
  let length := if length < 8 then 8 else length
  { length := length }

/-- The method `BackupCodeGenerator.Generate`. `make` panics on a negative length and the
slice expression `s[:g.length]` panics when `g.length` exceeds the length of `s`. -/
def BackupCodeGenerator.Generate (g : BackupCodeGenerator) (rand : RandSource) :
    Run (String × Option Events.GoError) :=
  if g.length < 0 then .panicked "makeslice: len out of range"
  else
    match randRead rand g.length.toNat with
    | .error err => .returned ("", some err)
    | .ok bytes =>
      let s := EncodeToString bytes
      if g.length.toNat ≤ s.length then
        .returned (String.mk (s.data.take g.length.toNat), none)
      else .panicked "slice bounds out of range"

/-- A letter `A`-`Z` or a digit `2`-`7`. -/
def isBase32Letter (c : Char) : Bool :=
  (decide ('A' ≤ c) && decide (c ≤ 'Z')) || (decide ('2' ≤ c) && decide (c ≤ '7'))

/-- A source of randomness that yields the bytes 0, 37, 74, ... -/
def sampleRand : RandSource :=
  { err := none, bytes := fun i => UInt8.ofNat (37 * i) }

/-- A source of randomness that fails. -/
def brokenRand : RandSource :=
  { err := some "unexpected EOF", bytes := fun _ => 0 }

end Mfa

/-! # Rate limiting (`goat/internal/ratelimit/ratelimit.go`) -/

namespace Ratelimit

open Events (GoMap GoError)

/-! ## Standard library: `strings`, `net` -/

/-- The pieces of `strings.Split(s, ",")`, on the characters of `s`: the texts between the
commas, in order; there is always at least one piece. -/
def splitComma : List Char → List (List Char)
  | [] => [[]]
  | c :: rest =>
    if c = ',' then [] :: splitComma rest
    else
      match splitComma rest with
      | first :: pieces => (c :: first) :: pieces
      | [] => [[c]]

/-- The function `unicode.IsSpace`: the white space of Unicode. -/
def IsSpace (c : Char) : Bool :=
  c = '\t' || c = '\n' || c.toNat = 0x0B || c.toNat = 0x0C || c = '\r' || c = ' ' ||
  c.toNat = 0x85 || c.toNat = 0xA0 || c.toNat = 0x1680 ||
  (decide (0x2000 ≤ c.toNat) && decide (c.toNat ≤ 0x200A)) ||
  c.toNat = 0x2028 || c.toNat = 0x2029 || c.toNat = 0x202F || c.toNat = 0x205F ||
  c.toNat = 0x3000

/-- The function `strings.TrimSpace`, on the characters of the string: the white space in front
and at the end is removed. -/
def trimSpaceChars (s : List Char) : List Char :=
  ((s.dropWhile IsSpace).reverse.dropWhile IsSpace).reverse

/-- The function `strings.TrimSpace`. -/
def TrimSpace (s : String) : String :=
  String.mk (trimSpaceChars s.data)

/-- The functions of package `net` the whitelist calls, for a type `IP` of parsed addresses and
a type `IPNet` of parsed networks: `net.ParseIP` (`none` is the nil address), `net.ParseCIDR`
(the network or the error), and `(*IPNet).Contains`. -/
structure NetLib (IP IPNet : Type) where
  ParseIP : String → Option IP
  ParseCIDR : String → Except GoError IPNet
  Contains : IPNet → IP → Bool

/-! ## The client address and the whitelist -/

/-- The read `headers[key]` of a `map[string]string`: the empty string for a missing key. -/
def header (headers : GoMap String String) (key : String) : String :=
  (headers.get? key).getD ""

/-- The function `ExtractIP`. -/
def ExtractIP (headers : GoMap String String) : String :=
  let xff := header headers "X-Forwarded-For"
  let fromForwarded : Option String :=
    if xff ≠ "" then
      -- Take the first IP in the chain
      match splitComma xff.data with
      | first :: _ => some (TrimSpace (String.mk first))
      | [] => none
    else none
  match fromForwarded with
  | some ip => ip
  | none =>
    let xri := header headers "X-Real-IP"
    if xri ≠ "" then xri
    else
      let cfIP := header headers "CF-Connecting-IP"
      if cfIP ≠ "" then cfIP
      else header headers "Remote-Addr"

/-- The struct `IPWhitelist`, without its mutex. -/
structure IPWhitelist (IPNet : Type) where
  ranges : List IPNet
  ips : GoMap String Bool

/-- The function `NewIPWhitelist`. -/
def NewIPWhitelist (IPNet : Type) : IPWhitelist IPNet :=
  { ranges := [], ips := [] }

/-- The method `IPWhitelist.AddIP`: the returned error and the whitelist afterwards. -/
def IPWhitelist.AddIP {IP IPNet : Type} (lib : NetLib IP IPNet) (w : IPWhitelist IPNet)
    (ip : String) : Option GoError × IPWhitelist IPNet :=
  match lib.ParseIP ip with
  | none => (some ("invalid IP address: " ++ ip), w)
  | some _ => (none, { w with ips := w.ips.set ip true })

/-- The method `IPWhitelist.AddCIDR`: the returned error and the whitelist afterwards. -/
def IPWhitelist.AddCIDR {IP IPNet : Type} (lib : NetLib IP IPNet) (w : IPWhitelist IPNet)
    (cidr : String) : Option GoError × IPWhitelist IPNet :=
  match lib.ParseCIDR cidr with
  | .error err => (some ("invalid CIDR: " ++ err), w)
  | .ok ipNet => (none, { w with ranges := w.ranges ++ [ipNet] })

/-- The method `IPWhitelist.IsWhitelisted`. -/
def IPWhitelist.IsWhitelisted {IP IPNet : Type} (lib : NetLib IP IPNet) (w : IPWhitelist IPNet)
    (ip : String) : Bool :=
  -- Check exact IP match
  if (w.ips.get? ip).getD false then true
  else
    -- Check CIDR ranges
    match lib.ParseIP ip with
    | none => false
    | some parsedIP => w.ranges.any fun ipNet => lib.Contains ipNet parsedIP

/-- The text of a string in front of its first comma (the whole string when it has none). -/
def firstEntry (s : String) : String :=
  String.mk (s.data.takeWhile fun c => c ≠ ',')

/-- A text is another one with its surrounding white space removed: it stands in the other
between two runs of white space, and neither begins nor ends with white space. -/
def IsTrimOf (t s : String) : Prop :=
  (∃ front back : List Char, s.data = front ++ t.data ++ back ∧
    (∀ c ∈ front, IsSpace c = true) ∧ (∀ c ∈ back, IsSpace c = true)) ∧
  (∀ c, t.data.head? = some c → IsSpace c = false) ∧
  (∀ c, t.data.getLast? = some c → IsSpace c = false)

/-- Headers of a request that came through two proxies. -/
def proxiedHeaders : GoMap String String :=
  [("X-Real-IP", "10.0.0.1"), ("X-Forwarded-For", " 203.0.113.7 , 10.0.0.2"),
   ("Remote-Addr", "10.0.0.3")]

/-- A library of package `net` cut down to the strings of the examples: it parses the
addresses `10.0.0.1` and `192.168.1.7` and the network `192.168.1.0/24`, which contains the
second address, and nothing else. -/
def sampleNet : NetLib String String :=
  { ParseIP := fun s => if s = "10.0.0.1" ∨ s = "192.168.1.7" then some s else none,
    ParseCIDR := fun s =>
      if s = "192.168.1.0/24" then .ok s else .error ("invalid CIDR address: " ++ s),
    Contains := fun ipNet ip => decide (ipNet = "192.168.1.0/24" ∧ ip = "192.168.1.7") }

/-! ## Machine arithmetic: `int64` and `float64` -/

/-- The value of an `int64` computation whose exact result is `x`: it wraps modulo `2^64`. -/
def wrap64 (x : Int) : Int :=
  (x + 2 ^ 63) % 2 ^ 64 - 2 ^ 63

/-- The loop of `shift53`. -/
def shiftLoop : Nat → Nat → Nat
  | 0, _ => 0
  | fuel + 1, n => if n < 2 ^ 53 then 0 else shiftLoop fuel (n / 2) + 1

/-- The number of low bits a natural number has beyond 53 significant bits: the least `s` with
`n / 2 ^ s < 2 ^ 53`. -/
def shift53 (n : Nat) : Nat :=
  shiftLoop n n

/-- A natural number rounded to 53 significant bits, the width of the significand of a
`float64`: to the nearest such number, and of two nearest ones to that with an even
significand. -/
def round53 (n : Nat) : Nat :=
  let s := shift53 n
  let m := n / 2 ^ s
  let r := n % 2 ^ s
  if 2 * r < 2 ^ s ∨ (2 * r = 2 ^ s ∧ m % 2 = 0) then m * 2 ^ s else (m + 1) * 2 ^ s

/-- A finite `float64`: the number `mant * 2 ^ exp`, negated when `neg` is set. The values
that occur here are quotients and products of a few `int64` values, far from the range in
which a `float64` overflows or loses significant bits. -/
structure Float64 where
  neg : Bool
  mant : Nat
  exp : Int
deriving DecidableEq, Repr

namespace Float64

/-- The conversion `float64(x)` of an `int64`: the nearest `float64`. -/
def ofInt64 (x : Int) : Float64 :=
  { neg := decide (x < 0), mant := round53 x.natAbs, exp := 0 }

/-- The product `a * b` of two `float64`: the exact product, rounded. -/
def mul (a b : Float64) : Float64 :=
  { neg := xor a.neg b.neg, mant := round53 (a.mant * b.mant), exp := a.exp + b.exp }

/-- The quotient `a / b` of two `float64`, for `b` other than zero: the exact quotient, rounded.
The quotient of the significands is taken with 64 bits more than the divisor has, and one
more bit records whether a remainder is left, so that the rounding sees on which side of a
tie the exact quotient lies. -/
def div (a b : Float64) : Float64 :=
  let k := 64 + shift53 b.mant + 53
  let q := a.mant * 2 ^ k / b.mant
  let sticky := if a.mant * 2 ^ k % b.mant = 0 then 0 else 1
  { neg := xor a.neg b.neg, mant := round53 (2 * q + sticky), exp := a.exp - b.exp - k - 1 }

/-- The significand of a `float64` at the exponent `e`, with its sign; `e` is at most the
exponent of the number. -/
def scaled (a : Float64) (e : Int) : Int :=
  (if a.neg then -1 else 1) * (a.mant : Int) * 2 ^ (a.exp - e).toNat

/-- The number a `float64` stands for. -/
def value (a : Float64) : Rat :=
  (if a.neg then -1 else 1) * (a.mant : Rat) * 2 ^ a.exp

/-- The comparison `a < b` of two `float64`. -/
def lt (a b : Float64) : Bool :=
  decide (a.scaled (min a.exp b.exp) < b.scaled (min a.exp b.exp))

/-- The conversion `int64(a)` of a `float64`: the fraction is discarded (truncation towards
zero). When the result is not an `int64` the value is implementation-dependent in Go:
`overflow` gives it. -/
def toInt64 (overflow : Float64 → Int) (a : Float64) : Int :=
  let magnitude : Nat :=
    if 0 ≤ a.exp then a.mant * 2 ^ a.exp.toNat else a.mant / 2 ^ (-a.exp).toNat
  let value : Int := if a.neg then -(magnitude : Int) else magnitude
  if -2 ^ 63 ≤ value ∧ value < 2 ^ 63 then value else overflow a

/-- The `float64` of a decimal constant `num / den` of the source: the nearest `float64`. -/
def ofRatio (num den : Nat) : Float64 :=
  div (ofInt64 num) (ofInt64 den)

end Float64

/-- The out-of-range conversions of `amd64`: every one gives the least `int64`. -/
def amd64 : Float64 → Int :=
  fun _ => -2 ^ 63

/-! ## The adaptive limiter -/

/-- The constant `time.Millisecond`, in nanoseconds. -/
def Millisecond : Int := 1000000

/-- The constant `time.Second`. -/
def Second : Int := 1000 * Millisecond

/-- The constant `time.Minute`. -/
def Minute : Int := 60 * Second

/-- The struct `Metrics`, without its mutex; the response time is in nanoseconds. -/
structure Metrics where
  TotalRequests : Int := 0
  AllowedRequests : Int := 0
  BlockedRequests : Int := 0
  Errors : Int := 0
  TotalResponseTime : Int := 0
deriving DecidableEq, Repr

/-- The method `Metrics.GetErrorRate`. -/
def Metrics.GetErrorRate (m : Metrics) : Float64 :=
  if m.TotalRequests = 0 then Float64.ofInt64 0
  else Float64.div (Float64.ofInt64 m.Errors) (Float64.ofInt64 m.TotalRequests)

/-- The method `Metrics.GetAverageResponseTime`; the division of `int64` truncates. -/
def Metrics.GetAverageResponseTime (m : Metrics) : Int :=
  if m.AllowedRequests = 0 then 0
  else wrap64 (Int.tdiv m.TotalResponseTime m.AllowedRequests)

/-- The struct `AdaptiveLimiter`, without its mutex. Times are nanoseconds on the clock of
`time.Now`. -/
structure AdaptiveLimiter where
  baseLimit : Int
  currentLimit : Int
  window : Int
  metrics : Metrics
  lastAdjusted : Int
deriving DecidableEq, Repr

/-- The function `NewAdaptiveLimiter`, called when the clock shows `now`. -/
def NewAdaptiveLimiter (baseLimit window now : Int) : AdaptiveLimiter :=
  { baseLimit := baseLimit, currentLimit := baseLimit, window := window, metrics := {},
    lastAdjusted := now }

/-- The method `AdaptiveLimiter.AdjustLimit`, called when the clock shows `now` (the method
does not use its context). -/
def AdaptiveLimiter.AdjustLimit (overflow : Float64 → Int) (a : AdaptiveLimiter) (now : Int) :
    AdaptiveLimiter :=
  -- Only adjust once per minute
  if now - a.lastAdjusted < Minute then a
  else
    let errorRate := a.metrics.GetErrorRate
    let responseTime := a.metrics.GetAverageResponseTime
    let currentLimit :=
      if Float64.lt (Float64.ofRatio 5 100) errorRate ∨ responseTime > 1 * Second then
        -- Decrease limit
        let limit := Float64.toInt64 overflow
          (Float64.mul (Float64.ofInt64 a.currentLimit) (Float64.ofRatio 9 10))
        if limit < Int.tdiv a.baseLimit 2 then Int.tdiv a.baseLimit 2 else limit
      else if Float64.lt errorRate (Float64.ofRatio 1 100) ∧ responseTime < 200 * Millisecond then
        -- Increase limit
        let limit := Float64.toInt64 overflow
          (Float64.mul (Float64.ofInt64 a.currentLimit) (Float64.ofRatio 11 10))
        if limit > wrap64 (a.baseLimit * 2) then wrap64 (a.baseLimit * 2) else limit
      else a.currentLimit
    { a with currentLimit := currentLimit, lastAdjusted := now }

/-- The method `AdaptiveLimiter.GetCurrentLimit`. -/
def AdaptiveLimiter.GetCurrentLimit (a : AdaptiveLimiter) : Int :=
  a.currentLimit

/-- A sequence of calls of `AdjustLimit`: each call is made with the metrics as they are then
(other methods update them between the calls) and at its time. -/
def adjustAll (overflow : Float64 → Int) (a : AdaptiveLimiter) :
    List (Metrics × Int) → AdaptiveLimiter
  | [] => a
  | (metrics, now) :: calls =>
    adjustAll overflow (AdaptiveLimiter.AdjustLimit overflow { a with metrics := metrics } now)
      calls

/-- Metrics of a service under light load: 1000 requests without an error, 50 ms each. -/
def calmMetrics : Metrics :=
  { TotalRequests := 1000, AllowedRequests := 1000, Errors := 0,
    TotalResponseTime := 50000 * Millisecond }

/-- Metrics of a service in trouble: 1000 requests, 100 of them failed. -/
def troubledMetrics : Metrics :=
  { TotalRequests := 1000, AllowedRequests := 1000, Errors := 100,
    TotalResponseTime := 50000 * Millisecond }

/-- Calls of `AdjustLimit` under light load, one per minute: the first `n` minutes. -/
def calmMinutes (n : Nat) : List (Metrics × Int) :=
  (List.range n).map fun i => (calmMetrics, ((i : Int) + 1) * Minute)

/-- A limiter with the base limit 5 under light load, as `NewAdaptiveLimiter` made it at the
time 0. -/
def smallLimiter : AdaptiveLimiter :=
  { NewAdaptiveLimiter 5 Minute 0 with metrics := calmMetrics }

/-- A limiter with the base limit -10 in trouble, as `NewAdaptiveLimiter` made it at the
time 0. -/
def negativeLimiter : AdaptiveLimiter :=
  { NewAdaptiveLimiter (-10) Minute 0 with metrics := troubledMetrics }

/-- A limiter with the base limit 100 and the given metrics, as `NewAdaptiveLimiter` made it at
the time 0. -/
def sampleLimiter (metrics : Metrics) : AdaptiveLimiter :=
  { NewAdaptiveLimiter 100 Minute 0 with metrics := metrics }

end Ratelimit

/-! # Events: concrete inputs and theorems -/

namespace Events

/-! ## Concrete inputs -/

/-- An event with the given id and type, every other field at its zero value. -/
def eventOf (id : String) (type : EventType) : Event Unit :=
  { ID := id, Type_ := type, Priority := "", Timestamp := 0, UserID := "", SessionID := "",
    IP := "", UserAgent := "", Resource := "", Action := "", Result := "", Data := [],
    Metadata := [] }

/-- A handler that writes its name to the world (a log of names) and returns `nil`. -/
def okHandler (name : String) : EventHandler Unit (List String) :=
  fun _ _ w => (none, w ++ [name])

/-- A handler that writes its name to the world (a log of names) and returns an error. -/
def failingHandler (name : String) (msg : GoError) : EventHandler Unit (List String) :=
  fun _ _ w => (some msg, w ++ [name])

/-- A router with three handlers for `user.login` (the first and the last fail) and one for
`user.logout`, registered in the order `a`, `b`, `c`, `d`. -/
def sampleRouter : EventRouter Unit (List String) :=
  ((((NewEventRouter Unit (List String)).Register "user.login" (failingHandler "a" "boom")).Register
    "user.logout" (okHandler "b")).Register "user.login" (okHandler "c")).Register
    "user.login" (failingHandler "d" "bang")

/-- A webhook with the given id, URL, secret and custom headers, the other fields zero. -/
def webhookOf (id url secret : String) (headers : GoMap String String) : Webhook Unit :=
  { ID := id, Name := "", URL := url, Events := [], Headers := headers, Secret := secret,
    Active := true, RetryConfig := none, Filters := [], CreatedAt := 0, UpdatedAt := 0,
    LastTriggered := none, FailureCount := 0 }

/-- A first-attempt task without callback for a webhook and an event. -/
def taskOf (webhook : Webhook Unit) (event : Event Unit) : DeliveryTask Unit :=
  { Webhook := webhook, Event := event, Attempt := 1, Callback := none }

/-- A runtime in which marshalling succeeds with a JSON text of the id and the type of the
event, every URL parses, and the clock shows 1000. -/
def sampleRuntime : Runtime Unit :=
  { jsonMarshal := fun e =>
      .ok (stringBytes ("\x7b\"id\":\"" ++ e.ID ++ "\",\"type\":\"" ++ e.Type_ ++ "\"\x7d")),
    newRequestError := fun _ => none,
    now := 1000 }

/-- A deliverer whose HTTP client answers every request with the given status and the
body `ok`. -/
def delivererAnswering (status : Int) : DefaultWebhookDeliverer Unit Unit :=
  NewDefaultWebhookDeliverer (fun _ net => (.ok { StatusCode := status, Body := stringBytes "ok" }, net)) 1

/-- A task for a webhook with the secret `s1`, a custom header, and a custom header that
names the signature header. -/
def signedTask : DeliveryTask Unit :=
  taskOf (webhookOf "w1" "https://example.test/hook" "s1"
    [("X-Custom-Header", "custom-value"), ("X-Webhook-Signature", "mine")]) (eventOf "e1" "user.login")

/-- A task for a webhook with an empty secret and one custom header. -/
def unsignedTask : DeliveryTask Unit :=
  taskOf (webhookOf "w2" "https://example.test/hook" "" [("X-Custom-Header", "custom-value")])
    (eventOf "e1" "user.login")

/-- A task for a webhook with an empty secret whose custom headers name the signature header. -/
def forgedTask : DeliveryTask Unit :=
  taskOf (webhookOf "w3" "https://example.test/hook" "" [("x-webhook-signature", "forged")])
    (eventOf "e1" "user.login")

/-- A task for a webhook whose custom headers name the content type and the webhook id. -/
def overridingTask : DeliveryTask Unit :=
  taskOf (webhookOf "w4" "https://example.test/hook" ""
    [("content-type", "text/plain"), ("X-Webhook-Id", "other")]) (eventOf "e1" "user.login")

/-- A task for a webhook with the secret `s1`, two custom headers whose keys differ only in
case, and a custom header that names the signature header. -/
def collidingTask : DeliveryTask Unit :=
  taskOf (webhookOf "w5" "https://example.test/hook" "s1"
    [("x-a", "1"), ("X-A", "2"), ("X-Webhook-Signature", "mine")]) (eventOf "e1" "user.login")

/-- The JSON text the sample runtime produces for the event `e1` of type `user.login`. -/
def samplePayload : List UInt8 :=
  stringBytes "\x7b\"id\":\"e1\",\"type\":\"user.login\"\x7d"

/-- A runtime in which marshalling fails. -/
def failingRuntime : Runtime Unit :=
  { jsonMarshal := fun _ => .error "json: unsupported type: chan int",
    newRequestError := fun _ => none,
    now := 1000 }

/-- A deliverer whose HTTP client fails every request at the network level; the state of the
network counts the requests. -/
def delivererUnreachable : DefaultWebhookDeliverer Unit Nat :=
  NewDefaultWebhookDeliverer
    (fun _ hits => (.error "Post \"https://example.test/hook\": connection refused", hits + 1)) 1

/-- A deliverer whose HTTP client answers 500 to the first request and 200 to every later one,
as in the retry test; the state of the network counts the requests. -/
def delivererFlaky : DefaultWebhookDeliverer Unit Nat :=
  NewDefaultWebhookDeliverer
    (fun _ hits =>
      (.ok { StatusCode := if hits = 0 then 500 else 200,
             Body := stringBytes (if hits = 0 then "fail" else "ok") }, hits + 1)) 0

/-- The identifier of the attempt number `n`: `n + 1` times the letter `d`. -/
def sampleID (n : Nat) : String :=
  String.mk (List.replicate (n + 1) 'd')

/-- A deliverer that answers 200, with three queued tasks: one with the callback channel 7, one
without callback, one with the callback channel 9. -/
def delivererWithQueue : DefaultWebhookDeliverer Unit Unit :=
  { delivererAnswering 200 with
    queue := [{ unsignedTask with Callback := some 7 }, unsignedTask,
              { forgedTask with Callback := some 9 }] }

/-- The retry test, first step: `Deliver` on an empty history, the endpoint answers 500. -/
def firstAttempt : EntryResult Unit Nat :=
  Deliver delivererFlaky sampleRuntime ⟨false⟩ sampleID (some unsignedTask.Webhook)
    (some unsignedTask.Event) [] 0

/-- The record of the first attempt of the retry test. -/
def firstRecord : AttemptRecord Unit :=
  { delivery := firstAttempt.delivery.getD {}, webhook := unsignedTask.Webhook,
    event := unsignedTask.Event }

/-- A deliverer whose client answers 200 and counts the requests, with three queued tasks: one
with the callback channel 7, one without callback, one with the callback channel 9. -/
def delivererCounting : DefaultWebhookDeliverer Unit Nat :=
  { client := fun _ hits => (.ok { StatusCode := 200, Body := stringBytes "ok" }, hits + 1),
    maxRetries := 3, retryDelay := 1000000000,
    queue := [{ unsignedTask with Callback := some 7 }, unsignedTask,
              { forgedTask with Callback := some 9 }],
    workers := 1 }

/-- A context that is cancelled when the worker has received the task at position 1. -/
def cancelledAfterFirst (i : Nat) : Context :=
  { cancelled := decide (1 ≤ i) }

/-- A runtime in which marshalling succeeds and no URL parses. -/
def badURLRuntime : Runtime Unit :=
  { jsonMarshal := sampleRuntime.jsonMarshal,
    newRequestError := fun url => some ("parse \"" ++ url ++ "\": missing protocol scheme"),
    now := 1000 }

/-- A first-attempt task for a webhook whose URL has no scheme. -/
def badURLTask : DeliveryTask Unit :=
  taskOf (webhookOf "w6" "://example.test/hook" "" []) (eventOf "e1" "user.login")

/-- A retry configuration with the initial delay 1 s, the largest delay 60 s and the
multiplier 2. -/
def sampleRetryConfig : RetryConfig :=
  { MaxRetries := 3, InitialDelay := 1000000000, MaxDelay := 60000000000, Multiplier := 2,
    Timeout := 30000000000 }

/-- An event of type `user.login` with the given result. -/
def loginEvent (result : String) : Event FilterValue :=
  { ID := "e1", Type_ := "user.login", Priority := "normal", Timestamp := 0, UserID := "u1",
    SessionID := "", IP := "", UserAgent := "", Resource := "", Action := "login",
    Result := result, Data := [("country", .text "NZ")], Metadata := [] }

/-- The filter of scenario D: the field `result` equals `failure`. -/
def failureFilter : Filter FilterValue :=
  { Field := "result", Operator := "equals", Value := .text "failure" }

/-! ## Theorems: the router -/

section RouterLemmas

variable {δ σ : Type}

theorem GoMap.get?_set_self {κ ν : Type} [DecidableEq κ] (m : GoMap κ ν) (k : κ) (v : ν) :
    GoMap.get? (GoMap.set m k v) k = some v := by
  induction m with
  | nil => simp [GoMap.set, GoMap.get?]
  | cons p rest ih =>
    obtain ⟨k', v'⟩ := p
    by_cases hk : k' = k
    · simp [GoMap.set, GoMap.get?, hk]
    · simp [GoMap.set, GoMap.get?, hk, ih]

theorem GoMap.get?_set_of_ne {κ ν : Type} [DecidableEq κ] (m : GoMap κ ν) (k k' : κ) (v : ν)
    (h : k' ≠ k) : GoMap.get? (GoMap.set m k v) k' = GoMap.get? m k' := by
  induction m with
  | nil => simp [GoMap.set, GoMap.get?, Ne.symm h]
  | cons p rest ih =>
    obtain ⟨k₀, v₀⟩ := p
    by_cases hk : k₀ = k
    · subst hk
      simp [GoMap.set, GoMap.get?, Ne.symm h]
    · by_cases hk' : k₀ = k'
      · subst hk'
        simp [GoMap.set, GoMap.get?, hk]
      · simp [GoMap.set, GoMap.get?, hk, hk', ih]

theorem routeLoop_invoked (ctx : Context) (event : Event δ) (handlers : List (EventHandler δ σ))
    (st : RouteLoop δ σ) :
    (routeLoop ctx event st handlers).invoked = st.invoked ++ handlers := by
  induction handlers generalizing st with
  | nil => simp [routeLoop]
  | cons h rest ih =>
    have hstep : (routeStep ctx event st h).invoked = st.invoked ++ [h] := by
      unfold routeStep
      split <;> rfl
    have := ih (routeStep ctx event st h)
    simp only [routeLoop, List.foldl_cons] at this ⊢
    rw [this, hstep]
    simp

theorem routeStep_world (ctx : Context) (event : Event δ) (st : RouteLoop δ σ)
    (h : EventHandler δ σ) : (routeStep ctx event st h).world = (h ctx event st.world).2 := by
  unfold routeStep
  split <;> rename_i heq <;> simp [heq]

theorem routeStep_errs (ctx : Context) (event : Event δ) (st : RouteLoop δ σ)
    (h : EventHandler δ σ) :
    (routeStep ctx event st h).errs = st.errs ++ [(h ctx event st.world).1].reduceOption := by
  unfold routeStep
  split <;> rename_i heq <;> simp [heq, List.reduceOption_cons_of_some, List.reduceOption_cons_of_none]

theorem routeLoop_world (ctx : Context) (event : Event δ) (handlers : List (EventHandler δ σ))
    (st : RouteLoop δ σ) :
    (routeLoop ctx event st handlers).world = worldAfter ctx event st.world handlers := by
  induction handlers generalizing st with
  | nil => simp [routeLoop, worldAfter]
  | cons h rest ih =>
    have := ih (routeStep ctx event st h)
    simp only [routeLoop, List.foldl_cons] at this ⊢
    rw [this, routeStep_world]
    simp [worldAfter]

theorem routeLoop_errs (ctx : Context) (event : Event δ) (handlers : List (EventHandler δ σ))
    (st : RouteLoop δ σ) :
    (routeLoop ctx event st handlers).errs
      = st.errs ++ (handlerResults ctx event st.world handlers).reduceOption := by
  induction handlers generalizing st with
  | nil => simp [routeLoop, handlerResults]
  | cons h rest ih =>
    have := ih (routeStep ctx event st h)
    simp only [routeLoop, List.foldl_cons] at this ⊢
    rw [this, routeStep_world, routeStep_errs]
    cases hres : (h ctx event st.world).1 <;>
      simp [handlerResults, hres, List.reduceOption_cons_of_some, List.reduceOption_cons_of_none]

theorem handlerResults_length (ctx : Context) (event : Event δ) (handlers : List (EventHandler δ σ))
    (w : σ) : (handlerResults ctx event w handlers).length = handlers.length := by
  induction handlers generalizing w with
  | nil => rfl
  | cons h rest ih => simp [handlerResults, ih]

theorem reduceOption_eq_nil_iff {α : Type} (l : List (Option α)) :
    l.reduceOption = [] ↔ ∀ x ∈ l, x = none := by
  induction l with
  | nil => simp
  | cons a rest ih =>
    cases a with
    | none => simp [List.reduceOption_cons_of_none, ih]
    | some v => simp [List.reduceOption_cons_of_some]

end RouterLemmas

/-- C1: for every router state and event, `Route` calls the handlers registered for
`event.Type`, each once and in registration order (the log of calls is that handler list),
every handler runs in the world its predecessor left, whatever the earlier handlers returned;
a handler that is not registered for `event.Type` is not called. -/
theorem Route_invokes_registered_handlers (r : EventRouter δ σ) (ctx : Context)
    (event : Event δ) (w : σ) :
    (r.Route ctx event w).invoked = r.handlersFor event.Type_ ∧
    (r.Route ctx event w).world = worldAfter ctx event w (r.handlersFor event.Type_) ∧
    ∀ h, h ∉ r.handlersFor event.Type_ → h ∉ (r.Route ctx event w).invoked := by
  have hinv : (r.Route ctx event w).invoked = r.handlersFor event.Type_ := by
    simp only [EventRouter.Route]
    split <;> simp [routeLoop_invoked]
  refine ⟨hinv, ?_, ?_⟩
  · simp only [EventRouter.Route]
    split <;> simp [routeLoop_world]
  · intro h hh
    rw [hinv]
    exact hh

/-- C1 at a concrete router: for a `user.login` event the handlers `a`, `c`, `d` run in this
order although `a` fails, and the `user.logout` handler `b` does not run. -/
theorem Route_invokes_registered_handlers_witness :
    (sampleRouter.Route ⟨false⟩ (eventOf "e1" "user.login") []).world = ["a", "c", "d"] := by
  rw [(Route_invokes_registered_handlers sampleRouter ⟨false⟩ (eventOf "e1" "user.login") []).2.1]
  decide

/-- C2: `Route` returns `nil` exactly when every handler it called returned `nil`; when some
handler returned an error it returns one error whose text is `handler errors: ` followed by
the bracketed list of exactly the errors the handlers returned, in call order. -/
theorem Route_aggregates_errors (r : EventRouter δ σ) (ctx : Context) (event : Event δ) (w : σ) :
    ((r.Route ctx event w).err = none ↔
      ∀ x ∈ handlerResults ctx event w (r.handlersFor event.Type_), x = none) ∧
    ((∃ x ∈ handlerResults ctx event w (r.handlersFor event.Type_), x ≠ none) →
      (r.Route ctx event w).err = some ("handler errors: " ++ formatErrs
        (handlerResults ctx event w (r.handlersFor event.Type_)).reduceOption)) := by
  have herrs := routeLoop_errs ctx event (r.handlersFor event.Type_)
    { errs := [], world := w, invoked := [] }
  simp only [List.nil_append] at herrs
  have hnil := reduceOption_eq_nil_iff (handlerResults ctx event w (r.handlersFor event.Type_))
  constructor
  · simp only [EventRouter.Route]
    split
    · rename_i hpos
      rw [herrs] at hpos
      constructor
      · intro hcontra
        cases hcontra
      · intro hall
        rw [hnil.mpr hall] at hpos
        simp at hpos
    · rename_i hneg
      rw [herrs] at hneg
      have hlen : (handlerResults ctx event w (r.handlersFor event.Type_)).reduceOption = [] := by
        cases hl : (handlerResults ctx event w (r.handlersFor event.Type_)).reduceOption with
        | nil => rfl
        | cons a t => rw [hl] at hneg; simp at hneg
      simp only [true_iff]
      exact hnil.mp hlen
  · rintro ⟨x, hx, hxne⟩
    have hne : (handlerResults ctx event w (r.handlersFor event.Type_)).reduceOption ≠ [] := by
      intro hempty
      exact hxne (hnil.mp hempty x hx)
    simp only [EventRouter.Route]
    split
    · simp [herrs]
    · rename_i hneg
      rw [herrs] at hneg
      exact absurd (List.length_pos.mpr hne) hneg

/-- C2 at a concrete router: the errors of `a` and `d` are both reported, in call order. -/
theorem Route_aggregates_errors_witness :
    (sampleRouter.Route ⟨false⟩ (eventOf "e1" "user.login") []).err
      = some "handler errors: [boom bang]" := by
  rw [(Route_aggregates_errors sampleRouter ⟨false⟩ (eventOf "e1" "user.login") []).2
    ⟨some "boom", by decide, by decide⟩]
  decide

/-- C3: after `Register(t, h)` the handler list of `t` is the former list with `h` appended,
and the handler list of every other event type is what it was. -/
theorem Register_appends_handler (r : EventRouter δ σ) (t : EventType) (h : EventHandler δ σ) :
    (r.Register t h).handlersFor t = r.handlersFor t ++ [h] ∧
    ∀ t', t' ≠ t → (r.Register t h).handlersFor t' = r.handlersFor t' := by
  constructor
  · simp [EventRouter.Register, EventRouter.handlersFor, GoMap.get?_set_self]
  · intro t' ht'
    simp [EventRouter.Register, EventRouter.handlersFor, GoMap.get?_set_of_ne _ _ _ _ ht']

/-- C3 at a concrete router: registering a fourth `user.login` handler leaves the list of
`user.logout` at its single handler. -/
theorem Register_appends_handler_witness :
    ((sampleRouter.Register "user.login" (okHandler "e")).handlersFor "user.logout").length = 1 := by
  rw [(Register_appends_handler sampleRouter "user.login" (okHandler "e")).2 "user.logout"
    (by decide)]
  decide


/-! ## Theorems: the signer -/

section SignerLemmas

theorem bigEndian_length (n k : Nat) : (bigEndian n k).length = k := by
  induction k with
  | zero => rfl
  | succ k ih => simp [bigEndian, ih]

theorem sha256Sum_length (msg : List UInt8) : (sha256Sum msg).length = 32 := by
  simp [sha256Sum, bigEndian_length]

theorem hmacSHA256_length (key message : List UInt8) : (hmacSHA256 key message).length = 32 := by
  simp [hmacSHA256, sha256Sum_length]

theorem hmacKeyBlock_eq_copyBytes (key : List UInt8) (h : key.length ≤ 64) :
    copyBytes (List.replicate 64 0) key = key ++ List.replicate (64 - key.length) 0 := by
  unfold copyBytes
  rw [List.length_replicate, List.take_of_length_le h, List.drop_replicate]

/-- The streaming interface of `crypto/hmac` (`New`, `Write`, `Sum(nil)`) computes HMAC-SHA256
as RFC 2104 defines it. -/
theorem hmac_New_Write_Sum (key payload : List UInt8) :
    ((hmacNew key).Write payload).Sum [] = hmacSHA256 key payload := by
  have hH : ∀ m, (sha256Sum m).length ≤ 64 := fun m => by rw [sha256Sum_length]; omega
  unfold hmacNew Hmac.Write Hmac.Sum hmacSHA256 hmacKeyBlock Sha256Digest.Sum Sha256Digest.Write
    sha256New sha256BlockSize
  generalize sha256Sum = H at hH ⊢
  by_cases hlen : key.length > 64
  · simp only [if_pos hlen]
    rw [List.length_nil, List.take_zero, List.drop_zero]
    repeat rw [List.nil_append]
    rw [hmacKeyBlock_eq_copyBytes _ (hH key)]
  · have hle : key.length ≤ 64 := Nat.le_of_not_gt hlen
    simp only [if_neg hlen]
    rw [List.length_nil, List.take_zero, List.drop_zero]
    repeat rw [List.nil_append]
    rw [hmacKeyBlock_eq_copyBytes _ hle]

set_option maxRecDepth 100000 in
theorem hextable_digits : ∀ n : Fin 256,
    hextable.getD ((UInt8.ofNat n.val) >>> 4).toNat '0' = Nat.digitChar (n.val / 16) ∧
    hextable.getD ((UInt8.ofNat n.val) &&& 0x0f).toNat '0' = Nat.digitChar (n.val % 16) := by
  decide

theorem UInt8_ofNat_toNat (v : UInt8) : UInt8.ofNat v.toNat = v := by
  cases v with
  | mk bv =>
    apply UInt8.eq_of_toBitVec_eq
    show BitVec.ofNat 8 bv.toNat = bv
    simp

theorem hextable_high (v : UInt8) :
    hextable.getD (v >>> 4).toNat '0' = Nat.digitChar (v.toNat / 16) := by
  have h := (hextable_digits ⟨v.toNat, v.toNat_lt⟩).1
  simpa [UInt8_ofNat_toNat] using h

theorem hextable_low (v : UInt8) :
    hextable.getD (v &&& 0x0f).toNat '0' = Nat.digitChar (v.toNat % 16) := by
  have h := (hextable_digits ⟨v.toNat, v.toNat_lt⟩).2
  simpa [UInt8_ofNat_toNat] using h

/-- The function `hex.EncodeToString` writes the lower-case hexadecimal text of its input. -/
theorem hexEncodeToString_eq_lowerHex (src : List UInt8) : hexEncodeToString src = lowerHex src := by
  simp only [hexEncodeToString, lowerHex, hextable_high, hextable_low]

theorem lowerHex_length (bytes : List UInt8) : (lowerHex bytes).length = 2 * bytes.length := by
  induction bytes with
  | nil => rfl
  | cons b rest ih =>
    simp only [lowerHex, String.length, List.flatMap_cons, List.length_append, List.length_cons,
      List.length_nil] at ih ⊢
    omega

set_option maxRecDepth 100000 in
theorem digitChar_mem_hextable : ∀ n : Fin 16, Nat.digitChar n.val ∈ "0123456789abcdef".data := by
  decide

theorem lowerHex_chars (bytes : List UInt8) :
    ∀ c ∈ (lowerHex bytes).data, c ∈ "0123456789abcdef".data := by
  intro c hc
  simp only [lowerHex, List.mem_flatMap, List.mem_cons, List.mem_singleton] at hc
  obtain ⟨b, _, hb⟩ := hc
  rcases hb with rfl | rfl | hfalse
  · have hlt : b.toNat / 16 < 16 := by have := b.toNat_lt; omega
    exact digitChar_mem_hextable ⟨b.toNat / 16, hlt⟩
  · exact digitChar_mem_hextable ⟨b.toNat % 16, Nat.mod_lt _ (by decide)⟩
  · simp at hfalse

end SignerLemmas

/-- C4: for every payload and secret, `generateSignature` returns the text `sha256=` followed
by the lower-case hexadecimal text of HMAC-SHA256 (RFC 2104) with the secret as key over the
payload; that text has 64 characters, all of them among `0123456789abcdef`. -/
theorem generateSignature_is_sha256_hex_hmac (payload : List UInt8) (secret : String) :
    generateSignature payload secret
      = "sha256=" ++ lowerHex (hmacSHA256 (stringBytes secret) payload) ∧
    (lowerHex (hmacSHA256 (stringBytes secret) payload)).length = 64 ∧
    ∀ c ∈ (lowerHex (hmacSHA256 (stringBytes secret) payload)).data,
      c ∈ "0123456789abcdef".data := by
  refine ⟨?_, ?_, lowerHex_chars _⟩
  · simp only [generateSignature, hmac_New_Write_Sum, hexEncodeToString_eq_lowerHex]
  · rw [lowerHex_length, hmacSHA256_length]

set_option maxRecDepth 1000000 in
/-- C4 at a published test vector of HMAC-SHA256: key `key`, message
`The quick brown fox jumps over the lazy dog`. -/
theorem generateSignature_test_vector :
    generateSignature (stringBytes "The quick brown fox jumps over the lazy dog") "key"
      = "sha256=f7bc83f430538424b13298e6aa6fb143ef4d59a14946175997479dbc2d1a3cd8" :=
  (generateSignature_is_sha256_hex_hmac _ _).1.trans (by decide)

/-- A signature verifies for the payload and secret it was made from. -/
theorem Verify_generateSignature (payload : List UInt8) (secret : String) :
    Verify payload secret (generateSignature payload secret) = true := by
  simp only [Verify, decide_eq_true_eq]

/-- A signature made from `payload` verifies for another payload exactly when the two payloads
have the same HMAC-SHA256 signature text under the secret. -/
theorem Verify_other_payload (payload other : List UInt8) (secret : String) :
    Verify other secret (generateSignature payload secret) = true ↔
      generateSignature other secret = generateSignature payload secret := by
  simp only [Verify, decide_eq_true_eq]

/-! ## Theorems: the delivery request -/

section DeliveryLemmas

variable {δ ν : Type}

theorem Header.get?_Set_self (h : Header) (key value : String) :
    GoMap.get? (Header.Set h key value) (CanonicalMIMEHeaderKey key) = some [value] :=
  GoMap.get?_set_self h _ _

theorem Header.get?_Set_of_ne (h : Header) (key value canon : String)
    (hne : CanonicalMIMEHeaderKey key ≠ canon) :
    GoMap.get? (Header.Set h key value) canon = GoMap.get? h canon :=
  GoMap.get?_set_of_ne h _ _ _ (Ne.symm hne)

/-- Custom headers none of whose keys has the canonical form `canon` leave that entry alone. -/
theorem setCustomHeaders_get?_of_ne (headers : GoMap String String) (h : Header) (canon : String)
    (hne : ∀ p ∈ headers, CanonicalMIMEHeaderKey p.1 ≠ canon) :
    GoMap.get? (setCustomHeaders h headers) canon = GoMap.get? h canon := by
  induction headers generalizing h with
  | nil => rfl
  | cons p rest ih =>
    have hp := hne p (List.mem_cons_self _ _)
    have hrest : ∀ q ∈ rest, CanonicalMIMEHeaderKey q.1 ≠ canon :=
      fun q hq => hne q (List.mem_cons_of_mem _ hq)
    show GoMap.get? (setCustomHeaders (Header.Set h p.1 p.2) rest) canon = _
    rw [ih _ hrest, Header.get?_Set_of_ne _ _ _ _ hp]

/-- An entry `[value]` survives custom headers that, under its canonical key, only carry
`value`. -/
theorem setCustomHeaders_get?_keep (headers : GoMap String String) (h : Header)
    (canon value : String) (hh : GoMap.get? h canon = some [value])
    (hsame : ∀ p ∈ headers, CanonicalMIMEHeaderKey p.1 = canon → p.2 = value) :
    GoMap.get? (setCustomHeaders h headers) canon = some [value] := by
  induction headers generalizing h with
  | nil => exact hh
  | cons p rest ih =>
    have hrest : ∀ q ∈ rest, CanonicalMIMEHeaderKey q.1 = canon → q.2 = value :=
      fun q hq => hsame q (List.mem_cons_of_mem _ hq)
    show GoMap.get? (setCustomHeaders (Header.Set h p.1 p.2) rest) canon = _
    apply ih _ _ hrest
    by_cases hp : CanonicalMIMEHeaderKey p.1 = canon
    · rw [← hp, Header.get?_Set_self, hsame p (List.mem_cons_self _ _) hp]
    · rw [Header.get?_Set_of_ne _ _ _ _ hp, hh]

/-- A custom header is stored with its value when every custom header with the same canonical
key carries that value. -/
theorem setCustomHeaders_get?_mem (headers : GoMap String String) (h : Header)
    (key value : String) (hmem : (key, value) ∈ headers)
    (hsame : ∀ p ∈ headers, CanonicalMIMEHeaderKey p.1 = CanonicalMIMEHeaderKey key → p.2 = value) :
    GoMap.get? (setCustomHeaders h headers) (CanonicalMIMEHeaderKey key) = some [value] := by
  induction headers generalizing h with
  | nil => cases hmem
  | cons p rest ih =>
    have hrest : ∀ q ∈ rest, CanonicalMIMEHeaderKey q.1 = CanonicalMIMEHeaderKey key → q.2 = value :=
      fun q hq => hsame q (List.mem_cons_of_mem _ hq)
    show GoMap.get? (setCustomHeaders (Header.Set h p.1 p.2) rest) _ = _
    rcases List.mem_cons.mp hmem with heq | hin
    · subst heq
      exact setCustomHeaders_get?_keep rest _ _ _ (Header.get?_Set_self _ _ _) hrest
    · exact ih _ hin hrest

/-- When marshalling and request construction succeed, `deliver` hands `builtRequest` to the
client and returns what the client's answer determines. -/
theorem deliver_of_built (d : DefaultWebhookDeliverer δ ν) (rt : Runtime δ) (ctx : Context)
    (task : DeliveryTask δ) (net : ν) (payload : List UInt8)
    (hm : rt.jsonMarshal task.Event = .ok payload)
    (hu : rt.newRequestError task.Webhook.URL = none) :
    deliver d rt ctx task net =
      match d.client (builtRequest ctx task payload) net with
      | (.error err, net') =>
        { delivery := { WebhookID := task.Webhook.ID, EventID := task.Event.ID, Success := false,
                        Error := err, Attempts := task.Attempt },
          sent := some (builtRequest ctx task payload), net := net' }
      | (.ok resp, net') =>
        { delivery := { WebhookID := task.Webhook.ID, EventID := task.Event.ID,
                        URL := task.Webhook.URL, Method := "POST", Payload := payload,
                        Response := resp.Body.take 1024, StatusCode := resp.StatusCode,
                        Success := decide (resp.StatusCode ≥ 200) && decide (resp.StatusCode < 300),
                        Attempts := task.Attempt, DeliveredAt := some rt.now },
          sent := some (builtRequest ctx task payload), net := net' } := by
  unfold deliver
  simp only [hm, NewRequestWithContext, hu]
  rfl

/-- The request `deliver` hands to the client, if any, is `builtRequest` for the marshalled
payload. -/
theorem deliver_sent (d : DefaultWebhookDeliverer δ ν) (rt : Runtime δ) (ctx : Context)
    (task : DeliveryTask δ) (net : ν) (req : Request)
    (hsent : (deliver d rt ctx task net).sent = some req) :
    ∃ payload, rt.jsonMarshal task.Event = .ok payload ∧
      rt.newRequestError task.Webhook.URL = none ∧ req = builtRequest ctx task payload := by
  cases hm : rt.jsonMarshal task.Event with
  | error err =>
    unfold deliver at hsent
    simp only [hm] at hsent
    cases hsent
  | ok payload =>
    cases hu : rt.newRequestError task.Webhook.URL with
    | some err =>
      unfold deliver at hsent
      simp only [hm, NewRequestWithContext, hu] at hsent
      cases hsent
    | none =>
      refine ⟨payload, rfl, rfl, ?_⟩
      rw [deliver_of_built d rt ctx task net payload hm hu] at hsent
      split at hsent <;> exact (Option.some.inj hsent).symm

theorem canonical_contentType :
    CanonicalMIMEHeaderKey "X-Webhook-ID" ≠ CanonicalMIMEHeaderKey "Content-Type" ∧
    CanonicalMIMEHeaderKey "X-Event-ID" ≠ CanonicalMIMEHeaderKey "Content-Type" ∧
    CanonicalMIMEHeaderKey "X-Event-Type" ≠ CanonicalMIMEHeaderKey "Content-Type" ∧
    CanonicalMIMEHeaderKey "X-Webhook-Signature" ≠ CanonicalMIMEHeaderKey "Content-Type" := by
  decide

theorem canonical_webhookID :
    CanonicalMIMEHeaderKey "X-Event-ID" ≠ CanonicalMIMEHeaderKey "X-Webhook-ID" ∧
    CanonicalMIMEHeaderKey "X-Event-Type" ≠ CanonicalMIMEHeaderKey "X-Webhook-ID" ∧
    CanonicalMIMEHeaderKey "X-Webhook-Signature" ≠ CanonicalMIMEHeaderKey "X-Webhook-ID" := by
  decide

theorem canonical_eventID :
    CanonicalMIMEHeaderKey "X-Event-Type" ≠ CanonicalMIMEHeaderKey "X-Event-ID" ∧
    CanonicalMIMEHeaderKey "X-Webhook-Signature" ≠ CanonicalMIMEHeaderKey "X-Event-ID" ∧
    CanonicalMIMEHeaderKey "X-Webhook-Signature" ≠ CanonicalMIMEHeaderKey "X-Event-Type" := by
  decide

theorem canonical_signature :
    CanonicalMIMEHeaderKey "Content-Type" ≠ CanonicalMIMEHeaderKey "X-Webhook-Signature" ∧
    CanonicalMIMEHeaderKey "X-Webhook-ID" ≠ CanonicalMIMEHeaderKey "X-Webhook-Signature" ∧
    CanonicalMIMEHeaderKey "X-Event-ID" ≠ CanonicalMIMEHeaderKey "X-Webhook-Signature" ∧
    CanonicalMIMEHeaderKey "X-Event-Type" ≠ CanonicalMIMEHeaderKey "X-Webhook-Signature" := by
  decide

/-- The entry of `requestHeader` under a canonical key other than that of the signature header
is the entry after the custom headers. -/
theorem requestHeader_get?_of_ne_signature (task : DeliveryTask δ) (payload : List UInt8)
    (canon : String) (hne : CanonicalMIMEHeaderKey "X-Webhook-Signature" ≠ canon) :
    GoMap.get? (requestHeader task payload) canon =
      GoMap.get? (setCustomHeaders
        (Header.Set (Header.Set (Header.Set (Header.Set [] "Content-Type" "application/json")
          "X-Webhook-ID" task.Webhook.ID) "X-Event-ID" task.Event.ID)
          "X-Event-Type" task.Event.Type_) task.Webhook.Headers) canon := by
  unfold requestHeader
  by_cases hs : task.Webhook.Secret ≠ ""
  · simp only [if_pos hs]
    exact Header.get?_Set_of_ne _ _ _ _ hne
  · simp only [if_neg hs]

/-- With an empty secret `requestHeader` is the header map after the custom headers. -/
theorem requestHeader_of_empty_secret (task : DeliveryTask δ) (payload : List UInt8)
    (hs : task.Webhook.Secret = "") :
    requestHeader task payload =
      setCustomHeaders
        (Header.Set (Header.Set (Header.Set (Header.Set [] "Content-Type" "application/json")
          "X-Webhook-ID" task.Webhook.ID) "X-Event-ID" task.Event.ID)
          "X-Event-Type" task.Event.Type_) task.Webhook.Headers := by
  unfold requestHeader
  have hn : ¬ task.Webhook.Secret ≠ "" := fun h => h hs
  simp only [if_neg hn]

/-- With a secret the signature header of `requestHeader` is the generated signature. -/
theorem requestHeader_get?_signature (task : DeliveryTask δ) (payload : List UInt8)
    (hs : task.Webhook.Secret ≠ "") :
    GoMap.get? (requestHeader task payload) (CanonicalMIMEHeaderKey "X-Webhook-Signature") =
      some [generateSignature payload task.Webhook.Secret] := by
  unfold requestHeader
  simp only [if_pos hs]
  exact Header.get?_Set_self _ _ _

end DeliveryLemmas


/-- C6, as the code has it: when the secret is empty and no custom header key has the canonical
form of `X-Webhook-Signature`, the request handed to the client has no `X-Webhook-Signature`
entry (and `Get` of it is the empty string). -/
theorem deliver_unsigned_without_secret {δ ν : Type} (d : DefaultWebhookDeliverer δ ν)
    (rt : Runtime δ) (ctx : Context) (task : DeliveryTask δ) (net : ν) (req : Request)
    (hsecret : task.Webhook.Secret = "")
    (hcustom : ∀ p ∈ task.Webhook.Headers,
      CanonicalMIMEHeaderKey p.1 ≠ CanonicalMIMEHeaderKey "X-Webhook-Signature")
    (hsent : (deliver d rt ctx task net).sent = some req) :
    req.Header.Has "X-Webhook-Signature" = false ∧ req.Header.Get "X-Webhook-Signature" = "" := by
  obtain ⟨payload, _, _, rfl⟩ := deliver_sent d rt ctx task net req hsent
  have hget : GoMap.get? (requestHeader task payload)
      (CanonicalMIMEHeaderKey "X-Webhook-Signature") = none := by
    rw [requestHeader_of_empty_secret task payload hsecret,
      setCustomHeaders_get?_of_ne _ _ _ hcustom,
      Header.get?_Set_of_ne _ _ _ _ canonical_signature.2.2.2,
      Header.get?_Set_of_ne _ _ _ _ canonical_signature.2.2.1,
      Header.get?_Set_of_ne _ _ _ _ canonical_signature.2.1,
      Header.get?_Set_of_ne _ _ _ _ canonical_signature.1]
    rfl
  constructor
  · show (GoMap.get? (requestHeader task payload) _).isSome = false
    rw [hget]; rfl
  · show (match (GoMap.get? (requestHeader task payload) _).getD [] with
      | [] => "" | v :: _ => v) = ""
    rw [hget]; rfl

set_option maxRecDepth 100000 in
/-- C6 as amended, at a webhook with an empty secret and an ordinary custom header. -/
theorem deliver_unsigned_without_secret_witness :
    (deliver (delivererAnswering 200) sampleRuntime ⟨false⟩ unsignedTask ()).sent
        = some (builtRequest ⟨false⟩ unsignedTask samplePayload) ∧
      (builtRequest ⟨false⟩ unsignedTask samplePayload).Header.Has "X-Webhook-Signature" = false :=
  ⟨by decide,
    (deliver_unsigned_without_secret (delivererAnswering 200) sampleRuntime ⟨false⟩ unsignedTask ()
      (builtRequest ⟨false⟩ unsignedTask samplePayload) (by decide) (by decide) (by decide)).1⟩

set_option maxRecDepth 100000 in
/-- C6 as stated fails: a webhook with an empty secret and the custom header
`x-webhook-signature: forged` is delivered with that value as `X-Webhook-Signature`. -/
theorem deliver_empty_secret_signature_counterexample :
    forgedTask.Webhook.Secret = "" ∧
    ∃ req, (deliver (delivererAnswering 200) sampleRuntime ⟨false⟩ forgedTask ()).sent = some req ∧
      req.Header.Has "X-Webhook-Signature" = true ∧
      req.Header.Get "X-Webhook-Signature" = "forged" :=
  ⟨by decide, builtRequest ⟨false⟩ forgedTask samplePayload, by decide, by decide, by decide⟩

/-- C7: when the secret is not empty, the body of the request handed to the client is the JSON
serialization of the event, and the `X-Webhook-Signature` header of that request is `sha256=`
followed by the lower-case hexadecimal HMAC-SHA256 of exactly that body under the secret,
whatever the custom headers are. -/
theorem deliver_signs_request_body {δ ν : Type} (d : DefaultWebhookDeliverer δ ν)
    (rt : Runtime δ) (ctx : Context) (task : DeliveryTask δ) (net : ν) (req : Request)
    (hsecret : task.Webhook.Secret ≠ "")
    (hsent : (deliver d rt ctx task net).sent = some req) :
    rt.jsonMarshal task.Event = .ok req.Body ∧
    req.Header.Get "X-Webhook-Signature"
      = "sha256=" ++ lowerHex (hmacSHA256 (stringBytes task.Webhook.Secret) req.Body) := by
  obtain ⟨payload, hm, _, rfl⟩ := deliver_sent d rt ctx task net req hsent
  refine ⟨hm, ?_⟩
  show (match (GoMap.get? (requestHeader task payload) _).getD [] with
    | [] => "" | v :: _ => v) = _
  rw [requestHeader_get?_signature task payload hsecret]
  show generateSignature payload task.Webhook.Secret = _
  simp only [generateSignature, hmac_New_Write_Sum, hexEncodeToString_eq_lowerHex]
  rfl

set_option maxRecDepth 1000000 in
/-- C7 at a webhook with the secret `s1` whose custom headers name the signature header: the
request carries the HMAC of the body, not the custom value. -/
theorem deliver_signs_request_body_witness :
    (deliver (delivererAnswering 200) sampleRuntime ⟨false⟩ signedTask ()).sent
        = some (builtRequest ⟨false⟩ signedTask samplePayload) ∧
      (builtRequest ⟨false⟩ signedTask samplePayload).Header.Get "X-Webhook-Signature"
        = "sha256=bb9360a0acafd91482b9ce984cc61c3938ef950afe1cc7b73c1a754b018bc349" :=
  ⟨by decide,
    (deliver_signs_request_body (delivererAnswering 200) sampleRuntime ⟨false⟩ signedTask ()
      (builtRequest ⟨false⟩ signedTask samplePayload) (by decide) (by decide)).2.trans (by decide)⟩

/-- The value `Header.Get` finds for a key whose canonical entry is `[value]`. -/
theorem Header.Get_of_get? (h : Header) (key value : String)
    (hget : GoMap.get? h (CanonicalMIMEHeaderKey key) = some [value]) :
    Header.Get h key = value := by
  unfold Header.Get
  rw [hget]
  rfl

/-- C8, as the code has it: each of the four fixed headers has its value on the request handed
to the client when no custom header key has the canonical form of that header's name. -/
theorem deliver_sets_fixed_headers {δ ν : Type} (d : DefaultWebhookDeliverer δ ν)
    (rt : Runtime δ) (ctx : Context) (task : DeliveryTask δ) (net : ν) (req : Request)
    (hsent : (deliver d rt ctx task net).sent = some req) :
    ((∀ p ∈ task.Webhook.Headers,
        CanonicalMIMEHeaderKey p.1 ≠ CanonicalMIMEHeaderKey "Content-Type") →
      req.Header.Get "Content-Type" = "application/json") ∧
    ((∀ p ∈ task.Webhook.Headers,
        CanonicalMIMEHeaderKey p.1 ≠ CanonicalMIMEHeaderKey "X-Webhook-ID") →
      req.Header.Get "X-Webhook-ID" = task.Webhook.ID) ∧
    ((∀ p ∈ task.Webhook.Headers,
        CanonicalMIMEHeaderKey p.1 ≠ CanonicalMIMEHeaderKey "X-Event-ID") →
      req.Header.Get "X-Event-ID" = task.Event.ID) ∧
    ((∀ p ∈ task.Webhook.Headers,
        CanonicalMIMEHeaderKey p.1 ≠ CanonicalMIMEHeaderKey "X-Event-Type") →
      req.Header.Get "X-Event-Type" = task.Event.Type_) := by
  obtain ⟨payload, _, _, rfl⟩ := deliver_sent d rt ctx task net req hsent
  refine ⟨fun hc => ?_, fun hc => ?_, fun hc => ?_, fun hc => ?_⟩
  · apply Header.Get_of_get?
    show GoMap.get? (requestHeader task payload) _ = _
    rw [requestHeader_get?_of_ne_signature _ _ _ canonical_contentType.2.2.2,
      setCustomHeaders_get?_of_ne _ _ _ hc,
      Header.get?_Set_of_ne _ _ _ _ canonical_contentType.2.2.1,
      Header.get?_Set_of_ne _ _ _ _ canonical_contentType.2.1,
      Header.get?_Set_of_ne _ _ _ _ canonical_contentType.1,
      Header.get?_Set_self]
  · apply Header.Get_of_get?
    show GoMap.get? (requestHeader task payload) _ = _
    rw [requestHeader_get?_of_ne_signature _ _ _ canonical_webhookID.2.2,
      setCustomHeaders_get?_of_ne _ _ _ hc,
      Header.get?_Set_of_ne _ _ _ _ canonical_webhookID.2.1,
      Header.get?_Set_of_ne _ _ _ _ canonical_webhookID.1,
      Header.get?_Set_self]
  · apply Header.Get_of_get?
    show GoMap.get? (requestHeader task payload) _ = _
    rw [requestHeader_get?_of_ne_signature _ _ _ canonical_eventID.2.1,
      setCustomHeaders_get?_of_ne _ _ _ hc,
      Header.get?_Set_of_ne _ _ _ _ canonical_eventID.1,
      Header.get?_Set_self]
  · apply Header.Get_of_get?
    show GoMap.get? (requestHeader task payload) _ = _
    rw [requestHeader_get?_of_ne_signature _ _ _ canonical_eventID.2.2,
      setCustomHeaders_get?_of_ne _ _ _ hc,
      Header.get?_Set_self]

set_option maxRecDepth 1000000 in
/-- C8 as amended, at a signed webhook whose custom headers leave the fixed headers alone. -/
theorem deliver_sets_fixed_headers_witness :
    (deliver (delivererAnswering 200) sampleRuntime ⟨false⟩ signedTask ()).sent
        = some (builtRequest ⟨false⟩ signedTask samplePayload) ∧
      (builtRequest ⟨false⟩ signedTask samplePayload).Header.Get "Content-Type"
        = "application/json" ∧
      (builtRequest ⟨false⟩ signedTask samplePayload).Header.Get "X-Webhook-ID" = "w1" :=
  ⟨by decide,
    (deliver_sets_fixed_headers (delivererAnswering 200) sampleRuntime ⟨false⟩ signedTask ()
      (builtRequest ⟨false⟩ signedTask samplePayload) (by decide)).1 (by decide),
    (deliver_sets_fixed_headers (delivererAnswering 200) sampleRuntime ⟨false⟩ signedTask ()
      (builtRequest ⟨false⟩ signedTask samplePayload) (by decide)).2.1 (by decide)⟩

set_option maxRecDepth 100000 in
/-- C8 as stated fails: with the custom headers `content-type: text/plain` and
`X-Webhook-Id: other` the request carries these values, not `application/json` and the
webhook id `w4`. -/
theorem deliver_fixed_headers_counterexample :
    overridingTask.Webhook.ID = "w4" ∧
    ∃ req, (deliver (delivererAnswering 200) sampleRuntime ⟨false⟩ overridingTask ()).sent
        = some req ∧
      req.Header.Get "Content-Type" = "text/plain" ∧
      req.Header.Get "X-Webhook-ID" = "other" :=
  ⟨by decide, builtRequest ⟨false⟩ overridingTask samplePayload, by decide, by decide, by decide⟩

/-- C9, as the code has it: a custom header `key: value` of the webhook is on the request
handed to the client with its value when every custom header whose key has the same
canonical form carries that value, and the key is not the signature header of a webhook
with a secret. -/
theorem deliver_forwards_custom_header {δ ν : Type} (d : DefaultWebhookDeliverer δ ν)
    (rt : Runtime δ) (ctx : Context) (task : DeliveryTask δ) (net : ν) (req : Request)
    (key value : String)
    (hmem : (key, value) ∈ task.Webhook.Headers)
    (hsame : ∀ p ∈ task.Webhook.Headers,
      CanonicalMIMEHeaderKey p.1 = CanonicalMIMEHeaderKey key → p.2 = value)
    (hsig : task.Webhook.Secret = "" ∨
      CanonicalMIMEHeaderKey key ≠ CanonicalMIMEHeaderKey "X-Webhook-Signature")
    (hsent : (deliver d rt ctx task net).sent = some req) :
    req.Header.Get key = value := by
  obtain ⟨payload, _, _, rfl⟩ := deliver_sent d rt ctx task net req hsent
  apply Header.Get_of_get?
  show GoMap.get? (requestHeader task payload) _ = _
  rcases hsig with hempty | hne
  · rw [requestHeader_of_empty_secret task payload hempty]
    exact setCustomHeaders_get?_mem _ _ _ _ hmem hsame
  · rw [requestHeader_get?_of_ne_signature _ _ _ (Ne.symm hne)]
    exact setCustomHeaders_get?_mem _ _ _ _ hmem hsame

set_option maxRecDepth 1000000 in
/-- C9 as amended, at a signed webhook with the custom header `X-Custom-Header`. -/
theorem deliver_forwards_custom_header_witness :
    (deliver (delivererAnswering 200) sampleRuntime ⟨false⟩ signedTask ()).sent
        = some (builtRequest ⟨false⟩ signedTask samplePayload) ∧
      (builtRequest ⟨false⟩ signedTask samplePayload).Header.Get "X-Custom-Header"
        = "custom-value" :=
  ⟨by decide,
    deliver_forwards_custom_header (delivererAnswering 200) sampleRuntime ⟨false⟩ signedTask ()
      (builtRequest ⟨false⟩ signedTask samplePayload) "X-Custom-Header" "custom-value"
      (by decide) (by decide) (Or.inr (by decide)) (by decide)⟩

set_option maxRecDepth 1000000 in
/-- C9 as stated fails: the webhook has the secret `s1` and the custom headers `x-a: 1`,
`X-A: 2` and `X-Webhook-Signature: mine`; the request carries the computed signature in
place of `mine`, and for `x-a` the value `2` of the header visited later. -/
theorem deliver_custom_header_counterexample :
    ("X-Webhook-Signature", "mine") ∈ collidingTask.Webhook.Headers ∧
    ("x-a", "1") ∈ collidingTask.Webhook.Headers ∧
    ∃ req, (deliver (delivererAnswering 200) sampleRuntime ⟨false⟩ collidingTask ()).sent
        = some req ∧
      req.Header.Get "X-Webhook-Signature"
        = "sha256=bb9360a0acafd91482b9ce984cc61c3938ef950afe1cc7b73c1a754b018bc349" ∧
      req.Header.Get "x-a" = "2" :=
  ⟨by decide, by decide, builtRequest ⟨false⟩ collidingTask samplePayload, by decide, by decide,
    by decide⟩

/-- C10: when the client returns a response with status `s` for the request of the attempt, the
`Delivery` has `StatusCode = s`, and `Success` holds exactly when `200 ≤ s < 300`. -/
theorem deliver_status_and_success {δ ν : Type} (d : DefaultWebhookDeliverer δ ν)
    (rt : Runtime δ) (ctx : Context) (task : DeliveryTask δ) (net net' : ν) (req : Request)
    (resp : Response)
    (hsent : (deliver d rt ctx task net).sent = some req)
    (hresp : d.client req net = (.ok resp, net')) :
    (deliver d rt ctx task net).delivery.StatusCode = resp.StatusCode ∧
    ((deliver d rt ctx task net).delivery.Success = true ↔
      200 ≤ resp.StatusCode ∧ resp.StatusCode < 300) := by
  obtain ⟨payload, hm, hu, rfl⟩ := deliver_sent d rt ctx task net req hsent
  rw [deliver_of_built d rt ctx task net payload hm hu, hresp]
  simp

/-- C10 at the two ends of the range and just outside it: 200 and 299 succeed, 199 and 300 (and
500) fail, and the status code is recorded each time. -/
theorem deliver_status_and_success_witness :
    ((deliver (delivererAnswering 200) sampleRuntime ⟨false⟩ unsignedTask ()).delivery.StatusCode
        = 200 ∧
      (deliver (delivererAnswering 200) sampleRuntime ⟨false⟩ unsignedTask ()).delivery.Success
        = true) ∧
    (deliver (delivererAnswering 299) sampleRuntime ⟨false⟩ unsignedTask ()).delivery.Success
      = true ∧
    (deliver (delivererAnswering 199) sampleRuntime ⟨false⟩ unsignedTask ()).delivery.Success
      = false ∧
    (deliver (delivererAnswering 300) sampleRuntime ⟨false⟩ unsignedTask ()).delivery.Success
      = false ∧
    (deliver (delivererAnswering 500) sampleRuntime ⟨false⟩ unsignedTask ()).delivery.Success
      = false := by
  have h200 := deliver_status_and_success (delivererAnswering 200) sampleRuntime ⟨false⟩
    unsignedTask () () (builtRequest ⟨false⟩ unsignedTask samplePayload)
    { StatusCode := 200, Body := stringBytes "ok" } (by decide) rfl
  refine ⟨⟨h200.1, h200.2.mpr (by decide)⟩, ?_, ?_, ?_, ?_⟩ <;> decide

/-! ## Theorems: the delivery record -/

section RecordLemmas

variable {δ ν : Type}

/-- When marshalling fails, `deliver` returns at once. -/
theorem deliver_of_marshal_error (d : DefaultWebhookDeliverer δ ν) (rt : Runtime δ)
    (ctx : Context) (task : DeliveryTask δ) (net : ν) (err : GoError)
    (hm : rt.jsonMarshal task.Event = .error err) :
    deliver d rt ctx task net =
      { delivery := { WebhookID := task.Webhook.ID, EventID := task.Event.ID, Success := false,
                      Error := err },
        sent := none, net := net } := by
  unfold deliver
  simp only [hm]

/-- When the request cannot be constructed, `deliver` returns without a request. -/
theorem deliver_of_request_error (d : DefaultWebhookDeliverer δ ν) (rt : Runtime δ)
    (ctx : Context) (task : DeliveryTask δ) (net : ν) (payload : List UInt8) (err : GoError)
    (hm : rt.jsonMarshal task.Event = .ok payload)
    (hu : rt.newRequestError task.Webhook.URL = some err) :
    deliver d rt ctx task net =
      { delivery := { WebhookID := task.Webhook.ID, EventID := task.Event.ID, Success := false,
                      Error := err },
        sent := none, net := net } := by
  unfold deliver
  simp only [hm, NewRequestWithContext, hu]

/-- The four ways a call of `deliver` can go. -/
theorem deliver_cases (d : DefaultWebhookDeliverer δ ν) (rt : Runtime δ) (ctx : Context)
    (task : DeliveryTask δ) (net : ν) :
    (∃ err, deliver d rt ctx task net =
      { delivery := { WebhookID := task.Webhook.ID, EventID := task.Event.ID, Success := false,
                      Error := err },
        sent := none, net := net }) ∨
    (∃ payload err net', rt.jsonMarshal task.Event = .ok payload ∧
      d.client (builtRequest ctx task payload) net = (.error err, net') ∧
      deliver d rt ctx task net =
      { delivery := { WebhookID := task.Webhook.ID, EventID := task.Event.ID, Success := false,
                      Error := err, Attempts := task.Attempt },
        sent := some (builtRequest ctx task payload), net := net' }) ∨
    (∃ payload resp net', rt.jsonMarshal task.Event = .ok payload ∧
      d.client (builtRequest ctx task payload) net = (.ok resp, net') ∧
      deliver d rt ctx task net =
      { delivery := { WebhookID := task.Webhook.ID, EventID := task.Event.ID,
                      URL := task.Webhook.URL, Method := "POST", Payload := payload,
                      Response := resp.Body.take 1024, StatusCode := resp.StatusCode,
                      Success := decide (resp.StatusCode ≥ 200) && decide (resp.StatusCode < 300),
                      Attempts := task.Attempt, DeliveredAt := some rt.now },
        sent := some (builtRequest ctx task payload), net := net' }) := by
  cases hm : rt.jsonMarshal task.Event with
  | error err => exact Or.inl ⟨err, deliver_of_marshal_error d rt ctx task net err hm⟩
  | ok payload =>
    cases hu : rt.newRequestError task.Webhook.URL with
    | some err => exact Or.inl ⟨err, deliver_of_request_error d rt ctx task net payload err hm hu⟩
    | none =>
      have hb := deliver_of_built d rt ctx task net payload hm hu
      cases hc : d.client (builtRequest ctx task payload) net with
      | mk res net' =>
        rw [hc] at hb
        cases res with
        | error err => exact Or.inr (Or.inl ⟨payload, err, net', rfl, hc, hb⟩)
        | ok resp => exact Or.inr (Or.inr ⟨payload, resp, net', rfl, hc, hb⟩)

/-- No path of `deliver` assigns `ID`, `Headers` or `NextRetryAt`. -/
theorem deliver_unassigned_fields (d : DefaultWebhookDeliverer δ ν) (rt : Runtime δ)
    (ctx : Context) (task : DeliveryTask δ) (net : ν) :
    (deliver d rt ctx task net).delivery.ID = "" ∧
    (deliver d rt ctx task net).delivery.Headers = [] ∧
    (deliver d rt ctx task net).delivery.NextRetryAt = none := by
  rcases deliver_cases d rt ctx task net with ⟨err, h⟩ | ⟨p, err, n, _, _, h⟩ | ⟨p, resp, n, _, _, h⟩ <;>
    rw [h] <;> exact ⟨rfl, rfl, rfl⟩

/-- On every response, whatever its status, `deliver` sets `DeliveredAt` to the current time. -/
theorem deliver_DeliveredAt_of_response (d : DefaultWebhookDeliverer δ ν) (rt : Runtime δ)
    (ctx : Context) (task : DeliveryTask δ) (net net' : ν) (req : Request) (resp : Response)
    (hsent : (deliver d rt ctx task net).sent = some req)
    (hresp : d.client req net = (.ok resp, net')) :
    (deliver d rt ctx task net).delivery.DeliveredAt = some rt.now := by
  obtain ⟨payload, hm, hu, rfl⟩ := deliver_sent d rt ctx task net req hsent
  rw [deliver_of_built d rt ctx task net payload hm hu, hresp]

end RecordLemmas

/-- C11 at the failing input: the endpoint answers 500, and the `Delivery` of the attempt has
`Success = false` together with `DeliveredAt` set. -/
theorem deliver_DeliveredAt_on_status_500 :
    (deliver (delivererAnswering 500) sampleRuntime ⟨false⟩ unsignedTask ()).delivery.StatusCode
      = 500 ∧
    (deliver (delivererAnswering 500) sampleRuntime ⟨false⟩ unsignedTask ()).delivery.Success
      = false ∧
    (deliver (delivererAnswering 500) sampleRuntime ⟨false⟩ unsignedTask ()).delivery.DeliveredAt
      = some 1000 := by
  decide

/-- C12 at the failing input: a first attempt (of at most 3 retries) that the endpoint answers
with 500 yields a `Delivery` with `Success = false` and `NextRetryAt` nil. -/
theorem deliver_NextRetryAt_on_status_500 :
    unsignedTask.Attempt = 1 ∧ (delivererAnswering 500).maxRetries = 3 ∧
    (deliver (delivererAnswering 500) sampleRuntime ⟨false⟩ unsignedTask ()).delivery.Success
      = false ∧
    (deliver (delivererAnswering 500) sampleRuntime ⟨false⟩ unsignedTask ()).delivery.NextRetryAt
      = none := by
  decide

/-- C13 at the failing input: the `Delivery` of a successful attempt and that of a failed one
both have the empty `ID`. -/
theorem deliver_ID_empty :
    (deliver (delivererAnswering 200) sampleRuntime ⟨false⟩ unsignedTask ()).delivery.Success
      = true ∧
    (deliver (delivererAnswering 200) sampleRuntime ⟨false⟩ unsignedTask ()).delivery.ID = "" ∧
    (deliver (delivererAnswering 500) sampleRuntime ⟨false⟩ unsignedTask ()).delivery.ID = "" := by
  decide

set_option maxRecDepth 1000000 in
/-- C14 at the failing input: the request of the attempt carries `Content-Type` and the custom
header, the endpoint answers 200, and the `Delivery` has no headers at all. -/
theorem deliver_Headers_empty :
    (deliver (delivererAnswering 200) sampleRuntime ⟨false⟩ signedTask ()).sent
      = some (builtRequest ⟨false⟩ signedTask samplePayload) ∧
    (builtRequest ⟨false⟩ signedTask samplePayload).Header.Get "Content-Type"
      = "application/json" ∧
    (builtRequest ⟨false⟩ signedTask samplePayload).Header.Get "X-Custom-Header"
      = "custom-value" ∧
    (deliver (delivererAnswering 200) sampleRuntime ⟨false⟩ signedTask ()).delivery.Success
      = true ∧
    (deliver (delivererAnswering 200) sampleRuntime ⟨false⟩ signedTask ()).delivery.Headers
      = [] := by
  decide

/-- C18: when the client returns a response for the request of the attempt, that request is a
`POST` to the URL of the webhook, its body is the JSON serialization of the event, and the
`Payload` of the `Delivery` is that body. -/
theorem deliver_request_line_and_payload {δ ν : Type} (d : DefaultWebhookDeliverer δ ν)
    (rt : Runtime δ) (ctx : Context) (task : DeliveryTask δ) (net net' : ν) (req : Request)
    (resp : Response)
    (hsent : (deliver d rt ctx task net).sent = some req)
    (hresp : d.client req net = (.ok resp, net')) :
    req.Method = "POST" ∧ req.URL = task.Webhook.URL ∧
    rt.jsonMarshal task.Event = .ok req.Body ∧
    (deliver d rt ctx task net).delivery.Payload = req.Body := by
  obtain ⟨payload, hm, hu, rfl⟩ := deliver_sent d rt ctx task net req hsent
  refine ⟨rfl, rfl, hm, ?_⟩
  rw [deliver_of_built d rt ctx task net payload hm hu, hresp]
  rfl

/-- C18 at a concrete attempt: the request is a `POST` to the URL of the webhook, and body and
recorded payload are the JSON text of the event. -/
theorem deliver_request_line_and_payload_witness :
    (builtRequest ⟨false⟩ unsignedTask samplePayload).Method = "POST" ∧
    (builtRequest ⟨false⟩ unsignedTask samplePayload).URL = "https://example.test/hook" ∧
    (deliver (delivererAnswering 200) sampleRuntime ⟨false⟩ unsignedTask ()).delivery.Payload
      = samplePayload := by
  have h := deliver_request_line_and_payload (delivererAnswering 200) sampleRuntime ⟨false⟩
    unsignedTask () () (builtRequest ⟨false⟩ unsignedTask samplePayload)
    { StatusCode := 200, Body := stringBytes "ok" } (by decide) rfl
  exact ⟨h.1, h.2.1, h.2.2.2⟩

/-- C19: when the event cannot be marshalled (the error of `json.Marshal` has a text, as every
error of `encoding/json` has), the attempt hands no request to the client and leaves the
network as it was; the `Delivery` has `Success = false`, the text of the error, the ids of
the webhook and the event of the task, and `NextRetryAt` nil. -/
theorem deliver_marshal_failure {δ ν : Type} (d : DefaultWebhookDeliverer δ ν)
    (rt : Runtime δ) (ctx : Context) (task : DeliveryTask δ) (net : ν) (err : GoError)
    (hm : rt.jsonMarshal task.Event = .error err) (herr : err ≠ "") :
    (deliver d rt ctx task net).sent = none ∧
    (deliver d rt ctx task net).net = net ∧
    (deliver d rt ctx task net).delivery.Success = false ∧
    (deliver d rt ctx task net).delivery.Error = err ∧
    (deliver d rt ctx task net).delivery.Error ≠ "" ∧
    (deliver d rt ctx task net).delivery.WebhookID = task.Webhook.ID ∧
    (deliver d rt ctx task net).delivery.EventID = task.Event.ID ∧
    (deliver d rt ctx task net).delivery.NextRetryAt = none := by
  rw [deliver_of_marshal_error d rt ctx task net err hm]
  exact ⟨rfl, rfl, rfl, rfl, herr, rfl, rfl, rfl⟩

/-- C19 at a runtime whose `json.Marshal` fails: no request reaches the counting client. -/
theorem deliver_marshal_failure_witness :
    (deliver delivererUnreachable failingRuntime ⟨false⟩ unsignedTask 0).net = 0 ∧
    (deliver delivererUnreachable failingRuntime ⟨false⟩ unsignedTask 0).delivery.Error
      = "json: unsupported type: chan int" :=
  have h := deliver_marshal_failure delivererUnreachable failingRuntime ⟨false⟩ unsignedTask 0
    "json: unsupported type: chan int" rfl (by decide)
  ⟨h.2.1, h.2.2.2.1⟩

/-- C17: an attempt hands at most one request to the client: the network is either untouched
or stepped once, by the request of the attempt. When the client fails on that request at the
network level (with an error text, as every `*url.Error` of `client.Do` has), the `Delivery`
has `Success = false`, that text, and the ids of the webhook and the event of the task. The
same holds for `Deliver` as modelled from the spec, which makes the one attempt of `deliver`
and returns a non-nil error with the failed `Delivery`. -/
theorem deliver_one_request_and_network_failure {δ ν : Type} (d : DefaultWebhookDeliverer δ ν)
    (rt : Runtime δ) (ctx : Context) (idOf : Nat → String) (task : DeliveryTask δ)
    (history : DeliveryHistory δ) (net : ν) :
    (((deliver d rt ctx task net).sent = none ∧ (deliver d rt ctx task net).net = net) ∨
      ∃ req, (deliver d rt ctx task net).sent = some req ∧
        (deliver d rt ctx task net).net = (d.client req net).2) ∧
    (∀ req err net', (deliver d rt ctx task net).sent = some req →
      d.client req net = (.error err, net') → err ≠ "" →
      (deliver d rt ctx task net).delivery.Success = false ∧
      (deliver d rt ctx task net).delivery.Error = err ∧
      (deliver d rt ctx task net).delivery.Error ≠ "" ∧
      (deliver d rt ctx task net).delivery.WebhookID = task.Webhook.ID ∧
      (deliver d rt ctx task net).delivery.EventID = task.Event.ID) ∧
    ((Deliver d rt ctx idOf (some task.Webhook) (some task.Event) history net).sent
        = (deliver d rt ctx { task with Attempt := 1, Callback := none } net).sent ∧
      (Deliver d rt ctx idOf (some task.Webhook) (some task.Event) history net).net
        = (deliver d rt ctx { task with Attempt := 1, Callback := none } net).net) ∧
    (∀ req err net',
      (Deliver d rt ctx idOf (some task.Webhook) (some task.Event) history net).sent = some req →
      d.client req net = (.error err, net') → err ≠ "" →
      ∃ failed,
        (Deliver d rt ctx idOf (some task.Webhook) (some task.Event) history net).delivery
          = some failed ∧
        failed.Success = false ∧ failed.Error = err ∧ failed.WebhookID = task.Webhook.ID ∧
        failed.EventID = task.Event.ID ∧
        (Deliver d rt ctx idOf (some task.Webhook) (some task.Event) history net).err ≠ none) := by
  have hfail : ∀ (t : DeliveryTask δ) req err net', (deliver d rt ctx t net).sent = some req →
      d.client req net = (.error err, net') →
      (deliver d rt ctx t net).delivery.Success = false ∧
      (deliver d rt ctx t net).delivery.Error = err ∧
      (deliver d rt ctx t net).delivery.WebhookID = t.Webhook.ID ∧
      (deliver d rt ctx t net).delivery.EventID = t.Event.ID := by
    intro t req err net' hsent hc
    obtain ⟨payload, hm, hu, rfl⟩ := deliver_sent d rt ctx t net req hsent
    rw [deliver_of_built d rt ctx t net payload hm hu, hc]
    exact ⟨rfl, rfl, rfl, rfl⟩
  refine ⟨?_, ?_, ⟨rfl, rfl⟩, ?_⟩
  · rcases deliver_cases d rt ctx task net with ⟨err, h⟩ | ⟨p, err, n, _, hc, h⟩ |
      ⟨p, resp, n, _, hc, h⟩
    · exact Or.inl (by rw [h]; exact ⟨rfl, rfl⟩)
    · exact Or.inr ⟨builtRequest ctx task p, by rw [h], by rw [h, hc]⟩
    · exact Or.inr ⟨builtRequest ctx task p, by rw [h], by rw [h, hc]⟩
  · intro req err net' hsent hc herr
    obtain ⟨h1, h2, h3, h4⟩ := hfail task req err net' hsent hc
    exact ⟨h1, h2, by rw [h2]; exact herr, h3, h4⟩
  · intro req err net' hsent hc _
    obtain ⟨h1, h2, h3, h4⟩ :=
      hfail { task with Attempt := 1, Callback := none } req err net' hsent hc
    refine ⟨_, rfl, h1, h2, h3, h4, ?_⟩
    show (if _ then none else some _) ≠ none
    rw [if_neg (by simpa using h1)]
    exact Option.some_ne_none _

/-- C17 at a client that refuses every connection and counts the requests: `Deliver` makes one
request, and returns a failed `Delivery` and an error. -/
theorem deliver_one_request_and_network_failure_witness :
    (Deliver delivererUnreachable sampleRuntime ⟨false⟩ sampleID (some unsignedTask.Webhook)
      (some unsignedTask.Event) [] 0).net = 1 ∧
    (Deliver delivererUnreachable sampleRuntime ⟨false⟩ sampleID (some unsignedTask.Webhook)
      (some unsignedTask.Event) [] 0).err ≠ none := by
  obtain ⟨failed, _, _, _, _, _, herr⟩ :=
    (deliver_one_request_and_network_failure delivererUnreachable sampleRuntime ⟨false⟩ sampleID
      unsignedTask [] 0).2.2.2 (builtRequest ⟨false⟩ unsignedTask samplePayload)
      "Post \"https://example.test/hook\": connection refused" 1 (by decide) rfl (by decide)
  exact ⟨by decide, herr⟩

/-! ## Theorems: the worker -/

section WorkerLemmas

variable {δ ν : Type}

theorem outcomesFrom_length (d : DefaultWebhookDeliverer δ ν) (rt : Runtime δ)
    (ctx : Nat → Context) (tasks : List (DeliveryTask δ)) (i : Nat) (net : ν) :
    (outcomesFrom d rt ctx i tasks net).length = tasks.length := by
  induction tasks generalizing i net with
  | nil => rfl
  | cons task rest ih => simp [outcomesFrom, ih]

/-- A worker whose context is not cancelled adds to its log the events of the tasks, task
after task. -/
theorem workerLoop_trace (d : DefaultWebhookDeliverer δ ν) (rt : Runtime δ)
    (ctx : Nat → Context) (hctx : ∀ i, (ctx i).cancelled = false)
    (tasks : List (DeliveryTask δ)) (i : Nat) (st : WorkerState ν) :
    (workerLoop d rt ctx i tasks st).trace
      = st.trace ++ eventsFrom i tasks (outcomesFrom d rt ctx i tasks st.net) := by
  induction tasks generalizing i st with
  | nil => simp [workerLoop, eventsFrom]
  | cons task rest ih =>
    simp only [workerLoop, hctx i, Bool.false_eq_true, if_false, outcomesFrom, eventsFrom]
    rw [ih]
    cases hcb : task.Callback with
    | none => simp [taskEvents, hcb]
    | some callback => simp [taskEvents, hcb]

theorem eventsFrom_started (tasks : List (DeliveryTask δ)) (outcomes : List Delivery) (i : Nat)
    (hlen : outcomes.length = tasks.length) :
    (eventsFrom i tasks outcomes).filterMap startedIndex = List.range' i tasks.length := by
  induction tasks generalizing i outcomes with
  | nil => cases outcomes <;> rfl
  | cons task rest ih =>
    cases outcomes with
    | nil => simp at hlen
    | cons outcome outcomes =>
      have hrest : outcomes.length = rest.length := by simpa using hlen
      simp only [eventsFrom, List.filterMap_append, ih outcomes (i + 1) hrest, List.length_cons,
        List.range'_succ]
      cases hcb : task.Callback <;> simp [taskEvents, hcb, startedIndex]

theorem eventsFrom_sent (tasks : List (DeliveryTask δ)) (outcomes : List Delivery) (i : Nat)
    (hlen : outcomes.length = tasks.length) :
    (eventsFrom i tasks outcomes).filterMap sentOn
      = (tasks.zip outcomes).filterMap fun p => p.1.Callback.map fun c => (c, p.2) := by
  induction tasks generalizing i outcomes with
  | nil => cases outcomes <;> rfl
  | cons task rest ih =>
    cases outcomes with
    | nil => simp at hlen
    | cons outcome outcomes =>
      have hrest : outcomes.length = rest.length := by simpa using hlen
      simp only [eventsFrom, List.filterMap_append, ih outcomes (i + 1) hrest, List.zip_cons_cons,
        List.filterMap_cons]
      cases hcb : task.Callback <;> simp [taskEvents, hcb, sentOn]

end WorkerLemmas

/-- C20: a worker whose context is never cancelled goes through the tasks of the queue in the
order of the queue: its log is, task after task, the start of the attempt followed by one
send of the outcome of that attempt on the callback of the task when it has one, and by
nothing when it has none. So the attempts start in the order 0, 1, 2, ... of the queue, each
once, and the sends are, in the order of the queue, the outcomes of the tasks with a
callback, each on the callback of its task. -/
theorem worker_processes_queue_in_order {δ ν : Type} (d : DefaultWebhookDeliverer δ ν)
    (rt : Runtime δ) (ctx : Nat → Context) (net : ν)
    (hctx : ∀ i, (ctx i).cancelled = false) :
    (worker d rt ctx net).trace = eventsFrom 0 d.queue (outcomesFrom d rt ctx 0 d.queue net) ∧
    (worker d rt ctx net).trace.filterMap startedIndex = List.range d.queue.length ∧
    (worker d rt ctx net).trace.filterMap sentOn
      = (d.queue.zip (outcomesFrom d rt ctx 0 d.queue net)).filterMap
          fun p => p.1.Callback.map fun c => (c, p.2) := by
  have htrace : (worker d rt ctx net).trace
      = eventsFrom 0 d.queue (outcomesFrom d rt ctx 0 d.queue net) := by
    unfold worker
    rw [workerLoop_trace d rt ctx hctx]
    rfl
  have hlen := outcomesFrom_length d rt ctx d.queue 0 net
  refine ⟨htrace, ?_, ?_⟩
  · rw [htrace, eventsFrom_started _ _ _ hlen, List.range_eq_range']
  · rw [htrace, eventsFrom_sent _ _ _ hlen]

set_option maxRecDepth 100000 in
/-- C20 at a queue of three tasks, with the callback 7, without callback, with the callback 9:
the log is start 0, send on 7, start 1, start 2, send on 9. -/
theorem worker_processes_queue_in_order_witness :
    ((worker delivererWithQueue sampleRuntime (fun _ => ⟨false⟩) ()).trace.map fun e =>
        (startedIndex e, (sentOn e).map Prod.fst))
      = [(some 0, none), (none, some 7), (some 1, none), (some 2, none), (none, some 9)] := by
  rw [(worker_processes_queue_in_order delivererWithQueue sampleRuntime (fun _ => ⟨false⟩) ()
    (fun _ => rfl)).1]
  decide

/-! ## Theorems: the synchronous entry points -/

section EntryLemmas

variable {δ ν : Type}

theorem HistoryNamed_nil (idOf : Nat → String) : HistoryNamed idOf ([] : DeliveryHistory δ) := by
  intro k hk
  exact absurd hk (Nat.not_lt_zero k)

/-- A recorded attempt keeps the history named and adds its `Delivery` at the end. -/
theorem recordedAttempt_named (d : DefaultWebhookDeliverer δ ν) (rt : Runtime δ) (ctx : Context)
    (idOf : Nat → String) (webhook : Webhook δ) (event : Event δ) (attempt : Int)
    (history : DeliveryHistory δ) (net : ν) (hnamed : HistoryNamed idOf history) :
    HistoryNamed idOf (recordedAttempt d rt ctx idOf webhook event attempt history net).history := by
  intro k hk
  simp only [recordedAttempt, List.length_append, List.length_singleton] at hk
  simp only [recordedAttempt, List.get_eq_getElem]
  by_cases hlt : k < history.length
  · rw [List.getElem_append_left hlt]
    simpa using hnamed k hlt
  · have hk' : k = history.length := by omega
    subst hk'
    simp

theorem Deliver_named (d : DefaultWebhookDeliverer δ ν) (rt : Runtime δ) (ctx : Context)
    (idOf : Nat → String) (webhook : Option (Webhook δ)) (event : Option (Event δ))
    (history : DeliveryHistory δ) (net : ν) (hnamed : HistoryNamed idOf history) :
    HistoryNamed idOf (Deliver d rt ctx idOf webhook event history net).history := by
  unfold Deliver
  split
  · exact recordedAttempt_named d rt ctx idOf _ _ 1 history net hnamed
  · exact hnamed

theorem RetryDelivery_named (d : DefaultWebhookDeliverer δ ν) (rt : Runtime δ) (ctx : Context)
    (idOf : Nat → String) (deliveryID : String)
    (history : DeliveryHistory δ) (net : ν) (hnamed : HistoryNamed idOf history) :
    HistoryNamed idOf (RetryDelivery d rt ctx idOf deliveryID history net).history := by
  unfold RetryDelivery
  split
  · exact hnamed
  · split
    · exact hnamed
    · exact recordedAttempt_named d rt ctx idOf _ _ _ history net hnamed

/-- In a list whose entry at position `k` is named `idOf (off + k)`, with distinct names, the
search for a name finds the entry at its position. -/
theorem find?_named (idOf : Nat → String) (hinj : Function.Injective idOf)
    (l : List (AttemptRecord δ)) (off : Nat)
    (hnamed : ∀ k (hk : k < l.length), (l.get ⟨k, hk⟩).delivery.ID = idOf (off + k))
    (k : Nat) (hk : k < l.length) :
    l.find? (fun r => decide (r.delivery.ID = idOf (off + k))) = some (l.get ⟨k, hk⟩) := by
  induction l generalizing off k with
  | nil => exact absurd hk (Nat.not_lt_zero k)
  | cons a rest ih =>
    have ha : a.delivery.ID = idOf off := by simpa using hnamed 0 (Nat.succ_pos _)
    cases k with
    | zero => simp [List.find?, ha]
    | succ k =>
      have hne : ¬ a.delivery.ID = idOf (off + (k + 1)) := by
        rw [ha]
        intro h
        have := hinj h
        omega
      have hk' : k < rest.length := Nat.lt_of_succ_lt_succ hk
      have hrest : ∀ j (hj : j < rest.length),
          (rest.get ⟨j, hj⟩).delivery.ID = idOf (off + 1 + j) := by
        intro j hj
        have := hnamed (j + 1) (Nat.succ_lt_succ hj)
        simpa [Nat.add_assoc, Nat.add_comm 1 j] using this
      have := ih (off + 1) hrest k hk'
      simp only [List.find?, hne, decide_False]
      rw [show off + (k + 1) = off + 1 + k by omega]
      simpa using this

/-- The search of `RetryDelivery` for the identifier of a recorded attempt finds that attempt. -/
theorem find?_of_mem (idOf : Nat → String) (hinj : Function.Injective idOf)
    (history : DeliveryHistory δ) (hnamed : HistoryNamed idOf history)
    (prior : AttemptRecord δ) (hmem : prior ∈ history) :
    history.find? (fun r => decide (r.delivery.ID = prior.delivery.ID)) = some prior ∧
    ∃ k, k < history.length ∧ prior.delivery.ID = idOf k := by
  obtain ⟨⟨k, hk⟩, rfl⟩ := List.mem_iff_get.mp hmem
  have hnamed' : ∀ j (hj : j < history.length),
      (history.get ⟨j, hj⟩).delivery.ID = idOf (0 + j) := by
    intro j hj
    simpa using hnamed j hj
  have hfind := find?_named idOf hinj history 0 hnamed' k hk
  have hid : (history.get ⟨k, hk⟩).delivery.ID = idOf k := hnamed k hk
  refine ⟨?_, k, hk, hid⟩
  rw [hid]
  simpa using hfind

theorem sampleID_injective : Function.Injective sampleID := by
  intro n m h
  have hlen : (sampleID n).length = (sampleID m).length := by rw [h]
  simpa [sampleID, String.length] using hlen

end EntryLemmas

/-- C15, on `Deliver` and `RetryDelivery` as modelled from the spec: for a failed `Delivery` in
a history that these entry points built (attempt `k` named `idOf k`, distinct attempts
named differently), `RetryDelivery` of its id makes one new attempt, that of `deliver` for
the webhook and the event of the prior attempt, and returns a `Delivery` whose `Attempts`
is one more than that of the prior one and whose `ID` differs from the prior `ID`; the new
`Delivery` is added to the history. -/
theorem RetryDelivery_increments_attempts {δ ν : Type} (d : DefaultWebhookDeliverer δ ν)
    (rt : Runtime δ) (ctx : Context) (idOf : Nat → String) (history : DeliveryHistory δ)
    (net : ν) (prior : AttemptRecord δ)
    (hinj : Function.Injective idOf) (hnamed : HistoryNamed idOf history)
    (hmem : prior ∈ history) (hfailed : prior.delivery.Success = false) :
    ∃ retried,
      (RetryDelivery d rt ctx idOf prior.delivery.ID history net).delivery = some retried ∧
      retried.Attempts = prior.delivery.Attempts + 1 ∧
      retried.ID ≠ prior.delivery.ID ∧
      (RetryDelivery d rt ctx idOf prior.delivery.ID history net).sent
        = (deliver d rt ctx
            { Webhook := prior.webhook, Event := prior.event,
              Attempt := prior.delivery.Attempts + 1, Callback := none } net).sent ∧
      (RetryDelivery d rt ctx idOf prior.delivery.ID history net).net
        = (deliver d rt ctx
            { Webhook := prior.webhook, Event := prior.event,
              Attempt := prior.delivery.Attempts + 1, Callback := none } net).net ∧
      (RetryDelivery d rt ctx idOf prior.delivery.ID history net).history
        = history ++ [{ delivery := retried, webhook := prior.webhook, event := prior.event }] := by
  obtain ⟨hfind, k, hk, hid⟩ := find?_of_mem idOf hinj history hnamed prior hmem
  have hnot : ¬ prior.delivery.Success = true := by rw [hfailed]; decide
  have hretry : RetryDelivery d rt ctx idOf prior.delivery.ID history net
      = recordedAttempt d rt ctx idOf prior.webhook prior.event (prior.delivery.Attempts + 1)
          history net := by
    unfold RetryDelivery
    rw [hfind]
    simp only [if_neg hnot]
  rw [hretry]
  refine ⟨_, rfl, rfl, ?_, rfl, rfl, rfl⟩
  show idOf history.length ≠ prior.delivery.ID
  rw [hid]
  intro h
  have := hinj h
  omega

set_option maxRecDepth 100000 in
/-- C15 in the retry test: the endpoint answers 500, then 200. The first `Delivery` has the
id `d`, one attempt and no success; `RetryDelivery` of `d` makes the second request and
returns a successful `Delivery` with the id `dd` and two attempts. -/
theorem RetryDelivery_increments_attempts_witness :
    firstRecord.delivery.ID = "d" ∧ firstRecord.delivery.Attempts = 1 ∧
    firstRecord.delivery.Success = false ∧ firstAttempt.net = 1 ∧
    ∃ retried,
      (RetryDelivery delivererFlaky sampleRuntime ⟨false⟩ sampleID firstRecord.delivery.ID
        firstAttempt.history firstAttempt.net).delivery = some retried ∧
      retried.Attempts = firstRecord.delivery.Attempts + 1 ∧
      retried.ID ≠ firstRecord.delivery.ID ∧
      retried.ID = "dd" ∧ retried.Success = true ∧
      (RetryDelivery delivererFlaky sampleRuntime ⟨false⟩ sampleID firstRecord.delivery.ID
        firstAttempt.history firstAttempt.net).net = 2 := by
  have hnamed : HistoryNamed sampleID firstAttempt.history :=
    Deliver_named delivererFlaky sampleRuntime ⟨false⟩ sampleID _ _ [] 0 (HistoryNamed_nil sampleID)
  have hmem : firstRecord ∈ firstAttempt.history := List.mem_singleton.mpr rfl
  obtain ⟨retried, hret, hatt, hne, _, _, _⟩ :=
    RetryDelivery_increments_attempts delivererFlaky sampleRuntime ⟨false⟩ sampleID
      firstAttempt.history firstAttempt.net firstRecord sampleID_injective hnamed hmem (by decide)
  refine ⟨by decide, by decide, by decide, by decide, retried, hret, hatt, hne, ?_, ?_, by decide⟩
  · have hval : (RetryDelivery delivererFlaky sampleRuntime ⟨false⟩ sampleID
        firstRecord.delivery.ID firstAttempt.history firstAttempt.net).delivery.map (·.ID)
        = some "dd" := by decide
    rw [hret] at hval
    exact Option.some.inj hval
  · have hval : (RetryDelivery delivererFlaky sampleRuntime ⟨false⟩ sampleID
        firstRecord.delivery.ID firstAttempt.history firstAttempt.net).delivery.map (·.Success)
        = some true := by decide
    rw [hret] at hval
    exact Option.some.inj hval

/-- C16, on `Deliver` as modelled from the spec: called with a nil webhook (whatever the event)
or with a nil event (whatever the webhook), `Deliver` returns a non-nil error, hands no
request to the client, and leaves network and history as they were. -/
theorem Deliver_nil_is_usage_error {δ ν : Type} (d : DefaultWebhookDeliverer δ ν)
    (rt : Runtime δ) (ctx : Context) (idOf : Nat → String) (webhook : Option (Webhook δ))
    (event : Option (Event δ)) (history : DeliveryHistory δ) (net : ν) :
    ((Deliver d rt ctx idOf none event history net).err ≠ none ∧
      (Deliver d rt ctx idOf none event history net).sent = none ∧
      (Deliver d rt ctx idOf none event history net).net = net ∧
      (Deliver d rt ctx idOf none event history net).history = history) ∧
    ((Deliver d rt ctx idOf webhook none history net).err ≠ none ∧
      (Deliver d rt ctx idOf webhook none history net).sent = none ∧
      (Deliver d rt ctx idOf webhook none history net).net = net ∧
      (Deliver d rt ctx idOf webhook none history net).history = history) := by
  constructor
  · cases event <;> exact ⟨Option.some_ne_none _, rfl, rfl, rfl⟩
  · cases webhook <;> exact ⟨Option.some_ne_none _, rfl, rfl, rfl⟩

/-- C16 at the counting client, as in the unit test: neither call makes a request. -/
theorem Deliver_nil_is_usage_error_witness :
    (Deliver delivererUnreachable sampleRuntime ⟨false⟩ sampleID none
      (some (eventOf "e1" "user.login")) [] 0).net = 0 ∧
    (Deliver delivererUnreachable sampleRuntime ⟨false⟩ sampleID (some unsignedTask.Webhook)
      none [] 0).net = 0 :=
  ⟨(Deliver_nil_is_usage_error delivererUnreachable sampleRuntime ⟨false⟩ sampleID none
      (some (eventOf "e1" "user.login")) [] 0).1.2.2.1,
    (Deliver_nil_is_usage_error delivererUnreachable sampleRuntime ⟨false⟩ sampleID
      (some unsignedTask.Webhook) none [] 0).2.2.2.1⟩

/-! ## Theorems: cancellation -/

section CancellationLemmas

variable {δ ν : Type}

/-- A worker that finds its context cancelled at the position `k` has done what it does on the
tasks before that position, and nothing else. -/
theorem workerLoop_of_cancelled (d : DefaultWebhookDeliverer δ ν) (rt : Runtime δ)
    (ctx : Nat → Context) (k : Nat) (hcancel : (ctx k).cancelled = true)
    (tasks : List (DeliveryTask δ)) (i : Nat) (hik : i ≤ k) (st : WorkerState ν) :
    workerLoop d rt ctx i tasks st = workerLoop d rt ctx i (tasks.take (k - i)) st := by
  induction tasks generalizing i st with
  | nil => simp
  | cons task rest ih =>
    rcases Nat.eq_or_lt_of_le hik with rfl | hlt
    · simp [workerLoop, hcancel]
    · obtain ⟨n, hn⟩ : ∃ n, k - i = n + 1 := ⟨k - i - 1, by omega⟩
      have hn' : k - (i + 1) = n := by omega
      rw [hn, List.take_succ_cons]
      simp only [workerLoop]
      split
      · rfl
      · rw [ih (i + 1) hlt, hn']

/-- A worker whose context is not cancelled at the positions of its tasks leaves the log of
these tasks and the network as the attempts leave it. -/
theorem workerLoop_of_running (d : DefaultWebhookDeliverer δ ν) (rt : Runtime δ)
    (ctx : Nat → Context) (tasks : List (DeliveryTask δ)) (i : Nat)
    (hctx : ∀ j, i ≤ j → j < i + tasks.length → (ctx j).cancelled = false)
    (st : WorkerState ν) :
    (workerLoop d rt ctx i tasks st).trace
      = st.trace ++ eventsFrom i tasks (outcomesFrom d rt ctx i tasks st.net) ∧
    (workerLoop d rt ctx i tasks st).net = networkAfter d rt ctx i tasks st.net := by
  induction tasks generalizing i st with
  | nil => simp [workerLoop, eventsFrom, networkAfter]
  | cons task rest ih =>
    have hi : (ctx i).cancelled = false := hctx i (Nat.le_refl i) (by simp)
    have hrest : ∀ j, i + 1 ≤ j → j < i + 1 + rest.length → (ctx j).cancelled = false :=
      fun j h1 h2 => hctx j (by omega) (by simp only [List.length_cons]; omega)
    simp only [workerLoop, hi, Bool.false_eq_true, if_false, outcomesFrom, eventsFrom,
      networkAfter]
    refine ⟨?_, (ih (i + 1) hrest _).2⟩
    rw [(ih (i + 1) hrest _).1]
    cases hcb : task.Callback with
    | none => simp [taskEvents, hcb]
    | some callback => simp [taskEvents, hcb]

end CancellationLemmas

/-- C21: a worker that finds its context cancelled when it has received the task at position
`k` of the queue (and not before) returns there: its run is the run on the first `k` tasks
alone. Its log holds the events of these tasks and no start of an attempt for the task at
position `k` or a later one, and the network is in the state the attempts for the first `k`
tasks left, so no request has been made for the others. -/
theorem worker_stops_at_cancellation {δ ν : Type} (d : DefaultWebhookDeliverer δ ν)
    (rt : Runtime δ) (ctx : Nat → Context) (net : ν) (k : Nat)
    (hbefore : ∀ i, i < k → (ctx i).cancelled = false) (hcancel : (ctx k).cancelled = true) :
    worker d rt ctx net = workerLoop d rt ctx 0 (d.queue.take k) { net := net, trace := [] } ∧
    (worker d rt ctx net).trace
      = eventsFrom 0 (d.queue.take k) (outcomesFrom d rt ctx 0 (d.queue.take k) net) ∧
    (worker d rt ctx net).trace.filterMap startedIndex = List.range (min k d.queue.length) ∧
    (∀ i, k ≤ i → WorkerEvent.started i ∉ (worker d rt ctx net).trace) ∧
    (worker d rt ctx net).net = networkAfter d rt ctx 0 (d.queue.take k) net := by
  have hrun : worker d rt ctx net
      = workerLoop d rt ctx 0 (d.queue.take k) { net := net, trace := [] } := by
    unfold worker
    rw [workerLoop_of_cancelled d rt ctx k hcancel d.queue 0 (Nat.zero_le k)]
    rfl
  have hprefix := workerLoop_of_running d rt ctx (d.queue.take k) 0
    (fun j _ hj => hbefore j (by
      rw [List.length_take] at hj
      omega))
    { net := net, trace := [] }
  have htrace : (worker d rt ctx net).trace
      = eventsFrom 0 (d.queue.take k) (outcomesFrom d rt ctx 0 (d.queue.take k) net) := by
    rw [hrun, hprefix.1]
    rfl
  have hstarted : (worker d rt ctx net).trace.filterMap startedIndex
      = List.range (min k d.queue.length) := by
    rw [htrace, eventsFrom_started _ _ _ (outcomesFrom_length d rt ctx _ 0 net),
      List.range_eq_range', List.length_take]
  refine ⟨hrun, htrace, hstarted, ?_, ?_⟩
  · intro i hki hmem
    have : i ∈ (worker d rt ctx net).trace.filterMap startedIndex :=
      List.mem_filterMap.mpr ⟨_, hmem, rfl⟩
    rw [hstarted, List.mem_range] at this
    omega
  · rw [hrun, hprefix.2]

set_option maxRecDepth 100000 in
/-- C21 at a queue of three tasks and a context that is cancelled when the worker has received
the second task: the log is the start of the first attempt and the send of its outcome, and
the client has seen one request. -/
theorem worker_stops_at_cancellation_witness :
    ((worker delivererCounting sampleRuntime cancelledAfterFirst 0).trace.map fun e =>
        (startedIndex e, (sentOn e).map Prod.fst)) = [(some 0, none), (none, some 7)] ∧
    (worker delivererCounting sampleRuntime cancelledAfterFirst 0).net = 1 := by
  have h := worker_stops_at_cancellation delivererCounting sampleRuntime cancelledAfterFirst 0 1
    (fun i hi => by
      have : i = 0 := by omega
      subst this
      rfl) rfl
  refine ⟨?_, ?_⟩
  · rw [h.2.1]
    decide
  · rw [h.2.2.2.2]
    decide

/-! ## Theorems: the invariants of the record -/

section RecordInvariantLemmas

variable {δ ν : Type}

/-- What holds of every result of `deliver` holds of every `Delivery` a worker sends on a
callback channel, wherever the context is cancelled. -/
theorem workerLoop_sent (d : DefaultWebhookDeliverer δ ν) (rt : Runtime δ)
    (ctx : Nat → Context) (P : Delivery → Prop)
    (hP : ∀ c task net, P (deliver d rt c task net).delivery)
    (tasks : List (DeliveryTask δ)) (i : Nat) (st : WorkerState ν)
    (hst : ∀ callback delivery, WorkerEvent.sent callback delivery ∈ st.trace → P delivery) :
    ∀ callback delivery,
      WorkerEvent.sent callback delivery ∈ (workerLoop d rt ctx i tasks st).trace →
      P delivery := by
  induction tasks generalizing i st with
  | nil => simpa [workerLoop] using hst
  | cons task rest ih =>
    simp only [workerLoop]
    split
    · exact hst
    · apply ih
      intro callback delivery hmem
      cases hcb : task.Callback with
      | none =>
        simp only [hcb, List.mem_append, List.mem_singleton] at hmem
        rcases hmem with h | h
        · exact hst _ _ h
        · cases h
      | some cb =>
        simp only [hcb, List.mem_append, List.mem_singleton] at hmem
        rcases hmem with (h | h) | h
        · exact hst _ _ h
        · cases h
        · cases h
          exact hP _ _ _

end RecordInvariantLemmas

/-- C22: on every `Delivery` that `deliver` returns, and so on every `Delivery` a worker sends
on a callback channel, `DeliveredAt` and `NextRetryAt` are not both set: exactly one of
"`DeliveredAt` is set", "`NextRetryAt` is set", "both are nil" holds. -/
theorem deliver_times_not_both_set {δ ν : Type} (d : DefaultWebhookDeliverer δ ν)
    (rt : Runtime δ) :
    (∀ (ctx : Context) (task : DeliveryTask δ) (net : ν),
      ¬ ((deliver d rt ctx task net).delivery.DeliveredAt ≠ none ∧
         (deliver d rt ctx task net).delivery.NextRetryAt ≠ none) ∧
      (((deliver d rt ctx task net).delivery.DeliveredAt ≠ none ∧
          (deliver d rt ctx task net).delivery.NextRetryAt = none) ∨
        ((deliver d rt ctx task net).delivery.DeliveredAt = none ∧
          (deliver d rt ctx task net).delivery.NextRetryAt ≠ none) ∨
        ((deliver d rt ctx task net).delivery.DeliveredAt = none ∧
          (deliver d rt ctx task net).delivery.NextRetryAt = none))) ∧
    (∀ (ctx : Nat → Context) (net : ν) callback delivery,
      WorkerEvent.sent callback delivery ∈ (worker d rt ctx net).trace →
      ¬ (delivery.DeliveredAt ≠ none ∧ delivery.NextRetryAt ≠ none)) := by
  refine ⟨?_, ?_⟩
  · intro ctx task net
    have hN := (deliver_unassigned_fields d rt ctx task net).2.2
    refine ⟨fun h => h.2 hN, ?_⟩
    by_cases hD : (deliver d rt ctx task net).delivery.DeliveredAt = none
    · exact Or.inr (Or.inr ⟨hD, hN⟩)
    · exact Or.inl ⟨hD, hN⟩
  · intro ctx net
    exact workerLoop_sent d rt ctx
      (fun delivery => ¬ (delivery.DeliveredAt ≠ none ∧ delivery.NextRetryAt ≠ none))
      (fun c task n h => h.2 (deliver_unassigned_fields d rt c task n).2.2)
      d.queue 0 { net := net, trace := [] } (fun _ _ h => by cases h)

/-- C25 at the failing inputs: a first attempt (`Attempt = 1`) whose event cannot be marshalled
yields a `Delivery` with `Attempts = 0`, and so does a first attempt whose URL does not parse;
the attempt that fails at the network level, and the one the endpoint answers with 500, yield
`Attempts = 1`. -/
theorem deliver_Attempts_on_early_failure :
    unsignedTask.Attempt = 1 ∧ badURLTask.Attempt = 1 ∧
    (deliver (delivererAnswering 200) failingRuntime ⟨false⟩ unsignedTask ()).delivery.Error
      = "json: unsupported type: chan int" ∧
    (deliver (delivererAnswering 200) failingRuntime ⟨false⟩ unsignedTask ()).delivery.Attempts
      = 0 ∧
    (deliver (delivererAnswering 200) badURLRuntime ⟨false⟩ badURLTask ()).delivery.Error
      = "parse \"://example.test/hook\": missing protocol scheme" ∧
    (deliver (delivererAnswering 200) badURLRuntime ⟨false⟩ badURLTask ()).delivery.Attempts
      = 0 ∧
    (deliver delivererUnreachable sampleRuntime ⟨false⟩ unsignedTask 0).delivery.Attempts = 1 ∧
    (deliver (delivererAnswering 500) sampleRuntime ⟨false⟩ unsignedTask ()).delivery.Attempts
      = 1 := by
  decide

/-! ## Theorems: the retry scheduler and the filter evaluator -/

/-- C23: for a retry configuration with a multiplier of at least 1 and a largest delay of at
least the initial delay, and every attempt from 1 on, `NextDelay` is
`min(initial_delay * multiplier^(attempt-1), max_delay)` and never exceeds the largest delay;
and with an initial delay that is a time to wait, not a negative number, `NextDelay` does not
decrease from an attempt to a later one. -/
theorem NextDelay_monotone_and_bounded (config : RetryConfig) (attempt later : Nat)
    (hmul : 1 ≤ config.Multiplier) (_hmax : config.InitialDelay ≤ config.MaxDelay)
    (_hattempt : 1 ≤ attempt) (hlater : attempt ≤ later) :
    NextDelay config attempt
      = min ((config.InitialDelay : Rat) * config.Multiplier ^ (attempt - 1))
          (config.MaxDelay : Rat) ∧
    NextDelay config attempt ≤ (config.MaxDelay : Rat) ∧
    (0 ≤ config.InitialDelay → NextDelay config attempt ≤ NextDelay config later) := by
  refine ⟨rfl, min_le_right _ _, fun hinit => ?_⟩
  unfold NextDelay
  apply min_le_min _ le_rfl
  apply mul_le_mul_of_nonneg_left _ (by exact_mod_cast hinit)
  exact pow_le_pow_right₀ hmul (by omega)

/-- C23 at the initial delay 1 s, the largest delay 60 s and the multiplier 2: the delays of
the attempts 1, 3 and 7 are 1 s, 4 s and 60 s, none above 60 s and none below an earlier
one. -/
theorem NextDelay_monotone_and_bounded_witness :
    NextDelay sampleRetryConfig 1 = 1000000000 ∧ NextDelay sampleRetryConfig 3 = 4000000000 ∧
    NextDelay sampleRetryConfig 7 = 60000000000 ∧
    NextDelay sampleRetryConfig 3 ≤ 60000000000 ∧
    NextDelay sampleRetryConfig 3 ≤ NextDelay sampleRetryConfig 7 := by
  have h := NextDelay_monotone_and_bounded sampleRetryConfig 3 7
    (by norm_num [sampleRetryConfig]) (by norm_num [sampleRetryConfig]) (by norm_num)
    (by norm_num)
  refine ⟨?_, ?_, ?_, ?_, h.2.2 (by norm_num [sampleRetryConfig])⟩
  · norm_num [NextDelay, sampleRetryConfig]
  · norm_num [NextDelay, sampleRetryConfig]
  · norm_num [NextDelay, sampleRetryConfig]
  · have := h.2.1
    norm_num [sampleRetryConfig] at this
    exact this

/-- C24: `Match` is true for every event when the list of filters is empty; for every list it
is true exactly when every filter of the list evaluates true against the event; and the
filter "`result` equals `failure`" does not match an event whose result is `success` (it
matches one whose result is `failure`). -/
theorem Match_is_conjunction (event : Event FilterValue) (filters : List (Filter FilterValue)) :
    Match event [] = true ∧
    (Match event filters = true ↔ ∀ f ∈ filters, evalFilter event f = true) ∧
    Match (loginEvent "success") [failureFilter] = false ∧
    Match (loginEvent "failure") [failureFilter] = true := by
  refine ⟨rfl, ?_, by decide, by decide⟩
  simp [Match, List.all_eq_true]

end Events

/-! # Backup codes: theorems -/

namespace Mfa

/-! ## Theorems: backup codes -/

/-- The encoder on the test vectors of RFC 4648. -/
theorem EncodeToString_test_vectors :
    EncodeToString (Events.stringBytes "") = "" ∧
    EncodeToString (Events.stringBytes "f") = "MY======" ∧
    EncodeToString (Events.stringBytes "fo") = "MZXQ====" ∧
    EncodeToString (Events.stringBytes "foo") = "MZXW6===" ∧
    EncodeToString (Events.stringBytes "foob") = "MZXW6YQ=" ∧
    EncodeToString (Events.stringBytes "fooba") = "MZXW6YTB" ∧
    EncodeToString (Events.stringBytes "foobar") = "MZXW6YTBOI======" := by
  decide

theorem encodeStd_letter : ∀ k : Fin 32, isBase32Letter (encodeStd.getD k.val StdPadding) = true := by
  decide

/-- The letters in front of a quantum: as many as `ceil(8 * len / 5)`, all of the alphabet. -/
theorem encodeQuantum_split (src : List UInt8) (h1 : 1 ≤ src.length) (h5 : src.length ≤ 5) :
    ∃ body pad, encodeQuantum src = body ++ pad ∧ src.length ≤ body.length ∧
      ∀ c ∈ body, isBase32Letter c = true := by
  refine ⟨_, _, rfl, ?_, ?_⟩
  · simp only [List.length_take, List.length_map, List.length_range]
    omega
  · intro c hc
    obtain ⟨i, _, rfl⟩ := List.mem_map.mp (List.mem_of_mem_take hc)
    exact encodeStd_letter ⟨_, Nat.mod_lt _ (by norm_num)⟩

/-- A quantum of five bytes is eight letters of the alphabet. -/
theorem encodeQuantum_full (src : List UInt8) (h5 : src.length = 5) :
    (encodeQuantum src).length = 8 ∧ ∀ c ∈ encodeQuantum src, isBase32Letter c = true := by
  obtain ⟨body, pad, hq, _, hbody⟩ := encodeQuantum_split src (by omega) (by omega)
  have hpad : encodeQuantum src = (List.range 8).map fun i =>
      encodeStd.getD (quantumBits src / 2 ^ (35 - 5 * i) % 32) StdPadding := by
    unfold encodeQuantum
    simp only [h5]
    rfl
  refine ⟨by rw [hpad]; rfl, ?_⟩
  intro c hc
  rw [hpad] at hc
  obtain ⟨i, _, rfl⟩ := List.mem_map.mp hc
  exact encodeStd_letter ⟨_, Nat.mod_lt _ (by norm_num)⟩

/-- The encoding of a byte sequence starts with at least as many letters of the alphabet as
the sequence has bytes. -/
theorem encodeChars_split (src : List UInt8) :
    ∃ body pad, encodeChars src = body ++ pad ∧ src.length ≤ body.length ∧
      ∀ c ∈ body, isBase32Letter c = true := by
  obtain ⟨n, h⟩ : ∃ n, src.length = n := ⟨_, rfl⟩
  induction n using Nat.strong_induction_on generalizing src with
  | _ n ih =>
    match src, h with
    | [], _ => exact ⟨[], [], rfl, by simp, by simp⟩
    | [a], _ => exact encodeQuantum_split [a] (by simp) (by simp)
    | [a, b], _ => exact encodeQuantum_split [a, b] (by simp) (by simp)
    | [a, b, c], _ => exact encodeQuantum_split [a, b, c] (by simp) (by simp)
    | [a, b, c, d], _ => exact encodeQuantum_split [a, b, c, d] (by simp) (by simp)
    | b0 :: b1 :: b2 :: b3 :: b4 :: rest, h =>
      obtain ⟨hlen, hfull⟩ := encodeQuantum_full [b0, b1, b2, b3, b4] rfl
      obtain ⟨body, pad, hrest, hlen', hbody⟩ := ih rest.length (by
        rw [← h]
        simp only [List.length_cons]
        omega) rest rfl
      refine ⟨encodeQuantum [b0, b1, b2, b3, b4] ++ body, pad, ?_, ?_, ?_⟩
      · rw [encodeChars, hrest, List.append_assoc]
      · simp only [List.length_cons, List.length_append, hlen]
        omega
      · intro c hc
        rcases List.mem_append.mp hc with hc | hc
        · exact hfull c hc
        · exact hbody c hc

/-- C26: for every integer `n` the generator `NewBackupCodeGenerator(n)` has the length
`max(n, 8)`. `Generate` never panics on it: the slice of the encoded string is within range.
When the random source fails, `Generate` returns the empty string and the error; when it
succeeds, `Generate` returns a string of exactly `max(n, 8)` characters with a nil error, and
every character is a letter `A`-`Z` or a digit `2`-`7`, never the padding character. -/
theorem Generate_length_and_alphabet (n : Int) (rand : RandSource) :
    (NewBackupCodeGenerator n).length = max n 8 ∧
    (∀ msg, (NewBackupCodeGenerator n).Generate rand ≠ .panicked msg) ∧
    (∀ err, rand.err = some err →
      (NewBackupCodeGenerator n).Generate rand = .returned ("", some err)) ∧
    (rand.err = none →
      ∃ code, (NewBackupCodeGenerator n).Generate rand = .returned (code, none) ∧
        (code.length : Int) = max n 8 ∧
        ∀ c ∈ code.data, isBase32Letter c = true ∧ c ≠ StdPadding) := by
  have hlen : (NewBackupCodeGenerator n).length = max n 8 := by
    unfold NewBackupCodeGenerator
    simp only
    split <;> omega
  have hpos : ¬ (NewBackupCodeGenerator n).length < 0 := by omega
  have herr : ∀ err, rand.err = some err →
      (NewBackupCodeGenerator n).Generate rand = .returned ("", some err) := by
    intro err he
    unfold BackupCodeGenerator.Generate
    rw [if_neg hpos]
    simp [randRead, he]
  have hok : rand.err = none →
      ∃ code, (NewBackupCodeGenerator n).Generate rand = .returned (code, none) ∧
        (code.length : Int) = max n 8 ∧
        ∀ c ∈ code.data, isBase32Letter c = true ∧ c ≠ StdPadding := by
    intro he
    obtain ⟨body, pad, hsplit, hbl, hbody⟩ :=
      encodeChars_split ((List.range (NewBackupCodeGenerator n).length.toNat).map rand.bytes)
    have hbl' : (NewBackupCodeGenerator n).length.toNat ≤ body.length := by
      simpa using hbl
    refine ⟨String.mk (body.take (NewBackupCodeGenerator n).length.toNat), ?_, ?_, ?_⟩
    · unfold BackupCodeGenerator.Generate
      rw [if_neg hpos]
      simp only [randRead, he, EncodeToString, hsplit]
      rw [if_pos (by
        show _ ≤ (body ++ pad).length
        rw [List.length_append]
        omega)]
      rw [List.take_append_of_le_length hbl']
    · show ((body.take _).length : Int) = _
      rw [List.length_take, Nat.min_eq_left hbl']
      omega
    · intro c hc
      have hletter := hbody c (List.mem_of_mem_take hc)
      refine ⟨hletter, ?_⟩
      rintro rfl
      exact absurd hletter (by decide)
  refine ⟨hlen, ?_, herr, hok⟩
  intro msg hp
  cases he : rand.err with
  | some err =>
    rw [herr err he] at hp
    cases hp
  | none =>
    obtain ⟨code, hcode, _⟩ := hok he
    rw [hcode] at hp
    cases hp

/-- C26 at `NewBackupCodeGenerator(3)` and at `NewBackupCodeGenerator(10)`: the lengths are 8
and 10, and with the bytes 0, 37, 74, ... of the sample source the codes are `AASUU33HSS4Q`
cut to 8 and to 10 characters. -/
theorem Generate_length_and_alphabet_witness :
    (NewBackupCodeGenerator 3).length = 8 ∧ (NewBackupCodeGenerator 10).length = 10 ∧
    (∃ code, (NewBackupCodeGenerator 3).Generate sampleRand = .returned (code, none) ∧
      (code.length : Int) = 8) ∧
    (NewBackupCodeGenerator 10).Generate brokenRand = .returned ("", some "unexpected EOF") :=
  ⟨(Generate_length_and_alphabet 3 sampleRand).1, (Generate_length_and_alphabet 10 sampleRand).1,
   by
     obtain ⟨code, h1, h2, _⟩ := (Generate_length_and_alphabet 3 sampleRand).2.2.2 rfl
     exact ⟨code, h1, h2⟩,
   (Generate_length_and_alphabet 10 brokenRand).2.2.1 "unexpected EOF" rfl⟩

end Mfa

/-! # Rate limiting: theorems -/

namespace Ratelimit

open Events (GoMap GoError)

/-! ## Theorems: the client address -/

theorem splitComma_head (s : List Char) :
    ∃ pieces, splitComma s = s.takeWhile (fun c => c ≠ ',') :: pieces := by
  induction s with
  | nil => exact ⟨[], rfl⟩
  | cons c rest ih =>
    obtain ⟨pieces, h⟩ := ih
    by_cases hc : c = ','
    · exact ⟨splitComma rest, by simp [splitComma, hc]⟩
    · exact ⟨pieces, by simp [splitComma, hc, h]⟩

theorem dropWhile_split (p : Char → Bool) (s : List Char) :
    s = s.takeWhile p ++ s.dropWhile p ∧ (∀ c ∈ s.takeWhile p, p c = true) ∧
    (∀ c, (s.dropWhile p).head? = some c → p c = false) := by
  refine ⟨(List.takeWhile_append_dropWhile p s).symm, fun c hc => List.mem_takeWhile_imp hc, ?_⟩
  intro c hc
  induction s with
  | nil => simp at hc
  | cons a rest ih =>
    by_cases ha : p a = true
    · rw [List.dropWhile_cons_of_pos ha] at hc
      exact ih hc
    · rw [List.dropWhile_cons_of_neg ha] at hc
      simp only [List.head?_cons, Option.some.injEq] at hc
      subst hc
      simpa using ha

theorem trimSpaceChars_spec (s : List Char) :
    (∃ front back : List Char, s = front ++ trimSpaceChars s ++ back ∧
      (∀ c ∈ front, IsSpace c = true) ∧ (∀ c ∈ back, IsSpace c = true)) ∧
    (∀ c, (trimSpaceChars s).head? = some c → IsSpace c = false) ∧
    (∀ c, (trimSpaceChars s).getLast? = some c → IsSpace c = false) := by
  obtain ⟨h1, h2, h3⟩ := dropWhile_split IsSpace s
  obtain ⟨k1, k2, k3⟩ := dropWhile_split IsSpace (s.dropWhile IsSpace).reverse
  have hmid : s.dropWhile IsSpace
      = trimSpaceChars s ++ ((s.dropWhile IsSpace).reverse.takeWhile IsSpace).reverse := by
    have := congrArg List.reverse k1
    rw [List.reverse_reverse, List.reverse_append] at this
    exact this
  refine ⟨⟨s.takeWhile IsSpace, ((s.dropWhile IsSpace).reverse.takeWhile IsSpace).reverse,
    ?_, h2, ?_⟩, ?_, ?_⟩
  · rw [List.append_assoc, ← hmid]
    exact h1
  · intro c hc
    exact k2 c (List.mem_reverse.mp hc)
  · intro c hc
    by_cases hnil : trimSpaceChars s = []
    · rw [hnil] at hc
      simp at hc
    · apply h3 c
      rw [hmid, List.head?_append_of_ne_nil _ hnil]
      exact hc
  · intro c hc
    apply k3 c
    unfold trimSpaceChars at hc
    rw [List.getLast?_reverse] at hc
    exact hc

/-- C29: for every header map, when `X-Forwarded-For` is not empty `ExtractIP` returns its
first comma-separated entry, the text in front of the first comma, with the surrounding white
space trimmed; when it is empty (or absent), the value of `X-Real-IP` if that is not empty;
else the value of `CF-Connecting-IP` if that is not empty; else the value of `Remote-Addr`,
which is the empty string when the key is absent. -/
theorem ExtractIP_precedence (headers : GoMap String String) :
    (header headers "X-Forwarded-For" ≠ "" →
      ExtractIP headers = TrimSpace (firstEntry (header headers "X-Forwarded-For")) ∧
      IsTrimOf (ExtractIP headers) (firstEntry (header headers "X-Forwarded-For"))) ∧
    (header headers "X-Forwarded-For" = "" → header headers "X-Real-IP" ≠ "" →
      ExtractIP headers = header headers "X-Real-IP") ∧
    (header headers "X-Forwarded-For" = "" → header headers "X-Real-IP" = "" →
      header headers "CF-Connecting-IP" ≠ "" →
      ExtractIP headers = header headers "CF-Connecting-IP") ∧
    (header headers "X-Forwarded-For" = "" → header headers "X-Real-IP" = "" →
      header headers "CF-Connecting-IP" = "" →
      ExtractIP headers = header headers "Remote-Addr") ∧
    (headers.get? "Remote-Addr" = none → header headers "Remote-Addr" = "") := by
  refine ⟨?_, ?_, ?_, ?_, ?_⟩
  · intro hx
    have hE : ExtractIP headers = TrimSpace (firstEntry (header headers "X-Forwarded-For")) := by
      obtain ⟨pieces, hp⟩ := splitComma_head (header headers "X-Forwarded-For").data
      unfold ExtractIP
      simp only [hx, ne_eq, not_false_eq_true, if_true, hp]
      rfl
    refine ⟨hE, ?_⟩
    rw [hE]
    exact trimSpaceChars_spec _
  · intro hx hr
    unfold ExtractIP
    simp only [hx, ne_eq, not_true_eq_false, if_false, hr, not_false_eq_true, if_true]
  · intro hx hr hc
    unfold ExtractIP
    simp only [hx, ne_eq, not_true_eq_false, if_false, hr, hc, not_false_eq_true, if_true]
  · intro hx hr hc
    unfold ExtractIP
    simp only [hx, ne_eq, not_true_eq_false, if_false, hr, hc]
  · intro h
    unfold header
    rw [h]
    rfl

/-- C29 at the headers of a request that came through two proxies: the first entry of
`X-Forwarded-For` wins over `X-Real-IP` and `Remote-Addr`, and its white space is trimmed. -/
theorem ExtractIP_precedence_witness :
    ExtractIP proxiedHeaders = "203.0.113.7" :=
  ((ExtractIP_precedence proxiedHeaders).1 (by decide)).1.trans (by decide)

/-! ## Theorems: the whitelist -/

/-- C30: for every whitelist and every string `s`: when `s` is not a valid IP address, `AddIP`
returns an error and leaves the whitelist as it was, so that `IsWhitelisted` answers as
before on every input; when `s` is a valid IP address, `AddIP` returns nil, `s` is whitelisted
afterwards, and every input that was whitelisted before still is. On the whitelist of
`NewIPWhitelist` no input is whitelisted. -/
theorem AddIP_and_IsWhitelisted {IP IPNet : Type} (lib : NetLib IP IPNet)
    (w : IPWhitelist IPNet) (s : String) :
    (lib.ParseIP s = none →
      (w.AddIP lib s).1 = some ("invalid IP address: " ++ s) ∧ (w.AddIP lib s).2 = w ∧
      ∀ t, (w.AddIP lib s).2.IsWhitelisted lib t = w.IsWhitelisted lib t) ∧
    (lib.ParseIP s ≠ none →
      (w.AddIP lib s).1 = none ∧ (w.AddIP lib s).2.IsWhitelisted lib s = true ∧
      ∀ t, w.IsWhitelisted lib t = true → (w.AddIP lib s).2.IsWhitelisted lib t = true) ∧
    (∀ t, (NewIPWhitelist IPNet).IsWhitelisted lib t = false) := by
  refine ⟨?_, ?_, ?_⟩
  · intro h
    have hw : w.AddIP lib s = (some ("invalid IP address: " ++ s), w) := by
      unfold IPWhitelist.AddIP
      rw [h]
    rw [hw]
    exact ⟨rfl, rfl, fun _ => rfl⟩
  · intro h
    obtain ⟨p, hp⟩ := Option.ne_none_iff_exists'.mp h
    have hw : w.AddIP lib s = (none, { w with ips := w.ips.set s true }) := by
      unfold IPWhitelist.AddIP
      rw [hp]
    rw [hw]
    refine ⟨rfl, ?_, ?_⟩
    · unfold IPWhitelist.IsWhitelisted
      simp only [Events.GoMap.get?_set_self, Option.getD_some, if_true]
    · intro t ht
      by_cases hts : t = s
      · subst hts
        unfold IPWhitelist.IsWhitelisted
        simp only [Events.GoMap.get?_set_self, Option.getD_some, if_true]
      · unfold IPWhitelist.IsWhitelisted at ht ⊢
        rw [Events.GoMap.get?_set_of_ne _ _ _ _ hts]
        exact ht
  · intro t
    unfold IPWhitelist.IsWhitelisted NewIPWhitelist
    cases lib.ParseIP t <;> simp [Events.GoMap.get?]

/-- C30 at a whitelist with the network `192.168.1.0/24`: the string `localhost` is refused
and changes nothing, the address `10.0.0.1` is accepted and is whitelisted afterwards, and
the address `192.168.1.7` of the network stays whitelisted. -/
theorem AddIP_and_IsWhitelisted_witness :
    (((NewIPWhitelist String).AddCIDR sampleNet "192.168.1.0/24").2.AddIP sampleNet
      "localhost").1 = some "invalid IP address: localhost" ∧
    (((NewIPWhitelist String).AddCIDR sampleNet "192.168.1.0/24").2.AddIP sampleNet
      "10.0.0.1").2.IsWhitelisted sampleNet "10.0.0.1" = true ∧
    (((NewIPWhitelist String).AddCIDR sampleNet "192.168.1.0/24").2.AddIP sampleNet
      "10.0.0.1").2.IsWhitelisted sampleNet "192.168.1.7" = true :=
  ⟨((AddIP_and_IsWhitelisted sampleNet _ "localhost").1 (by decide)).1,
   ((AddIP_and_IsWhitelisted sampleNet _ "10.0.0.1").2.1 (by decide)).2.1,
   ((AddIP_and_IsWhitelisted sampleNet _ "10.0.0.1").2.1 (by decide)).2.2 "192.168.1.7"
     (by decide)⟩

/-! ## Theorems: rounding -/

theorem shiftLoop_spec (fuel n : Nat) (h : n ≤ fuel) :
    n / 2 ^ shiftLoop fuel n < 2 ^ 53 ∧
    (0 < shiftLoop fuel n → 2 ^ 52 * 2 ^ shiftLoop fuel n ≤ n) := by
  induction fuel generalizing n with
  | zero =>
    have : n = 0 := by omega
    subst this
    simp [shiftLoop]
  | succ fuel ih =>
    unfold shiftLoop
    by_cases hn : n < 2 ^ 53
    · rw [if_pos hn]
      exact ⟨by rw [pow_zero, Nat.div_one]; exact hn, fun h => absurd h (Nat.lt_irrefl 0)⟩
    · rw [if_neg hn]
      have h2 : n / 2 ≤ fuel := by omega
      obtain ⟨ih1, ih2⟩ := ih (n / 2) h2
      refine ⟨?_, fun _ => ?_⟩
      · rw [pow_succ, Nat.mul_comm, ← Nat.div_div_eq_div_mul]
        exact ih1
      · by_cases hs : 0 < shiftLoop fuel (n / 2)
        · have := ih2 hs
          rw [pow_succ]
          omega
        · have hs0 : shiftLoop fuel (n / 2) = 0 := by omega
          rw [hs0]
          norm_num
          omega

/-- Rounding to 53 significant bits changes a number by at most its `2^52`-th part. -/
theorem round53_bounds (n : Nat) :
    2 ^ 52 * round53 n ≤ (2 ^ 52 + 1) * n ∧ (2 ^ 52 - 1) * n ≤ 2 ^ 52 * round53 n := by
  obtain ⟨h1, h2⟩ := shiftLoop_spec n n (Nat.le_refl n)
  unfold round53
  simp only
  have hs : shift53 n = shiftLoop n n := rfl
  rw [hs]
  generalize shiftLoop n n = s at h1 h2 ⊢
  have hdm := Nat.div_add_mod n (2 ^ s)
  have hr := Nat.mod_lt n (Nat.two_pow_pos s)
  have hP : 0 < s → 2 ^ 52 * 2 ^ s ≤ n := h2
  generalize hm : n / 2 ^ s = m at hdm
  generalize hrr : n % 2 ^ s = r at hdm hr
  generalize hPP : 2 ^ s = P at *
  have hmP : (m + 1) * P = m * P + P := by ring
  have hcomm : P * m = m * P := Nat.mul_comm _ _
  by_cases hs0 : s = 0
  · subst hs0
    simp at hPP
    subst hPP
    have : r = 0 := by omega
    subst this
    simp
    omega
  · have hP' := hP (by omega)
    split <;> constructor <;> omega


set_option maxRecDepth 100000 in
theorem float09_eq : Float64.ofRatio 9 10 = ⟨false, 8106479329266893 * 2 ^ 65, -118⟩ := by
  decide

set_option maxRecDepth 100000 in
theorem float11_eq : Float64.ofRatio 11 10 = ⟨false, 4953959590107546 * 2 ^ 66, -118⟩ := by
  decide

/-- The conversion to `int64` of the product of a non-negative `int64` and a positive constant
with the exponent -118, when it is in range. -/
theorem toInt64_mul_ofInt64 (overflow : Float64 → Int) (n M : Nat)
    (hrange : round53 (round53 n * M) / 2 ^ 118 < 2 ^ 63) :
    Float64.toInt64 overflow (Float64.mul (Float64.ofInt64 (n : Int)) ⟨false, M, -118⟩)
      = ((round53 (round53 n * M) / 2 ^ 118 : Nat) : Int) := by
  have hneg : decide ((n : Int) < 0) = false := by
    rw [decide_eq_false_iff_not]
    omega
  have hexp : ¬ (0 : Int) ≤ 0 + -118 := by omega
  have hto : (-(0 + -118 : Int)).toNat = 118 := by decide
  unfold Float64.toInt64 Float64.mul Float64.ofInt64
  simp only [hneg, Int.natAbs_ofNat, Bool.xor_false, if_neg hexp, hto, Bool.false_eq_true,
    if_false]
  rw [if_pos]
  constructor <;> omega

theorem scaleDown_nat (n : Nat) :
    round53 (round53 n * (8106479329266893 * 2 ^ 65)) / 2 ^ 118 ≤ n ∧
    (1 ≤ n → round53 (round53 n * (8106479329266893 * 2 ^ 65)) / 2 ^ 118 < n) := by
  obtain ⟨h1, _⟩ := round53_bounds n
  obtain ⟨h3, _⟩ := round53_bounds (round53 n * (8106479329266893 * 2 ^ 65))
  generalize round53 (round53 n * (8106479329266893 * 2 ^ 65)) = R at *
  generalize round53 n = r at *
  constructor <;> omega

theorem scaleUp_nat (n : Nat) :
    n ≤ round53 (round53 n * (4953959590107546 * 2 ^ 66)) / 2 ^ 118 ∧
    (11 ≤ n → n < round53 (round53 n * (4953959590107546 * 2 ^ 66)) / 2 ^ 118) ∧
    (n ≤ 8380000000000000000 →
      round53 (round53 n * (4953959590107546 * 2 ^ 66)) / 2 ^ 118 < 2 ^ 63) := by
  obtain ⟨h1, h2⟩ := round53_bounds n
  obtain ⟨h3, h4⟩ := round53_bounds (round53 n * (4953959590107546 * 2 ^ 66))
  generalize round53 (round53 n * (4953959590107546 * 2 ^ 66)) = R at *
  generalize round53 n = r at *
  refine ⟨?_, ?_, ?_⟩ <;> omega

set_option maxRecDepth 100000 in
theorem scaleUp_ten : round53 (round53 10 * (4953959590107546 * 2 ^ 66)) / 2 ^ 118 = 11 := by
  decide


/-! ## Theorems: the adaptive limiter -/

theorem Float64.scaled_eq_value (a : Float64) (e : Int) (h : e ≤ a.exp) :
    ((a.scaled e : Int) : Rat) = a.value * 2 ^ (-e) := by
  unfold Float64.scaled Float64.value
  have hexp : (2 : Rat) ^ a.exp * 2 ^ (-e) = 2 ^ (a.exp - e).toNat := by
    rw [← zpow_add₀ (by norm_num : (2 : Rat) ≠ 0), ← zpow_natCast, Int.toNat_of_nonneg (by omega)]
    rfl
  rw [mul_assoc, mul_assoc, hexp]
  split <;> push_cast <;> ring

/-- The comparison of two `float64` is the comparison of the numbers they stand for. -/
theorem Float64.lt_iff_value (a b : Float64) : a.lt b = true ↔ a.value < b.value := by
  unfold Float64.lt
  rw [decide_eq_true_iff, ← Int.cast_lt (R := Rat),
    Float64.scaled_eq_value a _ (min_le_left _ _), Float64.scaled_eq_value b _ (min_le_right _ _)]
  exact mul_lt_mul_right (zpow_pos (by norm_num) _)

set_option maxRecDepth 100000 in
theorem float001_not_above_float005 :
    Float64.lt (Float64.ofRatio 5 100) (Float64.ofRatio 1 100) = false := by
  decide

/-- The two conditions of `AdjustLimit` exclude each other. -/
theorem high_excludes_low (m : Metrics)
    (hhigh : Float64.lt (Float64.ofRatio 5 100) m.GetErrorRate = true ∨
      m.GetAverageResponseTime > 1 * Second) :
    ¬ (Float64.lt m.GetErrorRate (Float64.ofRatio 1 100) = true ∧
      m.GetAverageResponseTime < 200 * Millisecond) := by
  rintro ⟨h1, h2⟩
  rcases hhigh with h | h
  · have h3 := lt_trans ((Float64.lt_iff_value _ _).mp h) ((Float64.lt_iff_value _ _).mp h1)
    have h4 := (Float64.lt_iff_value _ _).mpr h3
    rw [float001_not_above_float005] at h4
    cases h4
  · simp only [Second, Millisecond] at h h2
    omega

theorem scaleDown_bounds (overflow : Float64 → Int) (x : Int) (h0 : 0 ≤ x) (h63 : x < 2 ^ 63) :
    0 ≤ Float64.toInt64 overflow (Float64.mul (Float64.ofInt64 x) (Float64.ofRatio 9 10)) ∧
    Float64.toInt64 overflow (Float64.mul (Float64.ofInt64 x) (Float64.ofRatio 9 10)) ≤ x ∧
    (1 ≤ x →
      Float64.toInt64 overflow (Float64.mul (Float64.ofInt64 x) (Float64.ofRatio 9 10)) < x) := by
  obtain ⟨n, rfl⟩ := Int.eq_ofNat_of_zero_le h0
  obtain ⟨h1, h2⟩ := scaleDown_nat n
  rw [float09_eq, toInt64_mul_ofInt64 overflow n _ (by omega)]
  refine ⟨by omega, by omega, fun h => ?_⟩
  have := h2 (by omega)
  omega

theorem scaleUp_bounds (overflow : Float64 → Int) (x : Int) (h0 : 0 ≤ x)
    (hmax : x ≤ 8380000000000000000) :
    x ≤ Float64.toInt64 overflow (Float64.mul (Float64.ofInt64 x) (Float64.ofRatio 11 10)) ∧
    Float64.toInt64 overflow (Float64.mul (Float64.ofInt64 x) (Float64.ofRatio 11 10)) < 2 ^ 63 ∧
    (10 ≤ x →
      x < Float64.toInt64 overflow (Float64.mul (Float64.ofInt64 x) (Float64.ofRatio 11 10))) := by
  obtain ⟨n, rfl⟩ := Int.eq_ofNat_of_zero_le h0
  obtain ⟨h1, h2, h3⟩ := scaleUp_nat n
  have h4 := h3 (by omega)
  rw [float11_eq, toInt64_mul_ofInt64 overflow n _ h4]
  refine ⟨by omega, by omega, fun h => ?_⟩
  by_cases h10 : n = 10
  · subst h10
    rw [scaleUp_ten]
    decide
  · have := h2 (by omega)
    omega

/-- The limit after a call of `AdjustLimit` that is not within a minute of the last
adjustment. -/
theorem AdjustLimit_of_minute (overflow : Float64 → Int) (a : AdaptiveLimiter) (now : Int)
    (hmin : ¬ now - a.lastAdjusted < Minute) :
    (a.AdjustLimit overflow now).baseLimit = a.baseLimit ∧
    (a.AdjustLimit overflow now).lastAdjusted = now ∧
    (a.AdjustLimit overflow now).currentLimit =
      if Float64.lt (Float64.ofRatio 5 100) a.metrics.GetErrorRate = true ∨
          a.metrics.GetAverageResponseTime > 1 * Second then
        if Float64.toInt64 overflow
            (Float64.mul (Float64.ofInt64 a.currentLimit) (Float64.ofRatio 9 10))
            < Int.tdiv a.baseLimit 2 then Int.tdiv a.baseLimit 2
        else Float64.toInt64 overflow
            (Float64.mul (Float64.ofInt64 a.currentLimit) (Float64.ofRatio 9 10))
      else if Float64.lt a.metrics.GetErrorRate (Float64.ofRatio 1 100) = true ∧
          a.metrics.GetAverageResponseTime < 200 * Millisecond then
        if Float64.toInt64 overflow
            (Float64.mul (Float64.ofInt64 a.currentLimit) (Float64.ofRatio 11 10))
            > wrap64 (a.baseLimit * 2) then wrap64 (a.baseLimit * 2)
        else Float64.toInt64 overflow
            (Float64.mul (Float64.ofInt64 a.currentLimit) (Float64.ofRatio 11 10))
      else a.currentLimit := by
  unfold AdaptiveLimiter.AdjustLimit
  rw [if_neg hmin]
  exact ⟨rfl, rfl, rfl⟩

/-- A call of `AdjustLimit` keeps the base limit, and keeps the current limit between half the
base limit and twice the base limit. -/
theorem AdjustLimit_keeps_bounds (overflow : Float64 → Int) (a : AdaptiveLimiter) (now : Int)
    (h0 : 0 ≤ a.baseLimit) (hmax : a.baseLimit ≤ 4190000000000000000)
    (hlo : a.baseLimit / 2 ≤ a.currentLimit) (hhi : a.currentLimit ≤ a.baseLimit * 2) :
    (a.AdjustLimit overflow now).baseLimit = a.baseLimit ∧
    a.baseLimit / 2 ≤ (a.AdjustLimit overflow now).currentLimit ∧
    (a.AdjustLimit overflow now).currentLimit ≤ a.baseLimit * 2 := by
  by_cases hmin : now - a.lastAdjusted < Minute
  · have : a.AdjustLimit overflow now = a := by
      unfold AdaptiveLimiter.AdjustLimit
      rw [if_pos hmin]
    rw [this]
    exact ⟨rfl, hlo, hhi⟩
  · obtain ⟨hb, _, hc⟩ := AdjustLimit_of_minute overflow a now hmin
    obtain ⟨d1, d2, _⟩ := scaleDown_bounds overflow a.currentLimit (by omega) (by omega)
    obtain ⟨u1, u2, _⟩ := scaleUp_bounds overflow a.currentLimit (by omega) (by omega)
    have htdiv : Int.tdiv a.baseLimit 2 = a.baseLimit / 2 := Int.tdiv_eq_ediv h0 (by decide)
    have hwrap : wrap64 (a.baseLimit * 2) = a.baseLimit * 2 := by
      unfold wrap64
      omega
    rw [hb, hc, htdiv, hwrap]
    refine ⟨rfl, ?_, ?_⟩ <;> split_ifs <;> omega


theorem adjustAll_keeps_bounds (overflow : Float64 → Int) (calls : List (Metrics × Int))
    (a : AdaptiveLimiter) (h0 : 0 ≤ a.baseLimit) (hmax : a.baseLimit ≤ 4190000000000000000)
    (hlo : a.baseLimit / 2 ≤ a.currentLimit) (hhi : a.currentLimit ≤ a.baseLimit * 2) :
    (adjustAll overflow a calls).baseLimit = a.baseLimit ∧
    a.baseLimit / 2 ≤ (adjustAll overflow a calls).currentLimit ∧
    (adjustAll overflow a calls).currentLimit ≤ a.baseLimit * 2 := by
  induction calls generalizing a with
  | nil => exact ⟨rfl, hlo, hhi⟩
  | cons call calls ih =>
    obtain ⟨metrics, now⟩ := call
    obtain ⟨hb, h1, h2⟩ :=
      AdjustLimit_keeps_bounds overflow { a with metrics := metrics } now h0 hmax hlo hhi
    have hb' : (AdaptiveLimiter.AdjustLimit overflow { a with metrics := metrics } now).baseLimit
        = a.baseLimit := hb
    obtain ⟨k0, k1, k2⟩ := ih _ (by rw [hb']; exact h0) (by rw [hb']; exact hmax)
      (by rw [hb']; exact h1) (by rw [hb']; exact h2)
    rw [hb'] at k0 k1 k2
    exact ⟨k0, k1, k2⟩

set_option maxRecDepth 1000000 in
/-- C27, as stated, fails for a large base limit: with the base limit 4.2 * 10^18, whose double
is an `int64`, eight calls under light load bring the current limit to the ceiling
8.4 * 10^18; in the ninth call the product with 1.1 is beyond the `int64`, the conversion on
`amd64` gives the least `int64`, and the limit is below half the base limit. -/
theorem adjustAll_overflow_counterexample :
    (0 : Int) ≤ 4200000000000000000 ∧ (4200000000000000000 : Int) * 2 < 2 ^ 63 ∧
    (adjustAll amd64 (NewAdaptiveLimiter 4200000000000000000 Minute 0)
      (calmMinutes 8)).GetCurrentLimit = 8400000000000000000 ∧
    (adjustAll amd64 (NewAdaptiveLimiter 4200000000000000000 Minute 0)
      (calmMinutes 9)).GetCurrentLimit = -2 ^ 63 ∧
    ¬ (4200000000000000000 / 2 ≤ (adjustAll amd64
      (NewAdaptiveLimiter 4200000000000000000 Minute 0) (calmMinutes 9)).GetCurrentLimit) := by
  decide

/-- C27: for a limiter made by `NewAdaptiveLimiter` with a base limit from 0 to
4.19 * 10^18, after every sequence of calls of `AdjustLimit`, with whatever metrics and at
whatever times, and whatever an out-of-range conversion would give, the current limit is at
least half the base limit (integer division) and at most twice the base limit. -/
theorem adjustAll_within_bounds (overflow : Float64 → Int) (baseLimit window now : Int)
    (calls : List (Metrics × Int)) (h0 : 0 ≤ baseLimit)
    (hmax : baseLimit ≤ 4190000000000000000) :
    baseLimit / 2
      ≤ (adjustAll overflow (NewAdaptiveLimiter baseLimit window now) calls).GetCurrentLimit ∧
    (adjustAll overflow (NewAdaptiveLimiter baseLimit window now) calls).GetCurrentLimit
      ≤ baseLimit * 2 := by
  have h := adjustAll_keeps_bounds overflow calls (NewAdaptiveLimiter baseLimit window now) h0
    hmax (by show baseLimit / 2 ≤ baseLimit; omega) (by show baseLimit ≤ baseLimit * 2; omega)
  exact ⟨h.2.1, h.2.2⟩

set_option maxRecDepth 1000000 in
/-- C27 at the base limit 100: after three calls under light load the limit is 133, between 50
and 200, and after twelve it is 200. -/
theorem adjustAll_within_bounds_witness :
    (100 : Int) / 2
      ≤ (adjustAll amd64 (NewAdaptiveLimiter 100 Minute 0) (calmMinutes 3)).GetCurrentLimit ∧
    (adjustAll amd64 (NewAdaptiveLimiter 100 Minute 0) (calmMinutes 3)).GetCurrentLimit
      ≤ 100 * 2 ∧
    (adjustAll amd64 (NewAdaptiveLimiter 100 Minute 0) (calmMinutes 3)).GetCurrentLimit = 133 ∧
    (adjustAll amd64 (NewAdaptiveLimiter 100 Minute 0) (calmMinutes 12)).GetCurrentLimit = 200 :=
  ⟨(adjustAll_within_bounds amd64 100 Minute 0 (calmMinutes 3) (by decide) (by decide)).1,
   (adjustAll_within_bounds amd64 100 Minute 0 (calmMinutes 3) (by decide) (by decide)).2,
   by decide, by decide⟩

set_option maxRecDepth 1000000 in
/-- C28, as stated, fails for a small limit: a limiter with the base limit 5 that is called a
minute after its creation, with an error rate below 1% and an average response time below
200 ms, keeps the limit 5, which is not the ceiling 10: the conversion cuts 5.5 down to 5. It
also fails for a negative base limit: with the base limit -10 and an error rate above 5% the
limit goes up from -10 to -5. -/
theorem AdjustLimit_small_limit_counterexample :
    (Float64.lt smallLimiter.metrics.GetErrorRate (Float64.ofRatio 1 100) = true ∧
      smallLimiter.metrics.GetAverageResponseTime < 200 * Millisecond) ∧
    Minute ≤ Minute - smallLimiter.lastAdjusted ∧
    smallLimiter.currentLimit = 5 ∧ smallLimiter.baseLimit * 2 = 10 ∧
    (smallLimiter.AdjustLimit amd64 Minute).currentLimit = 5 ∧
    Float64.lt (Float64.ofRatio 5 100) negativeLimiter.metrics.GetErrorRate = true ∧
    negativeLimiter.currentLimit = -10 ∧
    (negativeLimiter.AdjustLimit amd64 Minute).currentLimit = -5 := by
  decide

/-- C28: for a limiter with a base limit from 0 to 4.19 * 10^18 whose current limit is
between half the base limit and twice the base limit. When at least a minute has passed since
the last adjustment, `AdjustLimit` sets the time of the last adjustment, and: if the error
rate is above 5% or the average response time above 1 s, it does not raise the current limit,
and lowers it unless it is at the floor `baseLimit/2`; if the error rate is below 1% and the
average response time below 200 ms, it does not lower the current limit, and raises it when
the limit is at least 10 and not at the ceiling `baseLimit*2`. When less than a minute has
passed, `AdjustLimit` changes nothing. -/
theorem AdjustLimit_direction (overflow : Float64 → Int) (a : AdaptiveLimiter) (now : Int)
    (h0 : 0 ≤ a.baseLimit) (hmax : a.baseLimit ≤ 4190000000000000000)
    (hlo : a.baseLimit / 2 ≤ a.currentLimit) (hhi : a.currentLimit ≤ a.baseLimit * 2) :
    (Minute ≤ now - a.lastAdjusted →
      (a.AdjustLimit overflow now).lastAdjusted = now ∧
      (Float64.lt (Float64.ofRatio 5 100) a.metrics.GetErrorRate = true ∨
          a.metrics.GetAverageResponseTime > 1 * Second →
        (a.AdjustLimit overflow now).currentLimit ≤ a.currentLimit ∧
        (a.currentLimit ≠ a.baseLimit / 2 →
          (a.AdjustLimit overflow now).currentLimit < a.currentLimit)) ∧
      (Float64.lt a.metrics.GetErrorRate (Float64.ofRatio 1 100) = true ∧
          a.metrics.GetAverageResponseTime < 200 * Millisecond →
        a.currentLimit ≤ (a.AdjustLimit overflow now).currentLimit ∧
        (10 ≤ a.currentLimit → a.currentLimit ≠ a.baseLimit * 2 →
          a.currentLimit < (a.AdjustLimit overflow now).currentLimit))) ∧
    (now - a.lastAdjusted < Minute → a.AdjustLimit overflow now = a) := by
  refine ⟨fun hmin => ?_, fun hmin => ?_⟩
  · obtain ⟨_, ht, hc⟩ := AdjustLimit_of_minute overflow a now (by omega)
    obtain ⟨d1, d2, d3⟩ := scaleDown_bounds overflow a.currentLimit (by omega) (by omega)
    obtain ⟨u1, u2, u3⟩ := scaleUp_bounds overflow a.currentLimit (by omega) (by omega)
    have htdiv : Int.tdiv a.baseLimit 2 = a.baseLimit / 2 := Int.tdiv_eq_ediv h0 (by decide)
    have hwrap : wrap64 (a.baseLimit * 2) = a.baseLimit * 2 := by
      unfold wrap64
      omega
    rw [htdiv, hwrap] at hc
    refine ⟨ht, fun hhigh => ?_, fun hlow => ?_⟩
    · rw [hc, if_pos hhigh]
      refine ⟨?_, fun hne => ?_⟩
      · split_ifs <;> omega
      · have := d3 (by omega)
        split_ifs <;> omega
    · rw [hc, if_neg (fun hhigh => high_excludes_low a.metrics hhigh hlow), if_pos hlow]
      refine ⟨?_, fun h10 hne => ?_⟩
      · split_ifs <;> omega
      · have := u3 h10
        split_ifs <;> omega
  · unfold AdaptiveLimiter.AdjustLimit
    rw [if_pos hmin]

set_option maxRecDepth 1000000 in
/-- C28 at the base limit 100, a minute after the creation: with 10% of errors the limit goes
down from 100 to 90, under light load it goes up from 100 to 110, and half a minute after the
creation nothing changes. -/
theorem AdjustLimit_direction_witness :
    ((sampleLimiter troubledMetrics).AdjustLimit amd64 Minute).currentLimit = 90 ∧
    ((sampleLimiter troubledMetrics).AdjustLimit amd64 Minute).currentLimit
      < (sampleLimiter troubledMetrics).currentLimit ∧
    ((sampleLimiter calmMetrics).AdjustLimit amd64 Minute).currentLimit = 110 ∧
    (sampleLimiter calmMetrics).currentLimit
      < ((sampleLimiter calmMetrics).AdjustLimit amd64 Minute).currentLimit ∧
    (sampleLimiter calmMetrics).AdjustLimit amd64 (30 * Second) = sampleLimiter calmMetrics :=
  ⟨by decide,
   (((AdjustLimit_direction amd64 (sampleLimiter troubledMetrics) Minute (by decide) (by decide)
      (by decide) (by decide)).1 (by decide)).2.1 (Or.inl (by decide))).2 (by decide),
   by decide,
   (((AdjustLimit_direction amd64 (sampleLimiter calmMetrics) Minute (by decide) (by decide)
      (by decide) (by decide)).1 (by decide)).2.2 ⟨by decide, by decide⟩).2 (by decide)
      (by decide),
   (AdjustLimit_direction amd64 (sampleLimiter calmMetrics) (30 * Second) (by decide)
      (by decide) (by decide) (by decide)).2 (by decide)⟩

end Ratelimit
